import Mathlib

/-!
# hello-world-avs: the operator task-response service

A shallow embedding of the hand-written Go packages `contract` and `eigen`
together with the parts of the generated binding `abis` they call.

* Go `string` and `[]byte` are lists of byte values (`Bytes`).
* `*big.Int` is `Option Int` (`none` is the nil pointer); `uint64` and
  `uint32` are `Nat`.
* A Go `error` is `Option GoError`; a Go result `(T, error)` is
  `Except GoError T`.
* Everything outside the repository (hash functions, ECDSA, the ledger
  client, the bound contract) is a parameter: the pure primitives are the
  fields of `Library`, the replies of the ledger node are the fields of
  `Client` and `BoundContract`.
* Calls that leave the process are recorded, in order, in a `List Call`.
-/

/-- Go byte strings: every element is a byte value. -/
abbrev Bytes := List Nat

/-- The bytes of an ASCII string literal of the source. -/
def ascii (s : String) : Bytes := s.toList.map Char.toNat

/-- Go error values. `Wrap` and `New` are those of `github.com/pkg/errors`,
`Errorf` is `fmt.Errorf` with one `%v` argument, `lib` is an error value
made by a library outside the repository. -/
inductive GoError where
  | New (message : String)
  | Wrap (err : GoError) (message : String)
  | Errorf (format : String) (err : GoError)
  | lib (code : Nat)
deriving DecidableEq, Repr

/-- The function `errors.Wrap`: it returns nil when `err` is nil. -/
def errors.Wrap (err : Option GoError) (message : String) : Option GoError :=
  match err with
  | none => none
  | some e => some (GoError.Wrap e message)

/-- The type `common.Address`. -/
abbrev Address := Nat

/-- The type `ecdsa.PublicKey`. -/
structure PublicKey where
  X : Int
  Y : Int
deriving DecidableEq, Repr

/-- The type `ecdsa.PrivateKey`. -/
structure PrivateKey where
  PublicKey : PublicKey
  D : Int
deriving DecidableEq, Repr

/-- The type `types.Transaction`, identified by its hash. -/
structure Transaction where
  hash : Nat
deriving DecidableEq, Repr

/-- The fields of `bind.TransactOpts` the repository reads or writes. -/
structure TransactOpts where
  From : Address
  Nonce : Option Int
  Value : Option Int
  GasPrice : Option Int
  GasLimit : Nat
deriving DecidableEq, Repr

/-- The struct `IHelloWorldServiceManagerTask` of the binding. -/
structure IHelloWorldServiceManagerTask where
  Name : Bytes
  TaskCreatedBlock : Nat
deriving DecidableEq, Repr

/-- The struct `HelloWorldNewTaskCreated` of the binding (`Raw` is the
originating log, identified by a number). -/
structure HelloWorldNewTaskCreated where
  TaskIndex : Nat
  Task : IHelloWorldServiceManagerTask
  Raw : Nat
deriving DecidableEq, Repr

/-- The struct `delegationmanager.IDelegationManagerOperatorDetails`; the
default value is Go's zero value. -/
structure IDelegationManagerOperatorDetails where
  DeprecatedEarningsReceiver : Address := 0
  DelegationApprover : Address := 0
  StakerOptOutWindowBlocks : Nat := 0
deriving DecidableEq, Repr

/-- The arguments handed to `BoundContract.Transact`. -/
inductive Param where
  | string (s : Bytes)
  | uint32 (n : Nat)
  | bytes (b : Bytes)
  | task (t : IHelloWorldServiceManagerTask)
  | operatorDetails (d : IDelegationManagerOperatorDetails)
deriving DecidableEq, Repr

/-- The calls that leave the process. -/
inductive Call where
  | PendingNonceAt (account : Address)
  | Sign (priv : PrivateKey) (hash : Bytes)
  | Transact (opts : TransactOpts) (method : String) (params : List Param)
  | SendTransaction (tx : Transaction)
deriving DecidableEq, Repr

/-- The pure primitives of the libraries the repository calls. -/
structure Library where
  /-- The type assertion `pk.Public().(*ecdsa.PublicKey)`: `none` when it
  does not hold. -/
  Public : PrivateKey → Option PublicKey
  /-- The function `crypto.PubkeyToAddress`. -/
  PubkeyToAddress : PublicKey → Address
  /-- The function `common.HexToAddress`. -/
  HexToAddress : Bytes → Address
  /-- The function `crypto.Keccak256Hash`. -/
  Keccak256Hash : Bytes → Bytes
  /-- The function `sha256.Sum256`. -/
  Sum256 : Bytes → Bytes
  /-- The function `ecdsa.Sign`, the first argument being what `rand.Reader`
  yields. -/
  Sign : Nat → PrivateKey → Bytes → Except GoError (Int × Int)
  /-- The function `ecdsa.Verify`. -/
  Verify : PublicKey → Bytes → Int → Int → Bool
  /-- The function `bind.NewKeyedTransactorWithChainID`. -/
  NewKeyedTransactorWithChainID : PrivateKey → Option Int → Except GoError TransactOpts

/-- The replies of the ledger node (`ethclient.Client`). -/
structure Client where
  NetworkID : Except GoError (Option Int)
  PendingNonceAt : Address → Except GoError Nat
  SendTransaction : Transaction → Option GoError

/-- The reply of `bind.BoundContract.Transact`. -/
structure BoundContract where
  Transact : TransactOpts → String → List Param → Except GoError Transaction

/-- The Go conversion `int64(n)` of a `uint64`. -/
def int64 (n : Nat) : Int :=
  if n % 2 ^ 64 < 2 ^ 63 then ((n % 2 ^ 64 : Nat) : Int)
  else ((n % 2 ^ 64 : Nat) : Int) - 2 ^ 64

/-- The minimal big-endian bytes of a natural number, with a bound on the
number of digits produced. -/
def beBytes : Nat → Nat → Bytes
  | 0, _ => []
  | fuel + 1, n => if n = 0 then [] else beBytes fuel (n / 256) ++ [n % 256]

/-- The method `(*big.Int).Bytes`: the absolute value as a big-endian byte
slice without leading zero bytes. -/
def bigBytes (x : Int) : Bytes := beBytes x.natAbs x.natAbs

/-- One lowercase hexadecimal digit. -/
def hexDigit (d : Nat) : Nat := if d < 10 then 48 + d else 87 + d

/-- The function `hex.EncodeToString`. -/
def hexEncode : Bytes → Bytes
  | [] => []
  | b :: bs => hexDigit (b / 16) :: hexDigit (b % 16) :: hexEncode bs

/-- The method `common.Hash.Hex`: the characters `0x` and the hex digits. -/
def Hex (h : Bytes) : Bytes := ascii "0x" ++ hexEncode h

namespace helloworld

/-- The method `HelloWorldTransactor.CreateNewTask`. -/
def CreateNewTask (contract : BoundContract) (opts : TransactOpts) (name : Bytes) :
    List Call × Except GoError Transaction :=
  ([Call.Transact opts "createNewTask" [Param.string name]],
    contract.Transact opts "createNewTask" [Param.string name])

/-- The method `HelloWorldTransactor.RespondToTask`. -/
def RespondToTask (contract : BoundContract) (opts : TransactOpts)
    (task : IHelloWorldServiceManagerTask) (referenceTaskIndex : Nat) (signature : Bytes) :
    List Call × Except GoError Transaction :=
  ([Call.Transact opts "respondToTask"
      [Param.task task, Param.uint32 referenceTaskIndex, Param.bytes signature]],
    contract.Transact opts "respondToTask"
      [Param.task task, Param.uint32 referenceTaskIndex, Param.bytes signature])

end helloworld

namespace contract

/-- The data fields of `contract.Service`; `client`, `helloWorld` and
`logger` are handles whose replies are passed where they are used. -/
structure Service where
  gasLimit : Nat
  gasPrice : Option Int
  chainID : Option Int
  helloWorldAddress : Address
deriving DecidableEq, Repr

set_option linter.unusedVariables false in
/-- The function `contract.New`; `bound` is the error of
`helloworld.NewHelloWorld`. The literal does not set `gasPrice`, which
keeps Go's zero value nil. -/
def New (L : Library) (client : Client) (bound : Option GoError) (gasLimit : Nat)
    (gasPrice : Option Int) (smartContractAddress : Bytes) : Except GoError Service :=
  match client.NetworkID with
  | .error err => .error (GoError.Wrap err "Error while getting network id")
  | .ok chainID =>
    let helloWorldAddress := L.HexToAddress smartContractAddress
    match bound with
    | some err => .error (GoError.Wrap err "Error while creating smar")
    | none =>
      .ok { gasLimit := gasLimit
            gasPrice := none
            chainID := chainID
            helloWorldAddress := helloWorldAddress }

/-- The method `Service.transactor`. -/
def transactor (L : Library) (s : Service) (client : Client) (pk : PrivateKey) :
    List Call × Except GoError TransactOpts :=
  match L.Public pk with
  | none => ([], .error (GoError.New "Could not create public key from private key"))
  | some publicKeyECDSA =>
    let fromAddress := L.PubkeyToAddress publicKeyECDSA
    match client.PendingNonceAt fromAddress with
    | .error err =>
      ([Call.PendingNonceAt fromAddress], .error (GoError.Wrap err "Error while getting nonce"))
    | .ok nonce =>
      match L.NewKeyedTransactorWithChainID pk s.chainID with
      | .error err =>
        ([Call.PendingNonceAt fromAddress],
          .error (GoError.Wrap err "Error while creating transactor"))
      | .ok transactor =>
        ([Call.PendingNonceAt fromAddress],
          .ok { transactor with
                Nonce := some (int64 nonce)
                Value := some 0
                GasLimit := s.gasLimit
                GasPrice := s.gasPrice })

/-- The method `Service.CreateNewTask`; the result is the returned error. -/
def CreateNewTask (L : Library) (s : Service) (client : Client) (helloWorld : BoundContract)
    (pk : PrivateKey) (name : Bytes) : List Call × Option GoError :=
  match transactor L s client pk with
  | (c1, .error err) => (c1, some err)
  | (c1, .ok opts) =>
    match helloworld.CreateNewTask helloWorld opts name with
    | (c2, .error err) => (c1 ++ c2, some (GoError.Wrap err "Error while calling create_task"))
    | (c2, .ok tx) =>
      match client.SendTransaction tx with
      | some err =>
        (c1 ++ c2 ++ [Call.SendTransaction tx],
          some (GoError.Wrap err "Error while sending transaction"))
      | none => (c1 ++ c2 ++ [Call.SendTransaction tx], none)

/-- The function `signMessage`; `rand` is what `rand.Reader` yields. -/
def signMessage (L : Library) (rand : Nat) (pk : PrivateKey) (message : Bytes) :
    List Call × Except GoError Bytes :=
  let hash := L.Sum256 message
  match L.Sign rand pk hash with
  | .error err => ([Call.Sign pk hash], .error (GoError.Errorf "failed to sign message: %v" err))
  | .ok (r, s) => ([Call.Sign pk hash], .ok (bigBytes r ++ bigBytes s))

/-- The function `eip191Hash`. -/
def eip191Hash (L : Library) (msg : Bytes) : Bytes :=
  let hash := L.Keccak256Hash msg
  [0x19, 0x01] ++ Hex hash

/-- What one evaluation of the `select` of the responder loop receives. -/
inductive Received where
  | err (e : Option GoError)
  | task (t : HelloWorldNewTaskCreated)
deriving DecidableEq, Repr

/-- One turn of the responder loop: what the `select` receives and what
the outside replies while that turn runs. -/
structure Round where
  received : Received
  client : Client
  rand : Nat
  helloWorld : BoundContract

/-- How a run of the responder over finitely many rounds ends: the
function returned `err`, or the loop is blocked in its `select`. -/
inductive Outcome where
  | returned (err : Option GoError)
  | waiting
deriving DecidableEq, Repr

/-- The `for`/`select` loop of `Service.StartListeningForEvents`. -/
def listen (L : Library) (s : Service) (pk : PrivateKey) : List Round → List Call × Outcome
  | [] => ([], Outcome.waiting)
  | round :: rest =>
    match round.received with
    | Received.err err => ([], Outcome.returned (errors.Wrap err "Subscription error"))
    | Received.task task =>
      match transactor L s round.client pk with
      | (c1, .error err) => (c1, Outcome.returned (some err))
      | (c1, .ok opts) =>
        let msgEip191 := eip191Hash L (ascii "Hello " ++ task.Task.Name)
        let msg := msgEip191
        match signMessage L round.rand pk msg with
        | (c2, .error err) =>
          (c1 ++ c2, Outcome.returned (errors.Wrap (some err) "Error while signing message"))
        | (c2, .ok sig) =>
          let c3 := (helloworld.RespondToTask round.helloWorld opts task.Task task.TaskIndex sig).1
          let next := listen L s pk rest
          (c1 ++ c2 ++ c3 ++ next.1, next.2)

/-- The method `Service.StartListeningForEvents`; `watch` is the error of
`WatchNewTaskCreated`. -/
def StartListeningForEvents (L : Library) (s : Service) (watch : Option GoError)
    (pk : PrivateKey) (rounds : List Round) : List Call × Outcome :=
  match watch with
  | some err => ([], Outcome.returned (errors.Wrap (some err) "Error while subscribing for logs"))
  | none => listen L s pk rounds

end contract

namespace eigen

/-- The data fields of `eigen.Service`. -/
structure Service where
  chainID : Option Int
  gasLimit : Nat
  gasPrice : Option Int
  delegationAddress : Address
deriving DecidableEq, Repr

/-- The function `eigen.New`; `bound` is the error of
`delegationmanager.NewContractDelegationManager`. -/
def New (L : Library) (gasLimit : Nat) (gasPrice : Option Int) (delegationAddress : Bytes)
    (bound : Option GoError) (client : Client) : Except GoError Service :=
  let delegationContractAddress := L.HexToAddress delegationAddress
  match bound with
  | some err => .error (GoError.Wrap err "Error while creating delegation manager")
  | none =>
    match client.NetworkID with
    | .error err => .error (GoError.Wrap err "Error while getting network id")
    | .ok chainID =>
      .ok { chainID := chainID
            gasLimit := gasLimit
            gasPrice := gasPrice
            delegationAddress := delegationContractAddress }

/-- The method `ContractDelegationManagerTransactor.RegisterAsOperator`. -/
def delegationRegisterAsOperator (contract : BoundContract) (opts : TransactOpts)
    (registeringOperatorDetails : IDelegationManagerOperatorDetails) (metadataURI : Bytes) :
    List Call × Except GoError Transaction :=
  ([Call.Transact opts "registerAsOperator"
      [Param.operatorDetails registeringOperatorDetails, Param.string metadataURI]],
    contract.Transact opts "registerAsOperator"
      [Param.operatorDetails registeringOperatorDetails, Param.string metadataURI])

/-- The method `Service.RegisterAsOperator`. -/
def RegisterAsOperator (L : Library) (s : Service) (client : Client) (delegation : BoundContract)
    (pk : PrivateKey) : List Call × Option GoError :=
  match L.Public pk with
  | none => ([], some (GoError.New "Could not create public key from private key"))
  | some publicKeyECDSA =>
    let fromAddress := L.PubkeyToAddress publicKeyECDSA
    match client.PendingNonceAt fromAddress with
    | .error err =>
      ([Call.PendingNonceAt fromAddress], some (GoError.Wrap err "Error while getting nonce"))
    | .ok nonce =>
      match L.NewKeyedTransactorWithChainID pk s.chainID with
      | .error err =>
        ([Call.PendingNonceAt fromAddress],
          some (GoError.Wrap err "Error while creating transactor"))
      | .ok keyed =>
        let transactor : TransactOpts :=
          { keyed with
            Nonce := some (int64 nonce)
            Value := some 0
            GasLimit := s.gasLimit
            GasPrice := some 21000 }
        let opDetails : IDelegationManagerOperatorDetails := {}
        match delegationRegisterAsOperator delegation transactor opDetails (ascii "") with
        | (c2, .error err) =>
          (Call.PendingNonceAt fromAddress :: c2,
            some (GoError.Wrap err "Error while registering as operator"))
        | (c2, .ok tx) =>
          match client.SendTransaction tx with
          | some err =>
            (Call.PendingNonceAt fromAddress :: c2 ++ [Call.SendTransaction tx],
              some (GoError.Wrap err "Error while sending transaction"))
          | none => (Call.PendingNonceAt fromAddress :: c2 ++ [Call.SendTransaction tx], none)

end eigen

/-! ## Observations on the recorded calls -/

/-- The hashes handed to `ecdsa.Sign`, in call order. -/
def signedHashes (calls : List Call) : List Bytes :=
  calls.filterMap fun c =>
    match c with
    | Call.Sign _ hash => some hash
    | _ => none

/-- The accounts whose pending nonce was looked up, in call order. -/
def nonceLookups (calls : List Call) : List Address :=
  calls.filterMap fun c =>
    match c with
    | Call.PendingNonceAt account => some account
    | _ => none

/-- The options records handed to the bound contracts, in call order. -/
def builtOpts (calls : List Call) : List TransactOpts :=
  calls.filterMap fun c =>
    match c with
    | Call.Transact opts _ _ => some opts
    | _ => none

/-- The arguments of one `respondToTask` call. -/
structure Response where
  opts : TransactOpts
  task : IHelloWorldServiceManagerTask
  referenceTaskIndex : Nat
  signature : Bytes
deriving DecidableEq, Repr

/-- Reads a recorded call as a `respondToTask` call. -/
def asResponse (c : Call) : Option Response :=
  match c with
  | Call.Transact opts method [Param.task task, Param.uint32 index, Param.bytes sig] =>
    if method = "respondToTask" then some ⟨opts, task, index, sig⟩ else none
  | _ => none

/-- The `respondToTask` calls, in call order. -/
def respondCalls (calls : List Call) : List Response := calls.filterMap asResponse

/-- The events the rounds deliver on the `tasks` channel, in order. -/
def delivered (rounds : List contract.Round) : List HelloWorldNewTaskCreated :=
  rounds.filterMap fun r =>
    match r.received with
    | contract.Received.task t => some t
    | contract.Received.err _ => none

/-- The method `(*big.Int).SetBytes`: the value of a big-endian byte slice. -/
def beValue (b : Bytes) : Nat := b.foldl (fun acc x => acc * 256 + x) 0

/-! ## A small concrete instance of the outside world -/

/-- A library instance with toy primitives: a signature is
`(k + 1, k + 1 + |X| + Σ hash)` for the public key `(X, Y)`. -/
def toyLibrary : Library where
  Public := fun pk => if pk.D = 0 then none else some pk.PublicKey
  PubkeyToAddress := fun p => p.X.natAbs % 2 ^ 160
  HexToAddress := fun b => beValue b % 2 ^ 160
  Keccak256Hash := fun b => (b.reverse ++ List.replicate 32 0).take 32
  Sum256 := fun b => (b.map (fun x => (x + 1) % 256) ++ List.replicate 32 7).take 32
  Sign := fun k pk hash =>
    if k = 0 then .error (GoError.lib 1)
    else .ok ((k : Int) + 1, (k : Int) + 1 + pk.PublicKey.X.natAbs + hash.sum)
  Verify := fun p hash r s => decide (0 < r ∧ s = r + p.X.natAbs + hash.sum)
  NewKeyedTransactorWithChainID := fun pk chainID =>
    match chainID with
    | none => .error (GoError.lib 2)
    | some _ => .ok { From := pk.D.natAbs % 2 ^ 160, Nonce := none, Value := none,
                      GasPrice := none, GasLimit := 0 }

/-- A ledger node on chain 17000 that answers every nonce lookup with
`nonce` and accepts every transaction. -/
def toyClient (nonce : Nat) : Client where
  NetworkID := .ok (some 17000)
  PendingNonceAt := fun _ => .ok nonce
  SendTransaction := fun _ => none

/-- A ledger node whose nonce lookup fails. -/
def downClient : Client where
  NetworkID := .ok (some 17000)
  PendingNonceAt := fun _ => .error (GoError.lib 3)
  SendTransaction := fun _ => some (GoError.lib 4)

/-- A bound contract that accepts every call. -/
def toyContract : BoundContract where
  Transact := fun opts _ _ => .ok ⟨opts.Nonce.getD 0 |>.natAbs⟩

/-- A bound contract that rejects every call. -/
def rejectingContract : BoundContract where
  Transact := fun _ _ _ => .error (GoError.lib 5)

/-- A signing key. -/
def toyKey : PrivateKey := ⟨⟨9, 0⟩, 9⟩

/-- A key whose public part is not an ECDSA public key. -/
def badKey : PrivateKey := ⟨⟨0, 0⟩, 0⟩

/-- The service `contract.New` builds on the toy node. -/
def toyService : contract.Service :=
  { gasLimit := 300000, gasPrice := none, chainID := some 17000, helloWorldAddress := 0 }

/-- The event of scenario A. -/
def fooEvent : HelloWorldNewTaskCreated := ⟨5, ⟨ascii "Foo", 1000⟩, 0⟩

/-- A round that delivers `ev` while the ledger answers with `nonce`. -/
def toyRound (ev : HelloWorldNewTaskCreated) (nonce rand : Nat) : contract.Round :=
  { received := contract.Received.task ev, client := toyClient nonce, rand := rand,
    helloWorld := toyContract }

/-! ## The operator's `main` -/

/-- The Go conversion `uint64(x)` of an `int`. -/
def uint64 (x : Int) : Nat := (x % 2 ^ 64).toNat

namespace operator

/-- What the libraries that only `main` calls reply. A key missing from the
environment file reads as the empty string, as in a Go map. -/
structure Host where
  /-- The function `godotenv.Read`. -/
  Read : Except GoError (String → Bytes)
  /-- The function `ethclient.Dial`: the node's replies during start-up. -/
  Dial : Bytes → Except GoError Client
  /-- The function `strconv.Atoi`. -/
  Atoi : Bytes → Except GoError Int
  /-- The function `crypto.HexToECDSA`. -/
  HexToECDSA : Bytes → Except GoError PrivateKey
  /-- The error of `helloworld.NewHelloWorld`. -/
  NewHelloWorld : Option GoError
  /-- The error of `delegationmanager.NewContractDelegationManager`. -/
  NewContractDelegationManager : Option GoError

/-- How a run of `main` ends: `logger.Fatalf` ends the process, or `main`
returns, or the responder loop is blocked in its `select`. -/
inductive Exit where
  | fatal (format : String) (err : GoError)
  | returned
  | waiting
deriving DecidableEq, Repr

/-- The function `main` of `cmd/operator`. `Atoi` yields a Go `int`, 64 bits
wide, so `int64(gasPrice)` is the value itself. -/
def main (L : Library) (H : Host) (delegation : BoundContract) (watch : Option GoError)
    (rounds : List contract.Round) : List Call × Exit :=
  match H.Read with
  | .error err => ([], Exit.fatal "Error while reading .env file: %v\n" err)
  | .ok env =>
    match H.Dial (ascii "ws://" ++ env "RPC_URL") with
    | .error err => ([], Exit.fatal "Error while connecting to Ethereum client: %v\n" err)
    | .ok client =>
      match H.Atoi (env "GAS_LIMIT") with
      | .error err => ([], Exit.fatal "Error while parsing gas limit: %v\n" err)
      | .ok gasLimit =>
        match H.Atoi (env "GAS_PRICE") with
        | .error err => ([], Exit.fatal "Error while parsing gas limit: %v\n" err)
        | .ok gasPrice =>
          let gasPriceInt : Option Int := some gasPrice
          match contract.New L client H.NewHelloWorld (uint64 gasLimit) gasPriceInt
              (env "HELLO_WORLD_ADDRESS") with
          | .error err =>
            ([], Exit.fatal "Error while creating smart contract service: %v\n" err)
          | .ok contractService =>
            match eigen.New L (uint64 gasLimit) gasPriceInt
                (env "HOLESKY_DELEGATION_MANAGER_ADDRESS") H.NewContractDelegationManager
                client with
            | .error err =>
              ([], Exit.fatal "Error while creating eigen smart contract service: %v\n" err)
            | .ok eigenService =>
              match H.HexToECDSA (env "WALLET_KEY") with
              | .error err => ([], Exit.fatal "Failed to load private key: %v\n" err)
              | .ok privateKey =>
                match eigen.RegisterAsOperator L eigenService client delegation privateKey with
                | (c1, some err) => (c1, Exit.fatal "Error registering as operator: %v\n" err)
                | (c1, none) =>
                  match contract.StartListeningForEvents L contractService watch privateKey
                      rounds with
                  | (c2, contract.Outcome.returned (some err)) =>
                    (c1 ++ c2,
                      Exit.fatal "Error while listening for smart contract events: %v\n" err)
                  | (c2, contract.Outcome.returned none) => (c1 ++ c2, Exit.returned)
                  | (c2, contract.Outcome.waiting) => (c1 ++ c2, Exit.waiting)

end operator

/-- The transactions handed to `SendTransaction`, in call order. -/
def sentTransactions (calls : List Call) : List Transaction :=
  calls.filterMap fun c =>
    match c with
    | Call.SendTransaction tx => some tx
    | _ => none

/-- An environment file with every value the operator reads. -/
def toyEnv (key : String) : Bytes :=
  if key = "RPC_URL" then ascii "localhost:8545"
  else if key = "GAS_LIMIT" then ascii "300000"
  else if key = "GAS_PRICE" then ascii "5"
  else if key = "WALLET_KEY" then ascii "09"
  else if key = "HELLO_WORLD_ADDRESS" then ascii "0x01"
  else if key = "HOLESKY_DELEGATION_MANAGER_ADDRESS" then ascii "0x02"
  else []

/-- A host on which start-up succeeds: the node answers nonce lookups with 7. -/
def toyHost : operator.Host where
  Read := .ok toyEnv
  Dial := fun _ => .ok (toyClient 7)
  Atoi := fun b => if b = ascii "300000" then .ok 300000 else if b = ascii "5" then .ok 5
    else .error (GoError.lib 6)
  HexToECDSA := fun b => if b = ascii "09" then .ok toyKey else .error (GoError.lib 7)
  NewHelloWorld := none
  NewContractDelegationManager := none

/-- A round in which the subscription's error channel yields `e`. -/
def errRound (e : Option GoError) : contract.Round :=
  { received := contract.Received.err e, client := toyClient 0, rand := 0,
    helloWorld := toyContract }

/-- A round that delivers `ev` to a contract that rejects the call. -/
def rejectedRound (ev : HelloWorldNewTaskCreated) (nonce rand : Nat) : contract.Round :=
  { received := contract.Received.task ev, client := toyClient nonce, rand := rand,
    helloWorld := rejectingContract }

/-- A second event. -/
def barEvent : HelloWorldNewTaskCreated := ⟨6, ⟨ascii "Bar", 1001⟩, 1⟩

/-! ## The event feed of the binding -/

/-- The type `types.Log`, identified by a number, as in the `Raw` field. -/
abbrev Log := Nat

/-- The zero value of `HelloWorldNewTaskCreated`, what `new` allocates. -/
def newEvent : HelloWorldNewTaskCreated := ⟨0, ⟨[], 0⟩, 0⟩

namespace helloworld

/-- What the inner `select` of the forwarding loop does with a decoded
event: it is sent to the sink, or the feed's error channel yields a value,
or `quit` is closed. -/
inductive Forward where
  | sent
  | err (e : Option GoError)
  | quit
deriving DecidableEq, Repr

/-- What the outer `select` of the forwarding loop receives. -/
inductive Turn where
  | log (l : Log) (next : Forward)
  | err (e : Option GoError)
  | quit
deriving DecidableEq, Repr

/-- How the forwarding function stands after finitely many turns: it has
returned `err`, or it is blocked in its outer `select`. -/
inductive Stream where
  | ended (err : Option GoError)
  | running
deriving DecidableEq, Repr

/-- The function `WatchNewTaskCreated` hands to `event.NewSubscription`;
`UnpackLog` is the decoder of the bound contract for `NewTaskCreated`. The
result lists the events sent to the sink, in order. -/
def WatchNewTaskCreated.loop (UnpackLog : Log → Except GoError HelloWorldNewTaskCreated) :
    List Turn → List HelloWorldNewTaskCreated × Stream
  | [] => ([], Stream.running)
  | Turn.log log next :: rest =>
    match UnpackLog log with
    | .error err => ([], Stream.ended (some err))
    | .ok event =>
      let event := { event with Raw := log }
      match next with
      | Forward.sent =>
        let later := WatchNewTaskCreated.loop UnpackLog rest
        (event :: later.1, later.2)
      | Forward.err err => ([], Stream.ended err)
      | Forward.quit => ([], Stream.ended none)
  | Turn.err err :: _ => ([], Stream.ended err)
  | Turn.quit :: _ => ([], Stream.ended none)

/-- The method `HelloWorldFilterer.WatchNewTaskCreated`; `watchLogs` is the
error of `WatchLogs`. -/
def WatchNewTaskCreated (watchLogs : Option GoError)
    (UnpackLog : Log → Except GoError HelloWorldNewTaskCreated) (turns : List Turn) :
    Except GoError (List HelloWorldNewTaskCreated × Stream) :=
  match watchLogs with
  | some err => .error err
  | none => .ok (WatchNewTaskCreated.loop UnpackLog turns)

/-- The struct `HelloWorldNewTaskCreatedIterator`: `logs` and `sub` hold what
is waiting in the log channel and in `sub.Err()`. -/
structure HelloWorldNewTaskCreatedIterator where
  Event : Option HelloWorldNewTaskCreated
  logs : List Log
  sub : List (Option GoError)
  done : Bool
  fail : Option GoError
deriving DecidableEq, Repr

/-- How one call of `Next` stands: it returned, or it is blocked in its
`select` because neither channel holds a value, or the bound on the number of
activations was reached. -/
inductive NextResult where
  | returned (more : Bool)
  | blocked
  | unfinished
deriving DecidableEq, Repr

/-- The body of `case log := <-it.logs` in `Next`; on a decoding error
`Event` is the freshly allocated event. -/
def Next.caseLog (UnpackLog : Log → Except GoError HelloWorldNewTaskCreated)
    (it : HelloWorldNewTaskCreatedIterator) (log : Log) (rest : List Log) :
    HelloWorldNewTaskCreatedIterator × NextResult :=
  match UnpackLog log with
  | .error err =>
    ({ it with logs := rest, Event := some newEvent, fail := some err },
      NextResult.returned false)
  | .ok event =>
    ({ it with logs := rest, Event := some { event with Raw := log } },
      NextResult.returned true)

/-- The method `HelloWorldNewTaskCreatedIterator.Next`, with a bound on the
number of activations. `pickErr` settles the `select` when both channels hold
a value. The result is the iterator afterwards, how the call stands and the
number of activations made. -/
def Next (UnpackLog : Log → Except GoError HelloWorldNewTaskCreated) (pickErr : Bool) :
    Nat → HelloWorldNewTaskCreatedIterator →
      HelloWorldNewTaskCreatedIterator × NextResult × Nat
  | 0, it => (it, NextResult.unfinished, 0)
  | fuel + 1, it =>
    if it.fail ≠ none then (it, NextResult.returned false, 1)
    else if it.done then
      match it.logs with
      | log :: rest =>
        ((Next.caseLog UnpackLog it log rest).1, (Next.caseLog UnpackLog it log rest).2, 1)
      | [] => (it, NextResult.returned false, 1)
    else
      match it.logs, it.sub with
      | [], [] => (it, NextResult.blocked, 1)
      | log :: rest, [] =>
        ((Next.caseLog UnpackLog it log rest).1, (Next.caseLog UnpackLog it log rest).2, 1)
      | [], err :: errs =>
        let inner := Next UnpackLog pickErr fuel { it with sub := errs, done := true, fail := err }
        (inner.1, inner.2.1, inner.2.2 + 1)
      | log :: rest, err :: errs =>
        if pickErr then
          let inner :=
            Next UnpackLog pickErr fuel { it with sub := errs, done := true, fail := err }
          (inner.1, inner.2.1, inner.2.2 + 1)
        else
          ((Next.caseLog UnpackLog it log rest).1, (Next.caseLog UnpackLog it log rest).2, 1)

/-- The method `HelloWorldNewTaskCreatedIterator.Error`. -/
def Error (it : HelloWorldNewTaskCreatedIterator) : Option GoError := it.fail

end helloworld

/-- The logs the turns feed to the forwarding loop, in order. -/
def fedLogs (turns : List helloworld.Turn) : List Log :=
  turns.filterMap fun t =>
    match t with
    | helloworld.Turn.log l _ => some l
    | _ => none

/-! ## The task generator `cmd/spam` -/

/-- The verb `%d` of `fmt.Sprintf` on a non-negative `int`, with a bound on
the number of digits. -/
def decimalFuel : Nat → Nat → Bytes
  | 0, _ => []
  | fuel + 1, n => if n < 10 then [48 + n] else decimalFuel fuel (n / 10) ++ [48 + n % 10]

/-- The verb `%d` of `fmt.Sprintf` on a non-negative `int`. -/
def decimal (n : Nat) : Bytes := decimalFuel (n + 1) n

namespace spam

/-- The slice `adjectives` of `generateRandomName`. -/
def adjectives : List Bytes :=
  [ascii "Quick", ascii "Lazy", ascii "Sleepy", ascii "Noisy", ascii "Hungry"]

/-- The slice `nouns` of `generateRandomName`. -/
def nouns : List Bytes := [ascii "Fox", ascii "Dog", ascii "Cat", ascii "Mouse", ascii "Bear"]

/-- The function `generateRandomName`; `Intn k n` is what the `k`-th call of
`rand.Intn` after the seeding returns for the bound `n`. The result is `none`
when an index is out of range (the Go code panics). -/
def generateRandomName (Intn : Nat → Nat → Nat) : Option Bytes :=
  let adjIndex := Intn 0 adjectives.length
  let nounIndex := Intn 1 nouns.length
  let number := Intn 2 1000
  match adjectives[adjIndex]?, nouns[nounIndex]? with
  | some adjective, some noun => some (adjective ++ noun ++ decimal number)
  | _, _ => none

/-- One turn of the loop of `main`: the random source and what the outside
replies while that turn runs. -/
structure Round where
  Intn : Nat → Nat → Nat
  client : Client
  helloWorld : BoundContract

/-- How a run of `main` over finitely many turns ends: `logger.Fatalf` ends
the process, or an index was out of range, or the loop is sleeping. -/
inductive Exit where
  | fatal (format : String) (err : GoError)
  | panicked
  | sleeping
deriving DecidableEq, Repr

/-- The `for` loop of `main`. -/
def loop (L : Library) (s : contract.Service) (pk : PrivateKey) :
    List Round → List Call × Exit
  | [] => ([], Exit.sleeping)
  | round :: rest =>
    match generateRandomName round.Intn with
    | none => ([], Exit.panicked)
    | some name =>
      match contract.CreateNewTask L s round.client round.helloWorld pk name with
      | (c, some err) => (c, Exit.fatal "Failed to create a new task: %w" err)
      | (c, none) =>
        let later := loop L s pk rest
        (c ++ later.1, later.2)

/-- The function `main` of `cmd/spam`. -/
def main (L : Library) (H : operator.Host) (rounds : List Round) : List Call × Exit :=
  match H.Read with
  | .error err => ([], Exit.fatal "Error while reading .env file: %w" err)
  | .ok env =>
    match H.Dial (ascii "ws://" ++ env "RPC_URL") with
    | .error err => ([], Exit.fatal "Error while connecting to Ethereum client: %w" err)
    | .ok client =>
      match H.Atoi (env "GAS_LIMIT") with
      | .error err => ([], Exit.fatal "Error while parsing gas limit: %w" err)
      | .ok gasLimit =>
        match H.Atoi (env "GAS_PRICE") with
        | .error err => ([], Exit.fatal "Error while parsing gas limit: %v\n" err)
        | .ok gasPrice =>
          let gasPriceInt : Option Int := some gasPrice
          match contract.New L client H.NewHelloWorld (uint64 gasLimit) gasPriceInt
              (env "HELLO_WORLD_ADDRESS") with
          | .error err =>
            ([], Exit.fatal "Error while creating smart contract service: %w" err)
          | .ok contractService =>
            match H.HexToECDSA (env "WALLET_KEY") with
            | .error err => ([], Exit.fatal "Failed to load private key: %w" err)
            | .ok privateKey => loop L contractService privateKey rounds

end spam

/-- A decoder of logs: log `l` carries the task `Foo` with index `l`, and
the logs from 100 on do not decode. -/
def toyUnpackLog (l : Log) : Except GoError HelloWorldNewTaskCreated :=
  if l < 100 then .ok ⟨l, ⟨ascii "Foo", 1000 + l⟩, 0⟩ else .error (GoError.lib 8)

/-- An environment file without the two contract addresses. -/
def noAddressEnv (key : String) : Bytes :=
  if key = "RPC_URL" then ascii "localhost:8545"
  else if key = "GAS_LIMIT" then ascii "300000"
  else if key = "GAS_PRICE" then ascii "5"
  else if key = "WALLET_KEY" then ascii "09"
  else []

/-- An environment file with a negative gas limit and a negative gas price. -/
def negativeGasEnv (key : String) : Bytes :=
  if key = "RPC_URL" then ascii "localhost:8545"
  else if key = "GAS_LIMIT" then ascii "-1"
  else if key = "GAS_PRICE" then ascii "-5"
  else if key = "WALLET_KEY" then ascii "09"
  else if key = "HELLO_WORLD_ADDRESS" then ascii "0x01"
  else if key = "HOLESKY_DELEGATION_MANAGER_ADDRESS" then ascii "0x02"
  else []

/-- A host on which start-up succeeds that reads the environment `env` and
parses the integers the toy environments use. -/
def hostWith (env : String → Bytes) : operator.Host where
  Read := .ok env
  Dial := fun _ => .ok (toyClient 7)
  Atoi := fun b =>
    if b = ascii "300000" then .ok 300000
    else if b = ascii "5" then .ok 5
    else if b = ascii "-1" then .ok (-1)
    else if b = ascii "-5" then .ok (-5)
    else .error (GoError.lib 6)
  HexToECDSA := fun b => if b = ascii "09" then .ok toyKey else .error (GoError.lib 7)
  NewHelloWorld := none
  NewContractDelegationManager := none

/-- A random source that always draws `k` reduced below the bound. -/
def toyIntn (k : Nat) : Nat → Nat → Nat := fun _ n => k % n

/-- The value of a string of decimal digits. -/
def decimalValue (b : Bytes) : Nat := b.foldl (fun acc c => acc * 10 + (c - 48)) 0

/-- Every name `generateRandomName` can assemble: an adjective, a noun and
the decimal form of a number below 1000. -/
def spamNames : List Bytes :=
  spam.adjectives.flatMap fun adjective =>
    spam.nouns.flatMap fun noun =>
      (List.range 1000).map fun number => adjective ++ noun ++ decimal number

/-- The calls of `BoundContract.Transact`, the binding's paid mutator
transactions, in call order: the method and its arguments. -/
def transactCalls (calls : List Call) : List (String × List Param) :=
  calls.filterMap fun c =>
    match c with
    | Call.Transact _ method params => some (method, params)
    | _ => none

/-! ## Lemmas on the observations -/

theorem signedHashes_append (a b : List Call) :
    signedHashes (a ++ b) = signedHashes a ++ signedHashes b := by
  simp [signedHashes, List.filterMap_append]

theorem respondCalls_append (a b : List Call) :
    respondCalls (a ++ b) = respondCalls a ++ respondCalls b := by
  simp [respondCalls, List.filterMap_append]

theorem builtOpts_append (a b : List Call) :
    builtOpts (a ++ b) = builtOpts a ++ builtOpts b := by
  simp [builtOpts, List.filterMap_append]

/-- The calls of `transactor`: none, or one nonce lookup. -/
theorem transactor_calls (L : Library) (s : contract.Service) (client : Client)
    (pk : PrivateKey) :
    (contract.transactor L s client pk).1 = [] ∨
      ∃ a, (contract.transactor L s client pk).1 = [Call.PendingNonceAt a] := by
  unfold contract.transactor
  cases L.Public pk with
  | none => simp
  | some pub =>
    right
    refine ⟨L.PubkeyToAddress pub, ?_⟩
    simp only
    cases client.PendingNonceAt (L.PubkeyToAddress pub) with
    | error e => rfl
    | ok n =>
      simp only
      cases L.NewKeyedTransactorWithChainID pk s.chainID <;> rfl

theorem transactor_signedHashes (L : Library) (s : contract.Service) (client : Client)
    (pk : PrivateKey) : signedHashes (contract.transactor L s client pk).1 = [] := by
  rcases transactor_calls L s client pk with h | ⟨a, h⟩ <;> rw [h] <;> rfl

theorem transactor_respondCalls (L : Library) (s : contract.Service) (client : Client)
    (pk : PrivateKey) : respondCalls (contract.transactor L s client pk).1 = [] := by
  rcases transactor_calls L s client pk with h | ⟨a, h⟩ <;> rw [h] <;> rfl

/-- The one call of `signMessage`: `ecdsa.Sign` on the SHA-256 of the message. -/
theorem signMessage_calls (L : Library) (rand : Nat) (pk : PrivateKey) (message : Bytes) :
    (contract.signMessage L rand pk message).1 = [Call.Sign pk (L.Sum256 message)] := by
  unfold contract.signMessage
  simp only
  cases L.Sign rand pk (L.Sum256 message) <;> rfl

/-- The result of `signMessage` when `ecdsa.Sign` succeeds. -/
theorem signMessage_ok (L : Library) (rand : Nat) (pk : PrivateKey) (message : Bytes)
    (r s : Int) (h : L.Sign rand pk (L.Sum256 message) = .ok (r, s)) :
    (contract.signMessage L rand pk message).2 = .ok (bigBytes r ++ bigBytes s) := by
  unfold contract.signMessage
  simp only [h]

/-- The result of `signMessage` when `ecdsa.Sign` fails. -/
theorem signMessage_error (L : Library) (rand : Nat) (pk : PrivateKey) (message : Bytes)
    (e : GoError) (h : L.Sign rand pk (L.Sum256 message) = .error e) :
    (contract.signMessage L rand pk message).2
      = .error (GoError.Errorf "failed to sign message: %v" e) := by
  unfold contract.signMessage
  simp only [h]

/-- A round that receives a subscription error ends the loop. -/
theorem listen_cons_err (L : Library) (s : contract.Service) (pk : PrivateKey)
    (round : contract.Round) (rest : List contract.Round) (e : Option GoError)
    (hrecv : round.received = contract.Received.err e) :
    contract.listen L s pk (round :: rest)
      = ([], contract.Outcome.returned (errors.Wrap e "Subscription error")) := by
  simp only [contract.listen, hrecv]

/-- A round whose options cannot be built ends the loop. -/
theorem listen_cons_build_error (L : Library) (s : contract.Service) (pk : PrivateKey)
    (round : contract.Round) (rest : List contract.Round) (task : HelloWorldNewTaskCreated)
    (e : GoError) (hrecv : round.received = contract.Received.task task)
    (hbuild : (contract.transactor L s round.client pk).2 = .error e) :
    contract.listen L s pk (round :: rest)
      = ((contract.transactor L s round.client pk).1, contract.Outcome.returned (some e)) := by
  simp only [contract.listen, hrecv]
  revert hbuild
  cases contract.transactor L s round.client pk with
  | mk c1 res =>
    intro hbuild
    simp only at hbuild
    subst hbuild
    rfl

/-- A round whose signing fails ends the loop after the `ecdsa.Sign` call. -/
theorem listen_cons_sign_error (L : Library) (s : contract.Service) (pk : PrivateKey)
    (round : contract.Round) (rest : List contract.Round) (task : HelloWorldNewTaskCreated)
    (opts : TransactOpts) (e : GoError)
    (hrecv : round.received = contract.Received.task task)
    (hbuild : (contract.transactor L s round.client pk).2 = .ok opts)
    (hsign : (contract.signMessage L round.rand pk
      (contract.eip191Hash L (ascii "Hello " ++ task.Task.Name))).2 = .error e) :
    contract.listen L s pk (round :: rest)
      = ((contract.transactor L s round.client pk).1 ++
          [Call.Sign pk (L.Sum256 (contract.eip191Hash L (ascii "Hello " ++ task.Task.Name)))],
        contract.Outcome.returned (some (GoError.Wrap e "Error while signing message"))) := by
  have hc := signMessage_calls L round.rand pk
    (contract.eip191Hash L (ascii "Hello " ++ task.Task.Name))
  simp only [contract.listen, hrecv]
  revert hbuild hsign hc
  cases contract.transactor L s round.client pk with
  | mk c1 res =>
    cases contract.signMessage L round.rand pk
      (contract.eip191Hash L (ascii "Hello " ++ task.Task.Name)) with
    | mk c2 res2 =>
      intro hbuild hsign hc
      simp only at hbuild hsign hc
      subst hbuild hsign hc
      rfl

/-- A round that builds and signs makes its `respondToTask` call and the
loop goes on with the remaining rounds, whatever the call returns. -/
theorem listen_cons_ok (L : Library) (s : contract.Service) (pk : PrivateKey)
    (round : contract.Round) (rest : List contract.Round) (task : HelloWorldNewTaskCreated)
    (opts : TransactOpts) (sig : Bytes)
    (hrecv : round.received = contract.Received.task task)
    (hbuild : (contract.transactor L s round.client pk).2 = .ok opts)
    (hsign : (contract.signMessage L round.rand pk
      (contract.eip191Hash L (ascii "Hello " ++ task.Task.Name))).2 = .ok sig) :
    contract.listen L s pk (round :: rest)
      = ((contract.transactor L s round.client pk).1 ++
          [Call.Sign pk (L.Sum256 (contract.eip191Hash L (ascii "Hello " ++ task.Task.Name)))] ++
          [Call.Transact opts "respondToTask"
            [Param.task task.Task, Param.uint32 task.TaskIndex, Param.bytes sig]] ++
          (contract.listen L s pk rest).1,
        (contract.listen L s pk rest).2) := by
  have hc := signMessage_calls L round.rand pk
    (contract.eip191Hash L (ascii "Hello " ++ task.Task.Name))
  simp only [contract.listen, hrecv]
  revert hbuild hsign hc
  cases contract.transactor L s round.client pk with
  | mk c1 res =>
    cases contract.signMessage L round.rand pk
      (contract.eip191Hash L (ascii "Hello " ++ task.Task.Name)) with
    | mk c2 res2 =>
      intro hbuild hsign hc
      simp only at hbuild hsign hc
      subst hbuild hsign hc
      rfl

/-- Every call to `signMessage` either fails or returns bytes. -/
theorem signMessage_cases (L : Library) (rand : Nat) (pk : PrivateKey) (message : Bytes) :
    (∃ e, (contract.signMessage L rand pk message).2 = .error e) ∨
      ∃ sig, (contract.signMessage L rand pk message).2 = .ok sig := by
  cases h : (contract.signMessage L rand pk message).2 with
  | error e => exact Or.inl ⟨e, rfl⟩
  | ok sig => exact Or.inr ⟨sig, rfl⟩

/-! ## Lemmas on the big-endian encoding -/

theorem beValue_append_singleton (l : Bytes) (x : Nat) :
    beValue (l ++ [x]) = beValue l * 256 + x := by
  simp [beValue, List.foldl_append]

/-- Decoding the minimal big-endian bytes gives the number back. -/
theorem beValue_beBytes : ∀ (fuel n : Nat), n ≤ fuel → beValue (beBytes fuel n) = n := by
  intro fuel
  induction fuel with
  | zero =>
    intro n hn
    have h0 : n = 0 := Nat.le_zero.mp hn
    subst h0
    rfl
  | succ fuel ih =>
    intro n hn
    by_cases h0 : n = 0
    · subst h0
      rfl
    · have hdiv : n / 256 ≤ fuel := by omega
      simp only [beBytes, h0, if_false]
      rw [beValue_append_singleton, ih (n / 256) hdiv]
      omega

/-- A number below `256 ^ k` has at most `k` bytes. -/
theorem beBytes_length_le :
    ∀ (fuel n k : Nat), n < 256 ^ k → (beBytes fuel n).length ≤ k := by
  intro fuel
  induction fuel with
  | zero => intro n k _; simp [beBytes]
  | succ fuel ih =>
    intro n k hk
    by_cases h0 : n = 0
    · subst h0
      simp [beBytes]
    · cases k with
      | zero => simp at hk; exact absurd hk h0
      | succ k =>
        have hdiv : n / 256 < 256 ^ k := by
          rw [Nat.div_lt_iff_lt_mul (by norm_num)]
          rw [pow_succ] at hk
          exact hk
        have := ih (n / 256) k hdiv
        simp only [beBytes, h0, if_false, List.length_append, List.length_singleton]
        omega

/-- A number that is at least `256 ^ k` has more than `k` bytes. -/
theorem beBytes_length_gt :
    ∀ (fuel n k : Nat), n ≤ fuel → 256 ^ k ≤ n → k < (beBytes fuel n).length := by
  intro fuel
  induction fuel with
  | zero =>
    intro n k hn hk
    have hpos : 0 < 256 ^ k := by positivity
    omega
  | succ fuel ih =>
    intro n k hn hk
    have hpos : 0 < 256 ^ k := by positivity
    have h0 : n ≠ 0 := by omega
    simp only [beBytes, h0, if_false, List.length_append, List.length_singleton]
    cases k with
    | zero => omega
    | succ k =>
      have hdiv : 256 ^ k ≤ n / 256 := by
        rw [Nat.le_div_iff_mul_le (by norm_num)]
        rw [pow_succ] at hk
        exact hk
      have := ih (n / 256) k (by omega) hdiv
      omega

theorem bigBytes_value (x : Int) : beValue (bigBytes x) = x.natAbs :=
  beValue_beBytes x.natAbs x.natAbs (Nat.le_refl _)

theorem bigBytes_value_pos (x : Int) (hx : 0 < x) : (beValue (bigBytes x) : Int) = x := by
  rw [bigBytes_value]
  omega

theorem bigBytes_length_le (x : Int) (k : Nat) (hx : x.natAbs < 256 ^ k) :
    (bigBytes x).length ≤ k :=
  beBytes_length_le x.natAbs x.natAbs k hx

theorem bigBytes_length_gt (x : Int) (k : Nat) (hx : 256 ^ k ≤ x.natAbs) :
    k < (bigBytes x).length :=
  beBytes_length_gt x.natAbs x.natAbs k (Nat.le_refl _) hx

theorem bigBytes_ne_nil (x : Int) (hx : 0 < x) : bigBytes x ≠ [] := by
  have h := bigBytes_length_gt x 0 (by simp; omega)
  intro hnil
  rw [hnil] at h
  simp at h

/-! ## Lemmas on the responder loop -/

theorem except_cases {ε α : Type} (x : Except ε α) :
    (∃ e, x = .error e) ∨ ∃ a, x = .ok a := by
  cases x with
  | error e => exact Or.inl ⟨e, rfl⟩
  | ok a => exact Or.inr ⟨a, rfl⟩

theorem delivered_cons_task (round : contract.Round) (rest : List contract.Round)
    (task : HelloWorldNewTaskCreated) (hrecv : round.received = contract.Received.task task) :
    delivered (round :: rest) = task :: delivered rest := by
  simp [delivered, List.filterMap_cons, hrecv]

theorem delivered_cons_err (round : contract.Round) (rest : List contract.Round)
    (e : Option GoError) (hrecv : round.received = contract.Received.err e) :
    delivered (round :: rest) = delivered rest := by
  simp [delivered, List.filterMap_cons, hrecv]

/-- What one round that delivers a task adds to the run: the calls of
`transactor`, then at most one `ecdsa.Sign` call on the hash of the task's
message, then at most one `respondToTask` call for the task and its index. -/
theorem listen_cons_task (L : Library) (s : contract.Service) (pk : PrivateKey)
    (round : contract.Round) (rest : List contract.Round) (task : HelloWorldNewTaskCreated)
    (hrecv : round.received = contract.Received.task task) :
    (signedHashes (contract.listen L s pk (round :: rest)).1 = []
        ∧ respondCalls (contract.listen L s pk (round :: rest)).1 = [])
    ∨ (signedHashes (contract.listen L s pk (round :: rest)).1
          = [L.Sum256 (contract.eip191Hash L (ascii "Hello " ++ task.Task.Name))]
        ∧ respondCalls (contract.listen L s pk (round :: rest)).1 = [])
    ∨ (∃ opts sig,
        signedHashes (contract.listen L s pk (round :: rest)).1
          = L.Sum256 (contract.eip191Hash L (ascii "Hello " ++ task.Task.Name))
              :: signedHashes (contract.listen L s pk rest).1
        ∧ respondCalls (contract.listen L s pk (round :: rest)).1
          = ⟨opts, task.Task, task.TaskIndex, sig⟩
              :: respondCalls (contract.listen L s pk rest).1) := by
  rcases except_cases (contract.transactor L s round.client pk).2 with ⟨e, he⟩ | ⟨opts, hopts⟩
  · left
    rw [listen_cons_build_error L s pk round rest task e hrecv he]
    exact ⟨transactor_signedHashes L s round.client pk, transactor_respondCalls L s round.client pk⟩
  · rcases except_cases (contract.signMessage L round.rand pk
      (contract.eip191Hash L (ascii "Hello " ++ task.Task.Name))).2 with ⟨e, he⟩ | ⟨sig, hsig⟩
    · right; left
      rw [listen_cons_sign_error L s pk round rest task opts e hrecv hopts he]
      simp only [signedHashes_append, respondCalls_append, transactor_signedHashes,
        transactor_respondCalls]
      exact ⟨rfl, rfl⟩
    · right; right
      refine ⟨opts, sig, ?_⟩
      rw [listen_cons_ok L s pk round rest task opts sig hrecv hopts hsig]
      simp only [signedHashes_append, respondCalls_append, transactor_signedHashes,
        transactor_respondCalls]
      exact ⟨rfl, rfl⟩

/-- The hashes signed during a run are, in order, the hashes of the messages
of the first delivered tasks. -/
theorem listen_signedHashes (L : Library) (s : contract.Service) (pk : PrivateKey) :
    ∀ rounds : List contract.Round, ∃ more,
      signedHashes (contract.listen L s pk rounds).1 ++ more
        = (delivered rounds).map fun ev =>
            L.Sum256 (contract.eip191Hash L (ascii "Hello " ++ ev.Task.Name)) := by
  intro rounds
  induction rounds with
  | nil => exact ⟨[], rfl⟩
  | cons round rest ih =>
    cases hrecv : round.received with
    | err e =>
      rw [listen_cons_err L s pk round rest e hrecv, delivered_cons_err round rest e hrecv]
      exact ⟨_, rfl⟩
    | task task =>
      rw [delivered_cons_task round rest task hrecv]
      rcases listen_cons_task L s pk round rest task hrecv with
        ⟨h, _⟩ | ⟨h, _⟩ | ⟨opts, sig, h, _⟩
      · rw [h]
        exact ⟨_, rfl⟩
      · rw [h]
        exact ⟨_, rfl⟩
      · obtain ⟨more, hmore⟩ := ih
        rw [h]
        refine ⟨more, ?_⟩
        simp only [List.cons_append, List.map_cons, hmore]

/-- The `respondToTask` calls of a run carry, in order, the task and the
index of the first delivered events. -/
theorem listen_respondCalls (L : Library) (s : contract.Service) (pk : PrivateKey) :
    ∀ rounds : List contract.Round, ∃ more,
      (respondCalls (contract.listen L s pk rounds).1).map
          (fun c => (c.task, c.referenceTaskIndex)) ++ more
        = (delivered rounds).map fun ev => (ev.Task, ev.TaskIndex) := by
  intro rounds
  induction rounds with
  | nil => exact ⟨[], rfl⟩
  | cons round rest ih =>
    cases hrecv : round.received with
    | err e =>
      rw [listen_cons_err L s pk round rest e hrecv, delivered_cons_err round rest e hrecv]
      exact ⟨_, rfl⟩
    | task task =>
      rw [delivered_cons_task round rest task hrecv]
      rcases listen_cons_task L s pk round rest task hrecv with
        ⟨_, h⟩ | ⟨_, h⟩ | ⟨opts, sig, _, h⟩
      · rw [h]
        exact ⟨_, rfl⟩
      · rw [h]
        exact ⟨_, rfl⟩
      · obtain ⟨more, hmore⟩ := ih
        rw [h]
        refine ⟨more, ?_⟩
        simp only [List.cons_append, List.map_cons, hmore]

/-- A run that is still waiting after the rounds `pre` goes on with the
rounds that follow. -/
theorem listen_append (L : Library) (s : contract.Service) (pk : PrivateKey)
    (rs : List contract.Round) :
    ∀ pre : List contract.Round, (contract.listen L s pk pre).2 = contract.Outcome.waiting →
      contract.listen L s pk (pre ++ rs)
        = ((contract.listen L s pk pre).1 ++ (contract.listen L s pk rs).1,
            (contract.listen L s pk rs).2) := by
  intro pre
  induction pre with
  | nil => intro _; rfl
  | cons round pre ih =>
    intro hwait
    cases hrecv : round.received with
    | err e =>
      rw [listen_cons_err L s pk round pre e hrecv] at hwait
      cases hwait
    | task task =>
      rcases except_cases (contract.transactor L s round.client pk).2 with ⟨e, he⟩ | ⟨opts, hopts⟩
      · rw [listen_cons_build_error L s pk round pre task e hrecv he] at hwait
        cases hwait
      · rcases except_cases (contract.signMessage L round.rand pk
          (contract.eip191Hash L (ascii "Hello " ++ task.Task.Name))).2 with ⟨e, he⟩ | ⟨sig, hsig⟩
        · rw [listen_cons_sign_error L s pk round pre task opts e hrecv hopts he] at hwait
          cases hwait
        · rw [listen_cons_ok L s pk round pre task opts sig hrecv hopts hsig] at hwait
          simp only at hwait
          rw [List.cons_append, listen_cons_ok L s pk round (pre ++ rs) task opts sig hrecv hopts hsig,
            listen_cons_ok L s pk round pre task opts sig hrecv hopts hsig, ih hwait]
          simp only [List.append_assoc]

/-- A run in which every round delivers a task, builds the options and signs
never returns: it makes one `respondToTask` call per round and waits. -/
theorem listen_all_ok (L : Library) (s : contract.Service) (pk : PrivateKey) :
    ∀ rounds : List contract.Round,
      (∀ round ∈ rounds, ∃ task opts sig,
        round.received = contract.Received.task task
        ∧ (contract.transactor L s round.client pk).2 = .ok opts
        ∧ (contract.signMessage L round.rand pk
            (contract.eip191Hash L (ascii "Hello " ++ task.Task.Name))).2 = .ok sig) →
      (contract.listen L s pk rounds).2 = contract.Outcome.waiting
      ∧ (delivered rounds).length = rounds.length
      ∧ (respondCalls (contract.listen L s pk rounds).1).map
            (fun c => (c.task, c.referenceTaskIndex))
          = (delivered rounds).map fun ev => (ev.Task, ev.TaskIndex) := by
  intro rounds
  induction rounds with
  | nil => intro _; exact ⟨rfl, rfl, rfl⟩
  | cons round rest ih =>
    intro hall
    obtain ⟨task, opts, sig, hrecv, hopts, hsig⟩ := hall round (List.mem_cons_self _ _)
    obtain ⟨hw, hl, hm⟩ := ih fun r hr => hall r (List.mem_cons_of_mem _ hr)
    rw [listen_cons_ok L s pk round rest task opts sig hrecv hopts hsig,
      delivered_cons_task round rest task hrecv]
    refine ⟨hw, by simp [hl], ?_⟩
    simp only [respondCalls_append, transactor_respondCalls, List.nil_append]
    rw [List.map_append, hm]
    rfl

/-! ## Lemmas on the construction of the options -/

/-- The service `contract.New` returns: the gas limit is the argument, the
gas price is nil. -/
theorem contract_New_ok (L : Library) (client : Client) (bound : Option GoError)
    (gasLimit : Nat) (gasPrice : Option Int) (smartContractAddress : Bytes)
    (s : contract.Service)
    (h : contract.New L client bound gasLimit gasPrice smartContractAddress = .ok s) :
    s.gasLimit = gasLimit ∧ s.gasPrice = none := by
  unfold contract.New at h
  cases hid : client.NetworkID with
  | error e => rw [hid] at h; cases h
  | ok chainID =>
    rw [hid] at h
    cases bound with
    | some e => cases h
    | none =>
      simp only [Except.ok.injEq] at h
      subst h
      exact ⟨rfl, rfl⟩

/-- The service `eigen.New` returns: gas limit and gas price are the arguments. -/
theorem eigen_New_ok (L : Library) (gasLimit : Nat) (gasPrice : Option Int)
    (delegationAddress : Bytes) (bound : Option GoError) (client : Client) (s : eigen.Service)
    (h : eigen.New L gasLimit gasPrice delegationAddress bound client = .ok s) :
    s.gasLimit = gasLimit ∧ s.gasPrice = gasPrice := by
  unfold eigen.New at h
  cases bound with
  | some e => cases h
  | none =>
    cases hid : client.NetworkID with
    | error e => simp only [hid] at h; cases h
    | ok chainID =>
      simp only [hid, Except.ok.injEq] at h
      subst h
      exact ⟨rfl, rfl⟩

/-- The result of `transactor` when every step succeeds. -/
theorem transactor_ok (L : Library) (s : contract.Service) (client : Client) (pk : PrivateKey)
    (pub : PublicKey) (nonce : Nat) (keyed : TransactOpts)
    (hpub : L.Public pk = some pub)
    (hnonce : client.PendingNonceAt (L.PubkeyToAddress pub) = .ok nonce)
    (hkeyed : L.NewKeyedTransactorWithChainID pk s.chainID = .ok keyed) :
    contract.transactor L s client pk
      = ([Call.PendingNonceAt (L.PubkeyToAddress pub)],
          .ok { keyed with
                Nonce := some (int64 nonce)
                Value := some 0
                GasLimit := s.gasLimit
                GasPrice := s.gasPrice }) := by
  unfold contract.transactor
  simp only [hpub, hnonce, hkeyed]

/-- Whenever `transactor` returns options, every step has succeeded. -/
theorem transactor_ok_inv (L : Library) (s : contract.Service) (client : Client)
    (pk : PrivateKey) (opts : TransactOpts)
    (h : (contract.transactor L s client pk).2 = .ok opts) :
    ∃ pub nonce keyed,
      L.Public pk = some pub
      ∧ client.PendingNonceAt (L.PubkeyToAddress pub) = .ok nonce
      ∧ L.NewKeyedTransactorWithChainID pk s.chainID = .ok keyed
      ∧ opts = { keyed with
                 Nonce := some (int64 nonce)
                 Value := some 0
                 GasLimit := s.gasLimit
                 GasPrice := s.gasPrice } := by
  unfold contract.transactor at h
  cases hpub : L.Public pk with
  | none => simp only [hpub] at h; cases h
  | some pub =>
    cases hnonce : client.PendingNonceAt (L.PubkeyToAddress pub) with
    | error e => simp only [hpub, hnonce] at h; cases h
    | ok nonce =>
      cases hkeyed : L.NewKeyedTransactorWithChainID pk s.chainID with
      | error e => simp only [hpub, hnonce, hkeyed] at h; cases h
      | ok keyed =>
        simp only [hpub, hnonce, hkeyed, Except.ok.injEq] at h
        exact ⟨pub, nonce, keyed, rfl, hnonce, rfl, h.symm⟩

/-- The options `RegisterAsOperator` hands to the delegation manager when
they are built. -/
theorem RegisterAsOperator_builtOpts_ok (L : Library) (s : eigen.Service) (client : Client)
    (delegation : BoundContract) (pk : PrivateKey)
    (pub : PublicKey) (nonce : Nat) (keyed : TransactOpts)
    (hpub : L.Public pk = some pub)
    (hnonce : client.PendingNonceAt (L.PubkeyToAddress pub) = .ok nonce)
    (hkeyed : L.NewKeyedTransactorWithChainID pk s.chainID = .ok keyed) :
    builtOpts (eigen.RegisterAsOperator L s client delegation pk).1
      = [{ keyed with
           Nonce := some (int64 nonce)
           Value := some 0
           GasLimit := s.gasLimit
           GasPrice := some 21000 }] := by
  unfold eigen.RegisterAsOperator
  simp only [hpub, hnonce, hkeyed, eigen.delegationRegisterAsOperator]
  cases delegation.Transact _ "registerAsOperator"
      [Param.operatorDetails {}, Param.string (ascii "")] with
  | error e => rfl
  | ok tx =>
    simp only
    cases client.SendTransaction tx <;> rfl

/-- Every options record `RegisterAsOperator` hands out was built from a
successful nonce lookup and a keyed transactor. -/
theorem RegisterAsOperator_builtOpts_inv (L : Library) (s : eigen.Service) (client : Client)
    (delegation : BoundContract) (pk : PrivateKey) (opts : TransactOpts)
    (h : opts ∈ builtOpts (eigen.RegisterAsOperator L s client delegation pk).1) :
    ∃ pub nonce keyed,
      L.Public pk = some pub
      ∧ client.PendingNonceAt (L.PubkeyToAddress pub) = .ok nonce
      ∧ L.NewKeyedTransactorWithChainID pk s.chainID = .ok keyed
      ∧ opts = { keyed with
                 Nonce := some (int64 nonce)
                 Value := some 0
                 GasLimit := s.gasLimit
                 GasPrice := some 21000 } := by
  cases hpub : L.Public pk with
  | none =>
    unfold eigen.RegisterAsOperator at h
    simp only [hpub] at h
    cases h
  | some pub =>
    cases hnonce : client.PendingNonceAt (L.PubkeyToAddress pub) with
    | error e =>
      unfold eigen.RegisterAsOperator at h
      simp only [hpub, hnonce] at h
      simp [builtOpts] at h
    | ok nonce =>
      cases hkeyed : L.NewKeyedTransactorWithChainID pk s.chainID with
      | error e =>
        unfold eigen.RegisterAsOperator at h
        simp only [hpub, hnonce, hkeyed] at h
        simp [builtOpts] at h
      | ok keyed =>
        rw [RegisterAsOperator_builtOpts_ok L s client delegation pk pub nonce keyed hpub hnonce
          hkeyed] at h
        exact ⟨pub, nonce, keyed, rfl, hnonce, rfl, List.mem_singleton.mp h⟩

theorem int64_of_lt (n : Nat) (h : n < 2 ^ 63) : int64 n = (n : Int) := by
  unfold int64
  have h1 : n % 2 ^ 64 = n := Nat.mod_eq_of_lt (by omega)
  rw [h1, if_pos h]

theorem int64_of_ge (n : Nat) (h : 2 ^ 63 ≤ n) (h64 : n < 2 ^ 64) :
    int64 n = (n : Int) - 2 ^ 64 := by
  unfold int64
  have h1 : n % 2 ^ 64 = n := Nat.mod_eq_of_lt h64
  rw [h1, if_neg (by omega)]

/-! ## The claims -/

/-- C1: when a round delivers a task named `n` and the transaction options
are built, the hash the responder hands to `ecdsa.Sign` first is
`Sum256 (0x19 0x01 ++ Hex (Keccak256Hash ("Hello " ++ n)))`: that is the one
call `signMessage` makes on the bytes of `eip191Hash ("Hello " ++ n)`. For the
event with index 5 and name `Foo` the string hashed first is `Hello Foo`. -/
theorem signed_digest_two_stage (L : Library) (s : contract.Service) (pk : PrivateKey)
    (round : contract.Round) (rest : List contract.Round) (task : HelloWorldNewTaskCreated)
    (opts : TransactOpts)
    (hrecv : round.received = contract.Received.task task)
    (hbuild : (contract.transactor L s round.client pk).2 = .ok opts) :
    (contract.signMessage L round.rand pk
        (contract.eip191Hash L (ascii "Hello " ++ task.Task.Name))).1
      = [Call.Sign pk
          (L.Sum256 ([0x19, 0x01] ++ Hex (L.Keccak256Hash (ascii "Hello " ++ task.Task.Name))))]
    ∧ (∃ more, signedHashes (contract.StartListeningForEvents L s none pk (round :: rest)).1
        = L.Sum256 ([0x19, 0x01] ++ Hex (L.Keccak256Hash (ascii "Hello " ++ task.Task.Name)))
            :: more)
    ∧ (task.TaskIndex = 5 → task.Task.Name = ascii "Foo" →
        ∃ more, signedHashes (contract.StartListeningForEvents L s none pk (round :: rest)).1
          = L.Sum256 ([0x19, 0x01] ++ Hex (L.Keccak256Hash (ascii "Hello Foo"))) :: more) := by
  have hfirst : ∃ more,
      signedHashes (contract.StartListeningForEvents L s none pk (round :: rest)).1
        = L.Sum256 ([0x19, 0x01] ++ Hex (L.Keccak256Hash (ascii "Hello " ++ task.Task.Name)))
            :: more := by
    simp only [contract.StartListeningForEvents]
    rcases signMessage_cases L round.rand pk
      (contract.eip191Hash L (ascii "Hello " ++ task.Task.Name)) with ⟨e, he⟩ | ⟨sig, hs⟩
    · rw [listen_cons_sign_error L s pk round rest task opts e hrecv hbuild he]
      refine ⟨[], ?_⟩
      simp only [signedHashes_append, transactor_signedHashes]
      rfl
    · rw [listen_cons_ok L s pk round rest task opts sig hrecv hbuild hs]
      refine ⟨signedHashes (contract.listen L s pk rest).1, ?_⟩
      simp only [signedHashes_append, transactor_signedHashes]
      rfl
  refine ⟨?_, hfirst, ?_⟩
  · rw [signMessage_calls]
    rfl
  · intro _ hname
    obtain ⟨more, hmore⟩ := hfirst
    refine ⟨more, ?_⟩
    rw [hmore, hname]
    rfl

/-- C1, at scenario A on the toy instance. -/
theorem signed_digest_two_stage_witness :
    (contract.signMessage toyLibrary 1 toyKey
        (contract.eip191Hash toyLibrary (ascii "Hello " ++ fooEvent.Task.Name))).1
      = [Call.Sign toyKey (toyLibrary.Sum256
          ([0x19, 0x01] ++ Hex (toyLibrary.Keccak256Hash (ascii "Hello " ++ fooEvent.Task.Name))))]
    ∧ (∃ more, signedHashes
          (contract.StartListeningForEvents toyLibrary toyService none toyKey
            (toyRound fooEvent 3 1 :: [])).1
        = toyLibrary.Sum256
            ([0x19, 0x01] ++ Hex (toyLibrary.Keccak256Hash (ascii "Hello " ++ fooEvent.Task.Name)))
            :: more)
    ∧ (fooEvent.TaskIndex = 5 → fooEvent.Task.Name = ascii "Foo" →
        ∃ more, signedHashes
            (contract.StartListeningForEvents toyLibrary toyService none toyKey
              (toyRound fooEvent 3 1 :: [])).1
          = toyLibrary.Sum256 ([0x19, 0x01] ++ Hex (toyLibrary.Keccak256Hash (ascii "Hello Foo")))
              :: more) :=
  signed_digest_two_stage toyLibrary toyService toyKey (toyRound fooEvent 3 1) [] fooEvent
    ⟨9, some 3, some 0, none, 300000⟩ rfl rfl

/-- C2 fails as stated: on the toy instance `ecdsa.Sign` yields `(2, 235)`
and `signMessage` returns the two bytes `[2, 235]`, not 64 bytes. -/
theorem signMessage_not_fixed_width :
    toyLibrary.Sign 1 toyKey (toyLibrary.Sum256 []) = .ok (2, 235)
    ∧ (contract.signMessage toyLibrary 1 toyKey []).2 = .ok [2, 235]
    ∧ ([2, 235] : Bytes).length ≠ 64 :=
  ⟨rfl, rfl, by decide⟩

/-- C2, amended: for an ECDSA result `(r, s)` with `0 < r, s < 2 ^ 256`,
`signMessage` returns `r.Bytes() ++ s.Bytes()`, the big-endian encodings of
`r` and `s` without leading zero bytes and with nothing appended: at most 64
bytes, and exactly 64 bytes, the first 32 being `r` and the last 32 being `s`,
when both are at least `2 ^ 248`. -/
theorem signMessage_concat (L : Library) (rand : Nat) (pk : PrivateKey) (message : Bytes)
    (r s : Int) (hsign : L.Sign rand pk (L.Sum256 message) = .ok (r, s))
    (hr : 0 < r ∧ r < 2 ^ 256) (hs : 0 < s ∧ s < 2 ^ 256) :
    (contract.signMessage L rand pk message).2 = .ok (bigBytes r ++ bigBytes s)
    ∧ (beValue (bigBytes r) : Int) = r
    ∧ (beValue (bigBytes s) : Int) = s
    ∧ (bigBytes r ++ bigBytes s).length ≤ 64
    ∧ (2 ^ 248 ≤ r → 2 ^ 248 ≤ s →
        (bigBytes r ++ bigBytes s).length = 64
        ∧ (bigBytes r ++ bigBytes s).take 32 = bigBytes r
        ∧ (bigBytes r ++ bigBytes s).drop 32 = bigBytes s) := by
  have hr32 : (bigBytes r).length ≤ 32 := bigBytes_length_le r 32 (by omega)
  have hs32 : (bigBytes s).length ≤ 32 := bigBytes_length_le s 32 (by omega)
  refine ⟨signMessage_ok L rand pk message r s hsign, bigBytes_value_pos r hr.1,
    bigBytes_value_pos s hs.1, ?_, ?_⟩
  · rw [List.length_append]
    omega
  · intro hr248 hs248
    have hr31 : 31 < (bigBytes r).length := bigBytes_length_gt r 31 (by omega)
    have hs31 : 31 < (bigBytes s).length := bigBytes_length_gt s 31 (by omega)
    have hrlen : (bigBytes r).length = 32 := by omega
    have hslen : (bigBytes s).length = 32 := by omega
    refine ⟨?_, ?_, ?_⟩
    · rw [List.length_append]
      omega
    · rw [← hrlen, List.take_left]
    · rw [← hrlen, List.drop_left]

set_option maxRecDepth 100000 in
/-- C2 amended, on the toy instance with `r = 2 ^ 255` and `s = 2 ^ 255 + 233`. -/
theorem signMessage_concat_witness :
    (contract.signMessage toyLibrary (2 ^ 255 - 1) toyKey []).2
      = .ok (bigBytes (2 ^ 255) ++ bigBytes (2 ^ 255 + 233))
    ∧ (beValue (bigBytes (2 ^ 255)) : Int) = 2 ^ 255
    ∧ (beValue (bigBytes (2 ^ 255 + 233)) : Int) = 2 ^ 255 + 233
    ∧ (bigBytes (2 ^ 255) ++ bigBytes (2 ^ 255 + 233)).length ≤ 64
    ∧ ((2 : Int) ^ 248 ≤ 2 ^ 255 → (2 : Int) ^ 248 ≤ 2 ^ 255 + 233 →
        (bigBytes (2 ^ 255) ++ bigBytes (2 ^ 255 + 233)).length = 64
        ∧ (bigBytes (2 ^ 255) ++ bigBytes (2 ^ 255 + 233)).take 32 = bigBytes (2 ^ 255)
        ∧ (bigBytes (2 ^ 255) ++ bigBytes (2 ^ 255 + 233)).drop 32
            = bigBytes (2 ^ 255 + 233)) :=
  signMessage_concat toyLibrary (2 ^ 255 - 1) toyKey [] (2 ^ 255) (2 ^ 255 + 233) rfl
    (by norm_num) (by norm_num)

/-- C3: when the options are built for a delivered task and `ecdsa.Sign`
succeeds with `(r, sg)`, signing returns a non-empty byte string that splits
into the big-endian bytes of `r` and of `sg`, it is the signature of the
`respondToTask` call, and, if the ECDSA primitive is correct (what it signs
is positive and verifies), `(r, sg)` verifies under the key's public key
against `Sum256 (eip191Hash ("Hello " ++ name))`. -/
theorem signature_round_trip (L : Library) (s : contract.Service) (pk : PrivateKey)
    (round : contract.Round) (rest : List contract.Round) (task : HelloWorldNewTaskCreated)
    (opts : TransactOpts) (r sg : Int)
    (hrecv : round.received = contract.Received.task task)
    (hbuild : (contract.transactor L s round.client pk).2 = .ok opts)
    (hecdsa : ∀ (k : Nat) (priv : PrivateKey) (h : Bytes) (a b : Int),
      L.Sign k priv h = .ok (a, b) → 0 < a ∧ 0 < b ∧ L.Verify priv.PublicKey h a b = true)
    (hsign : L.Sign round.rand pk
      (L.Sum256 (contract.eip191Hash L (ascii "Hello " ++ task.Task.Name))) = .ok (r, sg)) :
    ∃ sig,
      (contract.signMessage L round.rand pk
        (contract.eip191Hash L (ascii "Hello " ++ task.Task.Name))).2 = .ok sig
      ∧ sig ≠ []
      ∧ (∃ i, (beValue (sig.take i) : Int) = r ∧ (beValue (sig.drop i) : Int) = sg)
      ∧ 0 < r ∧ 0 < sg
      ∧ L.Verify pk.PublicKey
          (L.Sum256 (contract.eip191Hash L (ascii "Hello " ++ task.Task.Name))) r sg = true
      ∧ ((respondCalls
            (contract.StartListeningForEvents L s none pk (round :: rest)).1).head?).map
          Response.signature = some sig := by
  obtain ⟨hr, hsg, hver⟩ := hecdsa _ _ _ _ _ hsign
  have hok := signMessage_ok L round.rand pk _ r sg hsign
  refine ⟨bigBytes r ++ bigBytes sg, hok, ?_, ⟨(bigBytes r).length, ?_, ?_⟩, hr, hsg, hver, ?_⟩
  · intro hnil
    exact bigBytes_ne_nil r hr (List.append_eq_nil.mp hnil).1
  · rw [List.take_left]
    exact bigBytes_value_pos r hr
  · rw [List.drop_left]
    exact bigBytes_value_pos sg hsg
  · simp only [contract.StartListeningForEvents]
    rw [listen_cons_ok L s pk round rest task opts _ hrecv hbuild hok]
    simp only [respondCalls_append, transactor_respondCalls]
    rfl

/-- C3, at scenario A on the toy instance, where the signature is `(2, 1910)`. -/
theorem signature_round_trip_witness :
    ∃ sig,
      (contract.signMessage toyLibrary 1 toyKey
        (contract.eip191Hash toyLibrary (ascii "Hello " ++ fooEvent.Task.Name))).2 = .ok sig
      ∧ sig ≠ []
      ∧ (∃ i, (beValue (sig.take i) : Int) = 2 ∧ (beValue (sig.drop i) : Int) = 1910)
      ∧ (0 : Int) < 2 ∧ (0 : Int) < 1910
      ∧ toyLibrary.Verify toyKey.PublicKey
          (toyLibrary.Sum256 (contract.eip191Hash toyLibrary (ascii "Hello " ++ fooEvent.Task.Name)))
          2 1910 = true
      ∧ ((respondCalls
            (contract.StartListeningForEvents toyLibrary toyService none toyKey
              (toyRound fooEvent 3 1 :: [])).1).head?).map
          Response.signature = some sig :=
  signature_round_trip toyLibrary toyService toyKey (toyRound fooEvent 3 1) [] fooEvent
    ⟨9, some 3, some 0, none, 300000⟩ 2 1910 rfl rfl
    (by
      intro k priv h a b hk
      simp only [toyLibrary] at hk ⊢
      split at hk
      · cases hk
      · injection hk with hk
        injection hk with ha hb
        subst ha hb
        simp only [decide_eq_true_eq]
        have hsum : (0 : Int) ≤ ((h.sum : Nat) : Int) := Int.ofNat_nonneg _
        exact ⟨by omega, by omega, by omega, trivial⟩)
    rfl

/-- C4: the hash handed to `ecdsa.Sign` depends on the task's name alone.
Two runs, with any services, keys, ledger replies and random values, that
each start with an event of the same name hand the same hash to `ecdsa.Sign`
first, whatever the index and the creation block; and in every run the signed
hashes are, in order, `Sum256 (eip191Hash ("Hello " ++ name))` of the first
delivered events. -/
theorem signed_hash_depends_on_name_only (L : Library) (s₁ s₂ : contract.Service)
    (pk₁ pk₂ : PrivateKey) (round₁ round₂ : contract.Round) (rest₁ rest₂ : List contract.Round)
    (task₁ task₂ : HelloWorldNewTaskCreated) (opts₁ opts₂ : TransactOpts)
    (hrecv₁ : round₁.received = contract.Received.task task₁)
    (hrecv₂ : round₂.received = contract.Received.task task₂)
    (hbuild₁ : (contract.transactor L s₁ round₁.client pk₁).2 = .ok opts₁)
    (hbuild₂ : (contract.transactor L s₂ round₂.client pk₂).2 = .ok opts₂)
    (hname : task₁.Task.Name = task₂.Task.Name) :
    (∃ d more₁ more₂,
      signedHashes (contract.StartListeningForEvents L s₁ none pk₁ (round₁ :: rest₁)).1
        = d :: more₁
      ∧ signedHashes (contract.StartListeningForEvents L s₂ none pk₂ (round₂ :: rest₂)).1
        = d :: more₂
      ∧ d = L.Sum256 (contract.eip191Hash L (ascii "Hello " ++ task₁.Task.Name)))
    ∧ ∀ rounds : List contract.Round, ∃ more,
        signedHashes (contract.StartListeningForEvents L s₁ none pk₁ rounds).1 ++ more
          = (delivered rounds).map fun ev =>
              L.Sum256 (contract.eip191Hash L (ascii "Hello " ++ ev.Task.Name)) := by
  have first : ∀ (s : contract.Service) (pk : PrivateKey) (round : contract.Round)
      (rest : List contract.Round) (task : HelloWorldNewTaskCreated) (opts : TransactOpts),
      round.received = contract.Received.task task →
      (contract.transactor L s round.client pk).2 = .ok opts →
      ∃ more, signedHashes (contract.listen L s pk (round :: rest)).1
        = L.Sum256 (contract.eip191Hash L (ascii "Hello " ++ task.Task.Name)) :: more := by
    intro s pk round rest task opts hrecv hbuild
    rcases except_cases (contract.signMessage L round.rand pk
      (contract.eip191Hash L (ascii "Hello " ++ task.Task.Name))).2 with ⟨e, he⟩ | ⟨sig, hsig⟩
    · rw [listen_cons_sign_error L s pk round rest task opts e hrecv hbuild he]
      simp only [signedHashes_append, transactor_signedHashes]
      exact ⟨[], rfl⟩
    · rw [listen_cons_ok L s pk round rest task opts sig hrecv hbuild hsig]
      simp only [signedHashes_append, transactor_signedHashes]
      exact ⟨_, rfl⟩
  obtain ⟨more₁, h₁⟩ := first s₁ pk₁ round₁ rest₁ task₁ opts₁ hrecv₁ hbuild₁
  obtain ⟨more₂, h₂⟩ := first s₂ pk₂ round₂ rest₂ task₂ opts₂ hrecv₂ hbuild₂
  refine ⟨⟨_, more₁, more₂, h₁, ?_, rfl⟩, fun rounds => listen_signedHashes L s₁ pk₁ rounds⟩
  rw [hname]
  exact h₂

/-- C4, on the toy instance: the events `(5, Foo, 1000)` and `(8, Foo, 2000)`,
signed with different random values under different ledger replies. -/
theorem signed_hash_depends_on_name_only_witness :
    (∃ d more₁ more₂,
      signedHashes (contract.StartListeningForEvents toyLibrary toyService none toyKey
          (toyRound fooEvent 3 1 :: [])).1 = d :: more₁
      ∧ signedHashes (contract.StartListeningForEvents toyLibrary toyService none toyKey
          (toyRound ⟨8, ⟨ascii "Foo", 2000⟩, 1⟩ 4 77 :: [toyRound fooEvent 5 2])).1 = d :: more₂
      ∧ d = toyLibrary.Sum256
          (contract.eip191Hash toyLibrary (ascii "Hello " ++ fooEvent.Task.Name)))
    ∧ ∀ rounds : List contract.Round, ∃ more,
        signedHashes (contract.StartListeningForEvents toyLibrary toyService none toyKey rounds).1
            ++ more
          = (delivered rounds).map fun ev =>
              toyLibrary.Sum256 (contract.eip191Hash toyLibrary (ascii "Hello " ++ ev.Task.Name)) :=
  signed_hash_depends_on_name_only toyLibrary toyService toyService toyKey toyKey
    (toyRound fooEvent 3 1) (toyRound ⟨8, ⟨ascii "Foo", 2000⟩, 1⟩ 4 77) [] [toyRound fooEvent 5 2]
    fooEvent ⟨8, ⟨ascii "Foo", 2000⟩, 1⟩
    ⟨9, some 3, some 0, none, 300000⟩ ⟨9, some 4, some 0, none, 300000⟩ rfl rfl rfl rfl rfl

/-- C5: for every sequence of rounds, the `respondToTask` calls of
`StartListeningForEvents` are at most as many as the delivered events, and the
`k`-th call carries the task and the index of the `k`-th delivered event: the
calls, read as (task, index) pairs, are an initial segment of the delivered
events read the same way. -/
theorem respond_calls_follow_events (L : Library) (s : contract.Service)
    (watch : Option GoError) (pk : PrivateKey) (rounds : List contract.Round) :
    (respondCalls (contract.StartListeningForEvents L s watch pk rounds).1).length
        ≤ (delivered rounds).length
    ∧ (∃ more,
        (respondCalls (contract.StartListeningForEvents L s watch pk rounds).1).map
            (fun c => (c.task, c.referenceTaskIndex)) ++ more
          = (delivered rounds).map fun ev => (ev.Task, ev.TaskIndex))
    ∧ ∀ (k : Nat) (c : Response),
        (respondCalls (contract.StartListeningForEvents L s watch pk rounds).1)[k]? = some c →
        ∃ ev, (delivered rounds)[k]? = some ev
          ∧ c.task = ev.Task ∧ c.referenceTaskIndex = ev.TaskIndex := by
  have hseg : ∃ more,
      (respondCalls (contract.StartListeningForEvents L s watch pk rounds).1).map
          (fun c => (c.task, c.referenceTaskIndex)) ++ more
        = (delivered rounds).map fun ev => (ev.Task, ev.TaskIndex) := by
    cases watch with
    | some err => exact ⟨_, rfl⟩
    | none => exact listen_respondCalls L s pk rounds
  obtain ⟨more, hmore⟩ := hseg
  have hlen := congrArg List.length hmore
  simp only [List.length_append, List.length_map] at hlen
  refine ⟨by omega, ⟨more, hmore⟩, ?_⟩
  intro k c hk
  have hget := congrArg (fun l => l[k]?) hmore
  simp only at hget
  have hlt : k < ((respondCalls (contract.StartListeningForEvents L s watch pk rounds).1).map
      (fun c => (c.task, c.referenceTaskIndex))).length := by
    rw [List.length_map]
    exact (List.getElem?_eq_some_iff.mp hk).1
  rw [List.getElem?_append_left hlt, List.getElem?_map, hk, List.getElem?_map] at hget
  cases hev : (delivered rounds)[k]? with
  | none => rw [hev] at hget; simp at hget
  | some ev =>
    rw [hev] at hget
    simp only [Option.map_some', Option.some.injEq, Prod.mk.injEq] at hget
    exact ⟨ev, rfl, hget.1, hget.2⟩

/-- C5, on the toy instance: two events are answered, the third round is a
subscription error and the event after it is not answered. -/
theorem respond_calls_follow_events_witness :
    (respondCalls (contract.StartListeningForEvents toyLibrary toyService none toyKey
        [toyRound fooEvent 3 1, toyRound ⟨6, ⟨ascii "Bar", 1001⟩, 1⟩ 4 2,
          ⟨contract.Received.err (some (GoError.lib 9)), toyClient 5, 3, toyContract⟩,
          toyRound ⟨7, ⟨ascii "Baz", 1002⟩, 2⟩ 5 4]).1).map
        (fun c => (c.task, c.referenceTaskIndex))
      = [(⟨ascii "Foo", 1000⟩, 5), (⟨ascii "Bar", 1001⟩, 6)]
    ∧ (respondCalls (contract.StartListeningForEvents toyLibrary toyService none toyKey
        [toyRound fooEvent 3 1, toyRound ⟨6, ⟨ascii "Bar", 1001⟩, 1⟩ 4 2,
          ⟨contract.Received.err (some (GoError.lib 9)), toyClient 5, 3, toyContract⟩,
          toyRound ⟨7, ⟨ascii "Baz", 1002⟩, 2⟩ 5 4]).1).length
      ≤ (delivered
        [toyRound fooEvent 3 1, toyRound ⟨6, ⟨ascii "Bar", 1001⟩, 1⟩ 4 2,
          ⟨contract.Received.err (some (GoError.lib 9)), toyClient 5, 3, toyContract⟩,
          toyRound ⟨7, ⟨ascii "Baz", 1002⟩, 2⟩ 5 4]).length :=
  ⟨by decide,
    (respond_calls_follow_events toyLibrary toyService none toyKey
      [toyRound fooEvent 3 1, toyRound ⟨6, ⟨ascii "Bar", 1001⟩, 1⟩ 4 2,
        ⟨contract.Received.err (some (GoError.lib 9)), toyClient 5, 3, toyContract⟩,
        toyRound ⟨7, ⟨ascii "Baz", 1002⟩, 2⟩ 5 4]).1⟩

/-- C6: every delivered event for which the options are built and the signing
succeeds gets exactly one `respondToTask` call, with its task, its index and
the signature, after which the loop goes on with the next round, whatever the
call returned. In particular a run of `N` such events, with no subscription
error, makes exactly `N` calls, one per event in order, and is then waiting. -/
theorem one_response_per_event (L : Library) (s : contract.Service) (pk : PrivateKey)
    (rounds : List contract.Round)
    (hall : ∀ round ∈ rounds, ∃ task opts sig,
      round.received = contract.Received.task task
      ∧ (contract.transactor L s round.client pk).2 = .ok opts
      ∧ (contract.signMessage L round.rand pk
          (contract.eip191Hash L (ascii "Hello " ++ task.Task.Name))).2 = .ok sig) :
    (contract.StartListeningForEvents L s none pk rounds).2 = contract.Outcome.waiting
    ∧ (delivered rounds).length = rounds.length
    ∧ (respondCalls (contract.StartListeningForEvents L s none pk rounds).1).length
        = rounds.length
    ∧ (respondCalls (contract.StartListeningForEvents L s none pk rounds).1).map
          (fun c => (c.task, c.referenceTaskIndex))
        = (delivered rounds).map (fun ev => (ev.Task, ev.TaskIndex))
    ∧ ∀ (pre rest : List contract.Round) (round : contract.Round)
        (task : HelloWorldNewTaskCreated) (opts : TransactOpts) (sig : Bytes),
        (contract.listen L s pk pre).2 = contract.Outcome.waiting →
        round.received = contract.Received.task task →
        (contract.transactor L s round.client pk).2 = .ok opts →
        (contract.signMessage L round.rand pk
          (contract.eip191Hash L (ascii "Hello " ++ task.Task.Name))).2 = .ok sig →
        respondCalls (contract.StartListeningForEvents L s none pk (pre ++ round :: rest)).1
            = respondCalls (contract.listen L s pk pre).1
                ++ ⟨opts, task.Task, task.TaskIndex, sig⟩
                  :: respondCalls (contract.listen L s pk rest).1
        ∧ (contract.StartListeningForEvents L s none pk (pre ++ round :: rest)).2
            = (contract.listen L s pk rest).2 := by
  obtain ⟨hw, hl, hm⟩ := listen_all_ok L s pk rounds hall
  have hlen := congrArg List.length hm
  simp only [List.length_map] at hlen
  refine ⟨hw, hl, ?_, hm, ?_⟩
  · simp only [contract.StartListeningForEvents]
    omega
  · intro pre rest round task opts sig hpre hrecv hopts hsig
    simp only [contract.StartListeningForEvents]
    rw [listen_append L s pk (round :: rest) pre hpre,
      listen_cons_ok L s pk round rest task opts sig hrecv hopts hsig]
    simp only [respondCalls_append, transactor_respondCalls, List.nil_append]
    exact ⟨rfl, trivial⟩

/-- C6, on the toy instance: two events, the second answered by a contract
that rejects the call; both get their call and the loop is waiting. -/
theorem one_response_per_event_witness :
    (contract.StartListeningForEvents toyLibrary toyService none toyKey
        [toyRound fooEvent 3 1,
          ⟨contract.Received.task ⟨6, ⟨ascii "Bar", 1001⟩, 1⟩, toyClient 4, 2,
            rejectingContract⟩]).2 = contract.Outcome.waiting
    ∧ (respondCalls (contract.StartListeningForEvents toyLibrary toyService none toyKey
        [toyRound fooEvent 3 1,
          ⟨contract.Received.task ⟨6, ⟨ascii "Bar", 1001⟩, 1⟩, toyClient 4, 2,
            rejectingContract⟩]).1).length = 2 :=
  have h := one_response_per_event toyLibrary toyService toyKey
    [toyRound fooEvent 3 1,
      ⟨contract.Received.task ⟨6, ⟨ascii "Bar", 1001⟩, 1⟩, toyClient 4, 2, rejectingContract⟩]
    (by
      intro round hmem
      simp only [List.mem_cons, List.mem_singleton, List.not_mem_nil, or_false] at hmem
      rcases hmem with h | h
      · subst h
        exact ⟨fooEvent, ⟨9, some 3, some 0, none, 300000⟩, [2, 7, 118], rfl, rfl, rfl⟩
      · subst h
        exact ⟨⟨6, ⟨ascii "Bar", 1001⟩, 1⟩, ⟨9, some 4, some 0, none, 300000⟩, [3, 7, 11],
          rfl, rfl, rfl⟩)
  ⟨h.1, h.2.2.1⟩

/-- C7 fails on the code: `contract.New` does not store the gas price it is
given, so the service's `gasPrice` is nil and so is the `GasPrice` of the
options `transactor` builds. With gas price 5 the options handed to
`createNewTask` and to `respondToTask` carry nil, not 5; `eigen.New` with the
same arguments stores 5. -/
theorem contract_New_drops_gasPrice :
    (∀ (L : Library) (client₀ client : Client) (bound : Option GoError) (gasLimit : Nat)
        (g : Int) (smartContractAddress : Bytes) (s : contract.Service) (pk : PrivateKey)
        (opts : TransactOpts),
        contract.New L client₀ bound gasLimit (some g) smartContractAddress = .ok s →
        (contract.transactor L s client pk).2 = .ok opts → opts.GasPrice = none)
    ∧ contract.New toyLibrary (toyClient 3) none 300000 (some 5) [] = .ok toyService
    ∧ builtOpts (contract.CreateNewTask toyLibrary toyService (toyClient 3) toyContract toyKey
        (ascii "QuickFox1")).1 = [⟨9, some 3, some 0, none, 300000⟩]
    ∧ builtOpts (contract.StartListeningForEvents toyLibrary toyService none toyKey
        [toyRound fooEvent 3 1]).1 = [⟨9, some 3, some 0, none, 300000⟩]
    ∧ (none : Option Int) ≠ some 5
    ∧ (eigen.New toyLibrary 300000 (some 5) [] none (toyClient 3)).map eigen.Service.gasPrice
        = .ok (some 5) := by
  refine ⟨?_, rfl, by decide, by decide, by decide, rfl⟩
  intro L client₀ client bound gasLimit g addr s pk opts hnew hopts
  obtain ⟨_, hprice⟩ := contract_New_ok L client₀ bound gasLimit (some g) addr s hnew
  obtain ⟨pub, nonce, keyed, _, _, _, hopts⟩ := transactor_ok_inv L s client pk opts hopts
  rw [hopts]
  exact hprice

/-- C8: every options record built by `transactor` of a service made by
`contract.New`, and every one built inside `RegisterAsOperator` of a service
made by `eigen.New`, has `Value = 0` and the gas limit given to the
constructor, for every key and every reply of the ledger. -/
theorem options_value_zero_and_gas_limit (L : Library) (client₀ : Client)
    (bound₁ bound₂ : Option GoError) (gasLimit : Nat) (gasPrice : Option Int)
    (address₁ address₂ : Bytes) (cs : contract.Service) (es : eigen.Service)
    (hc : contract.New L client₀ bound₁ gasLimit gasPrice address₁ = .ok cs)
    (he : eigen.New L gasLimit gasPrice address₂ bound₂ client₀ = .ok es) :
    (∀ (client : Client) (pk : PrivateKey) (opts : TransactOpts),
        (contract.transactor L cs client pk).2 = .ok opts →
        opts.Value = some 0 ∧ opts.GasLimit = gasLimit)
    ∧ (∀ (client : Client) (delegation : BoundContract) (pk : PrivateKey) (opts : TransactOpts),
        opts ∈ builtOpts (eigen.RegisterAsOperator L es client delegation pk).1 →
        opts.Value = some 0 ∧ opts.GasLimit = gasLimit) := by
  obtain ⟨hcl, _⟩ := contract_New_ok L client₀ bound₁ gasLimit gasPrice address₁ cs hc
  obtain ⟨hel, _⟩ := eigen_New_ok L gasLimit gasPrice address₂ bound₂ client₀ es he
  constructor
  · intro client pk opts hopts
    obtain ⟨pub, nonce, keyed, _, _, _, hopts⟩ := transactor_ok_inv L cs client pk opts hopts
    rw [hopts]
    exact ⟨rfl, hcl⟩
  · intro client delegation pk opts hopts
    obtain ⟨pub, nonce, keyed, _, _, _, hopts⟩ :=
      RegisterAsOperator_builtOpts_inv L es client delegation pk opts hopts
    rw [hopts]
    exact ⟨rfl, hel⟩

/-- C8, on the toy instance with gas limit 300000 and pending nonce 7. -/
theorem options_value_zero_and_gas_limit_witness :
    ((contract.transactor toyLibrary toyService (toyClient 7) toyKey).2
        = .ok ⟨9, some 7, some 0, none, 300000⟩
      ∧ (some 0 : Option Int) = some 0 ∧ 300000 = 300000)
    ∧ (⟨9, some 7, some 0, some 21000, 300000⟩
          ∈ builtOpts (eigen.RegisterAsOperator toyLibrary ⟨some 17000, 300000, some 5, 0⟩
              (toyClient 7) toyContract toyKey).1
      ∧ (some 0 : Option Int) = some 0 ∧ 300000 = 300000) :=
  have h := options_value_zero_and_gas_limit toyLibrary (toyClient 3) none none 300000 (some 5)
    [] [] toyService ⟨some 17000, 300000, some 5, 0⟩ rfl rfl
  ⟨⟨rfl, h.1 (toyClient 7) toyKey ⟨9, some 7, some 0, none, 300000⟩ rfl⟩,
    ⟨by decide, h.2 (toyClient 7) toyContract toyKey ⟨9, some 7, some 0, some 21000, 300000⟩
      (by decide)⟩⟩

/-- C9 fails as stated: for the pending nonce `2 ^ 63` both `transactor` and
`RegisterAsOperator` set `Nonce` to `-2 ^ 63`. -/
theorem nonce_wraps_at_int64 :
    (contract.transactor toyLibrary toyService (toyClient (2 ^ 63)) toyKey).2
      = .ok ⟨9, some (-9223372036854775808), some 0, none, 300000⟩
    ∧ builtOpts (eigen.RegisterAsOperator toyLibrary ⟨some 17000, 300000, some 5, 0⟩
        (toyClient (2 ^ 63)) toyContract toyKey).1
      = [⟨9, some (-9223372036854775808), some 0, some 21000, 300000⟩]
    ∧ (some (-9223372036854775808) : Option Int) ≠ some (((2 ^ 63 : Nat) : Int)) :=
  ⟨rfl, by decide, by decide⟩

/-- C9, amended: for every `uint64` value `n` returned as the pending nonce,
the `Nonce` of the options built by `transactor` and inside
`RegisterAsOperator` is `int64(n)` as a big integer: it equals `n` when
`n < 2 ^ 63`, and `n - 2 ^ 64` otherwise. -/
theorem nonce_is_int64_of_pending (L : Library) (cs : contract.Service) (es : eigen.Service)
    (client : Client) (delegation : BoundContract) (pk : PrivateKey) (pub : PublicKey)
    (n : Nat) (keyed₁ keyed₂ : TransactOpts)
    (hn : n < 2 ^ 64)
    (hpub : L.Public pk = some pub)
    (hnonce : client.PendingNonceAt (L.PubkeyToAddress pub) = .ok n)
    (hkeyed₁ : L.NewKeyedTransactorWithChainID pk cs.chainID = .ok keyed₁)
    (hkeyed₂ : L.NewKeyedTransactorWithChainID pk es.chainID = .ok keyed₂) :
    (∃ opts, (contract.transactor L cs client pk).2 = .ok opts
      ∧ opts.Nonce = some (int64 n))
    ∧ (∃ opts, builtOpts (eigen.RegisterAsOperator L es client delegation pk).1 = [opts]
      ∧ opts.Nonce = some (int64 n))
    ∧ (n < 2 ^ 63 → int64 n = (n : Int))
    ∧ (2 ^ 63 ≤ n → int64 n = (n : Int) - 2 ^ 64) := by
  refine ⟨⟨_, congrArg Prod.snd (transactor_ok L cs client pk pub n keyed₁ hpub hnonce hkeyed₁),
      rfl⟩,
    ⟨_, RegisterAsOperator_builtOpts_ok L es client delegation pk pub n keyed₂ hpub hnonce
      hkeyed₂, rfl⟩,
    int64_of_lt n, fun h => int64_of_ge n h hn⟩

/-- C9 amended, on the toy instance with pending nonce 7. -/
theorem nonce_is_int64_of_pending_witness :
    (∃ opts, (contract.transactor toyLibrary toyService (toyClient 7) toyKey).2 = .ok opts
      ∧ opts.Nonce = some (int64 7))
    ∧ (∃ opts, builtOpts (eigen.RegisterAsOperator toyLibrary ⟨some 17000, 300000, some 5, 0⟩
          (toyClient 7) toyContract toyKey).1 = [opts]
      ∧ opts.Nonce = some (int64 7))
    ∧ (7 < 2 ^ 63 → int64 7 = ((7 : Nat) : Int))
    ∧ (2 ^ 63 ≤ 7 → int64 7 = ((7 : Nat) : Int) - 2 ^ 64) :=
  nonce_is_int64_of_pending toyLibrary toyService ⟨some 17000, 300000, some 5, 0⟩ (toyClient 7)
    toyContract toyKey ⟨9, 0⟩ 7 ⟨9, none, none, none, 0⟩ ⟨9, none, none, none, 0⟩
    (by decide) rfl rfl rfl rfl

/-- C10: if the key does not yield an ECDSA public key, or if the nonce
lookup fails, `transactor` returns an error and no options record; in the
first case it returns before any nonce lookup. -/
theorem transactor_fails (L : Library) (s : contract.Service) (client : Client)
    (pk : PrivateKey)
    (h : L.Public pk = none ∨ ∃ pub err, L.Public pk = some pub
      ∧ client.PendingNonceAt (L.PubkeyToAddress pub) = .error err) :
    (∃ e, (contract.transactor L s client pk).2 = .error e)
    ∧ (L.Public pk = none →
        contract.transactor L s client pk
            = ([], .error (GoError.New "Could not create public key from private key"))
        ∧ nonceLookups (contract.transactor L s client pk).1 = [])
    ∧ (∀ pub err, L.Public pk = some pub →
        client.PendingNonceAt (L.PubkeyToAddress pub) = .error err →
        contract.transactor L s client pk
          = ([Call.PendingNonceAt (L.PubkeyToAddress pub)],
              .error (GoError.Wrap err "Error while getting nonce"))) := by
  have hnone : L.Public pk = none →
      contract.transactor L s client pk
        = ([], .error (GoError.New "Could not create public key from private key")) := by
    intro hpub
    unfold contract.transactor
    simp only [hpub]
  have hfail : ∀ pub err, L.Public pk = some pub →
      client.PendingNonceAt (L.PubkeyToAddress pub) = .error err →
      contract.transactor L s client pk
        = ([Call.PendingNonceAt (L.PubkeyToAddress pub)],
            .error (GoError.Wrap err "Error while getting nonce")) := by
    intro pub err hpub hnonce
    unfold contract.transactor
    simp only [hpub, hnonce]
  refine ⟨?_, fun hpub => ⟨hnone hpub, ?_⟩, hfail⟩
  · rcases h with hpub | ⟨pub, err, hpub, hnonce⟩
    · exact ⟨_, by rw [hnone hpub]⟩
    · exact ⟨_, by rw [hfail pub err hpub hnonce]⟩
  · rw [hnone hpub]
    rfl

/-- C10, on the toy instance: a key without an ECDSA public key, and a
ledger node whose nonce lookup fails. -/
theorem transactor_fails_witness :
    ((∃ e, (contract.transactor toyLibrary toyService (toyClient 7) badKey).2 = .error e)
      ∧ nonceLookups (contract.transactor toyLibrary toyService (toyClient 7) badKey).1 = [])
    ∧ (∃ e, (contract.transactor toyLibrary toyService downClient toyKey).2 = .error e)
    ∧ nonceLookups (contract.transactor toyLibrary toyService downClient toyKey).1 = [9] :=
  ⟨⟨(transactor_fails toyLibrary toyService (toyClient 7) badKey (Or.inl rfl)).1,
      ((transactor_fails toyLibrary toyService (toyClient 7) badKey (Or.inl rfl)).2.1 rfl).2⟩,
    (transactor_fails toyLibrary toyService downClient toyKey
      (Or.inr ⟨⟨9, 0⟩, GoError.lib 3, rfl, rfl⟩)).1,
    by decide⟩

/-! ## Lemmas on nonce lookups and submissions -/

theorem nonceLookups_append (a b : List Call) :
    nonceLookups (a ++ b) = nonceLookups a ++ nonceLookups b := by
  simp [nonceLookups, List.filterMap_append]

theorem sentTransactions_append (a b : List Call) :
    sentTransactions (a ++ b) = sentTransactions a ++ sentTransactions b := by
  simp [sentTransactions, List.filterMap_append]

/-- A key with an ECDSA public key makes `transactor` look the nonce up once. -/
theorem transactor_calls_of_public (L : Library) (s : contract.Service) (client : Client)
    (pk : PrivateKey) (pub : PublicKey) (hpub : L.Public pk = some pub) :
    (contract.transactor L s client pk).1 = [Call.PendingNonceAt (L.PubkeyToAddress pub)] := by
  unfold contract.transactor
  simp only [hpub]
  cases client.PendingNonceAt (L.PubkeyToAddress pub) with
  | error e => rfl
  | ok n =>
    simp only
    cases L.NewKeyedTransactorWithChainID pk s.chainID <;> rfl

theorem transactor_builtOpts (L : Library) (s : contract.Service) (client : Client)
    (pk : PrivateKey) : builtOpts (contract.transactor L s client pk).1 = [] := by
  rcases transactor_calls L s client pk with h | ⟨a, h⟩ <;> rw [h] <;> rfl

theorem transactor_sentTransactions (L : Library) (s : contract.Service) (client : Client)
    (pk : PrivateKey) : sentTransactions (contract.transactor L s client pk).1 = [] := by
  rcases transactor_calls L s client pk with h | ⟨a, h⟩ <;> rw [h] <;> rfl

/-- The nonce in the options `transactor` returns is the reply to its lookup. -/
theorem transactor_nonce (L : Library) (s : contract.Service) (client : Client)
    (pk : PrivateKey) (pub : PublicKey) (opts : TransactOpts) (hpub : L.Public pk = some pub)
    (h : (contract.transactor L s client pk).2 = .ok opts) :
    ∃ n, client.PendingNonceAt (L.PubkeyToAddress pub) = .ok n ∧ opts.Nonce = some (int64 n) := by
  obtain ⟨pub', n, keyed, hpub', hn, _, hopts⟩ := transactor_ok_inv L s client pk opts h
  rw [hpub] at hpub'
  cases hpub'
  exact ⟨n, hn, by rw [hopts]⟩

/-- The calls of `RegisterAsOperator` for a key with an ECDSA public key:
one nonce lookup, then what follows the construction of the options. -/
theorem RegisterAsOperator_nonceLookups (L : Library) (s : eigen.Service) (client : Client)
    (delegation : BoundContract) (pk : PrivateKey) (pub : PublicKey)
    (hpub : L.Public pk = some pub) :
    nonceLookups (eigen.RegisterAsOperator L s client delegation pk).1
      = [L.PubkeyToAddress pub] := by
  unfold eigen.RegisterAsOperator
  simp only [hpub]
  cases client.PendingNonceAt (L.PubkeyToAddress pub) with
  | error e => rfl
  | ok n =>
    simp only
    cases L.NewKeyedTransactorWithChainID pk s.chainID with
    | error e => rfl
    | ok keyed =>
      simp only [eigen.delegationRegisterAsOperator]
      cases delegation.Transact _ "registerAsOperator"
          [Param.operatorDetails {}, Param.string (ascii "")] with
      | error e => rfl
      | ok tx =>
        simp only
        cases client.SendTransaction tx <;> rfl

/-- The responder loop never calls `SendTransaction`. -/
theorem listen_sentTransactions (L : Library) (s : contract.Service) (pk : PrivateKey) :
    ∀ rounds : List contract.Round, sentTransactions (contract.listen L s pk rounds).1 = [] := by
  intro rounds
  induction rounds with
  | nil => rfl
  | cons round rest ih =>
    cases hrecv : round.received with
    | err e => rw [listen_cons_err L s pk round rest e hrecv]; rfl
    | task task =>
      rcases except_cases (contract.transactor L s round.client pk).2 with ⟨e, he⟩ | ⟨opts, hopts⟩
      · rw [listen_cons_build_error L s pk round rest task e hrecv he]
        exact transactor_sentTransactions L s round.client pk
      · rcases except_cases (contract.signMessage L round.rand pk
          (contract.eip191Hash L (ascii "Hello " ++ task.Task.Name))).2 with ⟨e, he⟩ | ⟨sig, hsig⟩
        · rw [listen_cons_sign_error L s pk round rest task opts e hrecv hopts he]
          simp only [sentTransactions_append, transactor_sentTransactions]
          rfl
        · rw [listen_cons_ok L s pk round rest task opts sig hrecv hopts hsig]
          simp only [sentTransactions_append, transactor_sentTransactions, ih]
          rfl

/-- In a run in which every round delivers a task, builds and signs, every
round looks the nonce up once and its options carry the reply of that lookup. -/
theorem listen_all_ok_nonces (L : Library) (s : contract.Service) (pk : PrivateKey)
    (pub : PublicKey) (hpub : L.Public pk = some pub) :
    ∀ rounds : List contract.Round,
      (∀ round ∈ rounds, ∃ task opts sig,
        round.received = contract.Received.task task
        ∧ (contract.transactor L s round.client pk).2 = .ok opts
        ∧ (contract.signMessage L round.rand pk
            (contract.eip191Hash L (ascii "Hello " ++ task.Task.Name))).2 = .ok sig) →
      nonceLookups (contract.listen L s pk rounds).1
          = List.replicate rounds.length (L.PubkeyToAddress pub)
      ∧ (builtOpts (contract.listen L s pk rounds).1).map TransactOpts.Nonce
          = rounds.map fun r =>
              match r.client.PendingNonceAt (L.PubkeyToAddress pub) with
              | .ok n => some (int64 n)
              | .error _ => none := by
  intro rounds
  induction rounds with
  | nil => intro _; exact ⟨rfl, rfl⟩
  | cons round rest ih =>
    intro hall
    obtain ⟨task, opts, sig, hrecv, hopts, hsig⟩ := hall round (List.mem_cons_self _ _)
    obtain ⟨hl, hb⟩ := ih fun r hr => hall r (List.mem_cons_of_mem _ hr)
    obtain ⟨n, hn, hnonce⟩ := transactor_nonce L s round.client pk pub opts hpub hopts
    rw [listen_cons_ok L s pk round rest task opts sig hrecv hopts hsig]
    constructor
    · simp only [nonceLookups_append, transactor_calls_of_public L s round.client pk pub hpub, hl]
      rfl
    · simp only [builtOpts_append, transactor_builtOpts, List.nil_append, List.map_append, hb,
        List.map_cons, hn]
      rw [← hnonce]
      rfl

/-- The calls of `RegisterAsOperator` when the options are built: the nonce
lookup, the `registerAsOperator` call with the zero operator details and the
empty URI, and the submission of the transaction the call returned, if any. -/
theorem RegisterAsOperator_ok (L : Library) (s : eigen.Service) (client : Client)
    (delegation : BoundContract) (pk : PrivateKey) (pub : PublicKey) (nonce : Nat)
    (keyed : TransactOpts) (opts : TransactOpts)
    (hpub : L.Public pk = some pub)
    (hnonce : client.PendingNonceAt (L.PubkeyToAddress pub) = .ok nonce)
    (hkeyed : L.NewKeyedTransactorWithChainID pk s.chainID = .ok keyed)
    (hopts : opts = { keyed with
                      Nonce := some (int64 nonce)
                      Value := some 0
                      GasLimit := s.gasLimit
                      GasPrice := some 21000 }) :
    eigen.RegisterAsOperator L s client delegation pk
      = match delegation.Transact opts "registerAsOperator"
            [Param.operatorDetails ⟨0, 0, 0⟩, Param.string []] with
        | .error err =>
          ([Call.PendingNonceAt (L.PubkeyToAddress pub),
              Call.Transact opts "registerAsOperator"
                [Param.operatorDetails ⟨0, 0, 0⟩, Param.string []]],
            some (GoError.Wrap err "Error while registering as operator"))
        | .ok tx =>
          ([Call.PendingNonceAt (L.PubkeyToAddress pub),
              Call.Transact opts "registerAsOperator"
                [Param.operatorDetails ⟨0, 0, 0⟩, Param.string []],
              Call.SendTransaction tx],
            match client.SendTransaction tx with
            | some err => some (GoError.Wrap err "Error while sending transaction")
            | none => none) := by
  subst hopts
  unfold eigen.RegisterAsOperator
  simp only [hpub, hnonce, hkeyed, eigen.delegationRegisterAsOperator]
  have hd : ({} : IDelegationManagerOperatorDetails) = ⟨0, 0, 0⟩ := rfl
  have ha : ascii "" = [] := rfl
  rw [hd, ha]
  cases delegation.Transact _ "registerAsOperator"
      [Param.operatorDetails ⟨0, 0, 0⟩, Param.string []] with
  | error e => rfl
  | ok tx =>
    simp only
    cases client.SendTransaction tx <;> rfl

/-- The calls of `RegisterAsOperator`: at most one nonce lookup, one
`registerAsOperator` call and one submission, in this order. -/
theorem RegisterAsOperator_calls (L : Library) (s : eigen.Service) (client : Client)
    (delegation : BoundContract) (pk : PrivateKey) :
    (eigen.RegisterAsOperator L s client delegation pk).1 = []
    ∨ (∃ a, (eigen.RegisterAsOperator L s client delegation pk).1 = [Call.PendingNonceAt a])
    ∨ (∃ a opts, (eigen.RegisterAsOperator L s client delegation pk).1
        = [Call.PendingNonceAt a,
            Call.Transact opts "registerAsOperator"
              [Param.operatorDetails ⟨0, 0, 0⟩, Param.string []]])
    ∨ (∃ a opts tx, (eigen.RegisterAsOperator L s client delegation pk).1
        = [Call.PendingNonceAt a,
            Call.Transact opts "registerAsOperator"
              [Param.operatorDetails ⟨0, 0, 0⟩, Param.string []],
            Call.SendTransaction tx]) := by
  cases hpub : L.Public pk with
  | none =>
    left
    unfold eigen.RegisterAsOperator
    simp only [hpub]
  | some pub =>
    cases hnonce : client.PendingNonceAt (L.PubkeyToAddress pub) with
    | error e =>
      right; left
      refine ⟨L.PubkeyToAddress pub, ?_⟩
      unfold eigen.RegisterAsOperator
      simp only [hpub, hnonce]
    | ok nonce =>
      cases hkeyed : L.NewKeyedTransactorWithChainID pk s.chainID with
      | error e =>
        right; left
        refine ⟨L.PubkeyToAddress pub, ?_⟩
        unfold eigen.RegisterAsOperator
        simp only [hpub, hnonce, hkeyed]
      | ok keyed =>
        rw [RegisterAsOperator_ok L s client delegation pk pub nonce keyed _ hpub hnonce hkeyed
          rfl]
        cases delegation.Transact _ "registerAsOperator"
            [Param.operatorDetails ⟨0, 0, 0⟩, Param.string []] with
        | error e => right; right; left; exact ⟨_, _, rfl⟩
        | ok tx => right; right; right; exact ⟨_, _, tx, rfl⟩

/-- The registration makes no `respondToTask` call and signs nothing. -/
theorem RegisterAsOperator_no_response (L : Library) (s : eigen.Service) (client : Client)
    (delegation : BoundContract) (pk : PrivateKey) :
    respondCalls (eigen.RegisterAsOperator L s client delegation pk).1 = []
    ∧ signedHashes (eigen.RegisterAsOperator L s client delegation pk).1 = [] := by
  rcases RegisterAsOperator_calls L s client delegation pk with
    h | ⟨a, h⟩ | ⟨a, opts, h⟩ | ⟨a, opts, tx, h⟩ <;> rw [h] <;> exact ⟨rfl, rfl⟩

/-- What `main` does once start-up has reached the registration. -/
theorem main_after_startup (L : Library) (H : operator.Host) (delegation : BoundContract)
    (watch : Option GoError) (rounds : List contract.Round) (env : String → Bytes)
    (client : Client) (gasLimit gasPrice : Int) (cs : contract.Service) (es : eigen.Service)
    (pk : PrivateKey)
    (henv : H.Read = .ok env)
    (hdial : H.Dial (ascii "ws://" ++ env "RPC_URL") = .ok client)
    (hlimit : H.Atoi (env "GAS_LIMIT") = .ok gasLimit)
    (hprice : H.Atoi (env "GAS_PRICE") = .ok gasPrice)
    (hcs : contract.New L client H.NewHelloWorld (uint64 gasLimit) (some gasPrice)
      (env "HELLO_WORLD_ADDRESS") = .ok cs)
    (hes : eigen.New L (uint64 gasLimit) (some gasPrice)
      (env "HOLESKY_DELEGATION_MANAGER_ADDRESS") H.NewContractDelegationManager client = .ok es)
    (hkey : H.HexToECDSA (env "WALLET_KEY") = .ok pk) :
    operator.main L H delegation watch rounds
      = match eigen.RegisterAsOperator L es client delegation pk with
        | (c1, some err) => (c1, operator.Exit.fatal "Error registering as operator: %v\n" err)
        | (c1, none) =>
          match contract.StartListeningForEvents L cs watch pk rounds with
          | (c2, contract.Outcome.returned (some err)) =>
            (c1 ++ c2,
              operator.Exit.fatal "Error while listening for smart contract events: %v\n" err)
          | (c2, contract.Outcome.returned none) => (c1 ++ c2, operator.Exit.returned)
          | (c2, contract.Outcome.waiting) => (c1 ++ c2, operator.Exit.waiting) := by
  unfold operator.main
  simp only [henv, hdial, hlimit, hprice, hcs, hes, hkey]

/-- The replies of the bound contract do not enter the responder loop: its
calls and its outcome are the same whatever `respondToTask` returns. -/
theorem listen_ignores_contract (L : Library) (s : contract.Service) (pk : PrivateKey)
    (c : BoundContract) :
    ∀ rounds : List contract.Round,
      contract.listen L s pk (rounds.map fun r => { r with helloWorld := c })
        = contract.listen L s pk rounds := by
  intro rounds
  induction rounds with
  | nil => rfl
  | cons round rest ih =>
    simp only [List.map_cons, contract.listen, helloworld.RespondToTask, ih]

/-! ## The claims, continued -/

/-- C11: for a key with an ECDSA public key, every invocation of `transactor`
and every invocation of `RegisterAsOperator` looks the pending nonce up
exactly once, for the address derived from the key, and the options it builds
carry the reply of that lookup (as `int64`); a run of `N` events that are all
processed makes `N` lookups, and the `k`-th options record carries the reply
given in the `k`-th round. -/
theorem nonce_looked_up_at_every_build (L : Library) (cs : contract.Service)
    (es : eigen.Service) (pk : PrivateKey) (pub : PublicKey)
    (hpub : L.Public pk = some pub) :
    (∀ (client : Client),
        nonceLookups (contract.transactor L cs client pk).1 = [L.PubkeyToAddress pub]
        ∧ ∀ opts, (contract.transactor L cs client pk).2 = .ok opts →
            ∃ n, client.PendingNonceAt (L.PubkeyToAddress pub) = .ok n
              ∧ opts.Nonce = some (int64 n))
    ∧ (∀ (client : Client) (delegation : BoundContract),
        nonceLookups (eigen.RegisterAsOperator L es client delegation pk).1
            = [L.PubkeyToAddress pub]
        ∧ ∀ opts ∈ builtOpts (eigen.RegisterAsOperator L es client delegation pk).1,
            ∃ n, client.PendingNonceAt (L.PubkeyToAddress pub) = .ok n
              ∧ opts.Nonce = some (int64 n))
    ∧ (∀ rounds : List contract.Round,
        (∀ round ∈ rounds, ∃ task opts sig,
          round.received = contract.Received.task task
          ∧ (contract.transactor L cs round.client pk).2 = .ok opts
          ∧ (contract.signMessage L round.rand pk
              (contract.eip191Hash L (ascii "Hello " ++ task.Task.Name))).2 = .ok sig) →
        nonceLookups (contract.StartListeningForEvents L cs none pk rounds).1
            = List.replicate rounds.length (L.PubkeyToAddress pub)
        ∧ (builtOpts (contract.StartListeningForEvents L cs none pk rounds).1).map
              TransactOpts.Nonce
            = rounds.map fun r =>
                match r.client.PendingNonceAt (L.PubkeyToAddress pub) with
                | .ok n => some (int64 n)
                | .error _ => none) := by
  refine ⟨fun client => ⟨?_, ?_⟩, fun client delegation => ⟨?_, ?_⟩, ?_⟩
  · rw [transactor_calls_of_public L cs client pk pub hpub]
    rfl
  · intro opts hopts
    exact transactor_nonce L cs client pk pub opts hpub hopts
  · exact RegisterAsOperator_nonceLookups L es client delegation pk pub hpub
  · intro opts hopts
    obtain ⟨pub', n, keyed, hpub', hn, _, hopts⟩ :=
      RegisterAsOperator_builtOpts_inv L es client delegation pk opts hopts
    rw [hpub] at hpub'
    cases hpub'
    exact ⟨n, hn, by rw [hopts]⟩
  · intro rounds hall
    exact listen_all_ok_nonces L cs pk pub hpub rounds hall

/-- C11, on the toy instance: two events, answered with the pending nonces 3
and 4, give two lookups and the nonces 3 and 4. -/
theorem nonce_looked_up_at_every_build_witness :
    nonceLookups (contract.transactor toyLibrary toyService (toyClient 7) toyKey).1 = [9]
    ∧ nonceLookups (eigen.RegisterAsOperator toyLibrary ⟨some 17000, 300000, some 5, 0⟩
        (toyClient 7) toyContract toyKey).1 = [9]
    ∧ nonceLookups (contract.StartListeningForEvents toyLibrary toyService none toyKey
        [toyRound fooEvent 3 1, toyRound barEvent 4 2]).1 = [9, 9]
    ∧ (builtOpts (contract.StartListeningForEvents toyLibrary toyService none toyKey
        [toyRound fooEvent 3 1, toyRound barEvent 4 2]).1).map TransactOpts.Nonce
        = [some 3, some 4] :=
  have h := nonce_looked_up_at_every_build toyLibrary toyService
    ⟨some 17000, 300000, some 5, 0⟩ toyKey ⟨9, 0⟩ rfl
  have hrun := h.2.2 [toyRound fooEvent 3 1, toyRound barEvent 4 2] (by
    intro round hmem
    simp only [List.mem_cons, List.mem_singleton, List.not_mem_nil, or_false] at hmem
    rcases hmem with h | h
    · subst h
      exact ⟨fooEvent, ⟨9, some 3, some 0, none, 300000⟩, [2, 7, 118], rfl, rfl, rfl⟩
    · subst h
      exact ⟨barEvent, ⟨9, some 4, some 0, none, 300000⟩, [3, 7, 11], rfl, rfl, rfl⟩)
  ⟨(h.1 (toyClient 7)).1, (h.2.1 (toyClient 7) toyContract).1, hrun.1, hrun.2⟩

/-- C12 fails as stated: the ledger reports the pending nonce 3 to two
consecutive builds (the first `respondToTask` call was rejected, so nothing
was submitted in between) and both options records carry the nonce 3. -/
theorem nonce_not_increasing :
    (helloworld.RespondToTask rejectingContract ⟨9, some 3, some 0, none, 300000⟩
        fooEvent.Task fooEvent.TaskIndex [2, 7, 118]).2 = .error (GoError.lib 5)
    ∧ (builtOpts (contract.StartListeningForEvents toyLibrary toyService none toyKey
        [rejectedRound fooEvent 3 1, toyRound barEvent 3 2]).1).map TransactOpts.Nonce
        = [some 3, some 3]
    ∧ ¬ ((3 : Int) < 3) :=
  ⟨rfl, by decide, by decide⟩

/-- C12, amended: in two consecutive builds of one run for the same key, each
options record carries the pending nonce the ledger reported to that build
(for nonces below `2 ^ 63`), so the second nonce is strictly greater than
the first exactly when the reported pending nonce has grown in between. -/
theorem nonce_order_follows_ledger (L : Library) (s : contract.Service) (pk : PrivateKey)
    (pub : PublicKey) (pre rest : List contract.Round) (round₁ round₂ : contract.Round)
    (task₁ task₂ : HelloWorldNewTaskCreated) (opts₁ opts₂ : TransactOpts) (sig₁ sig₂ : Bytes)
    (n₁ n₂ : Nat)
    (hpre : (contract.listen L s pk pre).2 = contract.Outcome.waiting)
    (hpub : L.Public pk = some pub)
    (hrecv₁ : round₁.received = contract.Received.task task₁)
    (hrecv₂ : round₂.received = contract.Received.task task₂)
    (hbuild₁ : (contract.transactor L s round₁.client pk).2 = .ok opts₁)
    (hbuild₂ : (contract.transactor L s round₂.client pk).2 = .ok opts₂)
    (hsign₁ : (contract.signMessage L round₁.rand pk
      (contract.eip191Hash L (ascii "Hello " ++ task₁.Task.Name))).2 = .ok sig₁)
    (hsign₂ : (contract.signMessage L round₂.rand pk
      (contract.eip191Hash L (ascii "Hello " ++ task₂.Task.Name))).2 = .ok sig₂)
    (hn₁ : round₁.client.PendingNonceAt (L.PubkeyToAddress pub) = .ok n₁)
    (hn₂ : round₂.client.PendingNonceAt (L.PubkeyToAddress pub) = .ok n₂)
    (hlt₁ : n₁ < 2 ^ 63) (hlt₂ : n₂ < 2 ^ 63) :
    builtOpts (contract.StartListeningForEvents L s none pk
        (pre ++ round₁ :: round₂ :: rest)).1
      = builtOpts (contract.listen L s pk pre).1
          ++ opts₁ :: opts₂ :: builtOpts (contract.listen L s pk rest).1
    ∧ opts₁.Nonce = some (n₁ : Int)
    ∧ opts₂.Nonce = some (n₂ : Int)
    ∧ (((n₁ : Int) < (n₂ : Int)) ↔ n₁ < n₂) := by
  obtain ⟨m₁, hm₁, ho₁⟩ := transactor_nonce L s round₁.client pk pub opts₁ hpub hbuild₁
  obtain ⟨m₂, hm₂, ho₂⟩ := transactor_nonce L s round₂.client pk pub opts₂ hpub hbuild₂
  rw [hn₁] at hm₁
  rw [hn₂] at hm₂
  cases hm₁
  cases hm₂
  refine ⟨?_, ?_, ?_, Int.ofNat_lt⟩
  · simp only [contract.StartListeningForEvents]
    rw [listen_append L s pk (round₁ :: round₂ :: rest) pre hpre,
      listen_cons_ok L s pk round₁ (round₂ :: rest) task₁ opts₁ sig₁ hrecv₁ hbuild₁ hsign₁,
      listen_cons_ok L s pk round₂ rest task₂ opts₂ sig₂ hrecv₂ hbuild₂ hsign₂]
    simp only [builtOpts_append, transactor_builtOpts, List.nil_append]
    rfl
  · rw [ho₁, int64_of_lt n₁ hlt₁]
  · rw [ho₂, int64_of_lt n₂ hlt₂]

/-- C12 amended, on the toy instance: the ledger reports 3 and then 4. -/
theorem nonce_order_follows_ledger_witness :
    builtOpts (contract.StartListeningForEvents toyLibrary toyService none toyKey
        ([] ++ toyRound fooEvent 3 1 :: toyRound barEvent 4 2 :: [])).1
      = builtOpts (contract.listen toyLibrary toyService toyKey []).1
          ++ (⟨9, some 3, some 0, none, 300000⟩ : TransactOpts)
            :: ⟨9, some 4, some 0, none, 300000⟩
            :: builtOpts (contract.listen toyLibrary toyService toyKey []).1
    ∧ (⟨9, some 3, some 0, none, 300000⟩ : TransactOpts).Nonce = some ((3 : Nat) : Int)
    ∧ (⟨9, some 4, some 0, none, 300000⟩ : TransactOpts).Nonce = some ((4 : Nat) : Int)
    ∧ ((((3 : Nat) : Int) < ((4 : Nat) : Int)) ↔ 3 < 4) :=
  nonce_order_follows_ledger toyLibrary toyService toyKey ⟨9, 0⟩ [] []
    (toyRound fooEvent 3 1) (toyRound barEvent 4 2) fooEvent barEvent
    ⟨9, some 3, some 0, none, 300000⟩ ⟨9, some 4, some 0, none, 300000⟩ [2, 7, 118] [3, 7, 11]
    3 4 rfl rfl rfl rfl rfl rfl rfl rfl rfl rfl (by decide) (by decide)

/-- C13: if the subscription delivers an error before any event,
`StartListeningForEvents` returns the error wrapped as `Subscription error`
and has made no nonce lookup, no signing and no `respondToTask` call; and once
the loop takes a subscription error, at any point of a run, it returns with
the calls made so far, whatever would be delivered afterwards. -/
theorem subscription_error_stops (L : Library) (s : contract.Service) (pk : PrivateKey)
    (pre rest : List contract.Round) (round : contract.Round) (e : Option GoError)
    (hpre : (contract.listen L s pk pre).2 = contract.Outcome.waiting)
    (hrecv : round.received = contract.Received.err e) :
    contract.StartListeningForEvents L s none pk (round :: rest)
        = ([], contract.Outcome.returned (errors.Wrap e "Subscription error"))
    ∧ (∀ err, e = some err →
        (contract.StartListeningForEvents L s none pk (round :: rest)).2
          = contract.Outcome.returned (some (GoError.Wrap err "Subscription error")))
    ∧ nonceLookups (contract.StartListeningForEvents L s none pk (round :: rest)).1 = []
    ∧ signedHashes (contract.StartListeningForEvents L s none pk (round :: rest)).1 = []
    ∧ respondCalls (contract.StartListeningForEvents L s none pk (round :: rest)).1 = []
    ∧ contract.StartListeningForEvents L s none pk (pre ++ round :: rest)
        = ((contract.listen L s pk pre).1,
            contract.Outcome.returned (errors.Wrap e "Subscription error")) := by
  have hfirst : contract.StartListeningForEvents L s none pk (round :: rest)
      = ([], contract.Outcome.returned (errors.Wrap e "Subscription error")) := by
    simp only [contract.StartListeningForEvents]
    exact listen_cons_err L s pk round rest e hrecv
  refine ⟨hfirst, ?_, ?_, ?_, ?_, ?_⟩
  · intro err herr
    rw [hfirst, herr]
    rfl
  · rw [hfirst]; rfl
  · rw [hfirst]; rfl
  · rw [hfirst]; rfl
  · simp only [contract.StartListeningForEvents]
    rw [listen_append L s pk (round :: rest) pre hpre, listen_cons_err L s pk round rest e hrecv]
    simp only [List.append_nil]

/-- C13, on the toy instance: an error first, and an error after one event. -/
theorem subscription_error_stops_witness :
    contract.StartListeningForEvents toyLibrary toyService none toyKey
        (errRound (some (GoError.lib 9)) :: [toyRound fooEvent 3 1])
      = ([], contract.Outcome.returned
          (some (GoError.Wrap (GoError.lib 9) "Subscription error")))
    ∧ respondCalls (contract.StartListeningForEvents toyLibrary toyService none toyKey
        ([toyRound fooEvent 3 1] ++ errRound (some (GoError.lib 9))
          :: [toyRound barEvent 4 2])).1
      = [⟨⟨9, some 3, some 0, none, 300000⟩, fooEvent.Task, 5, [2, 7, 118]⟩] :=
  ⟨(subscription_error_stops toyLibrary toyService toyKey [] [toyRound fooEvent 3 1]
      (errRound (some (GoError.lib 9))) (some (GoError.lib 9)) rfl rfl).1,
    by
      rw [(subscription_error_stops toyLibrary toyService toyKey [toyRound fooEvent 3 1]
        [toyRound barEvent 4 2] (errRound (some (GoError.lib 9))) (some (GoError.lib 9))
        rfl rfl).2.2.2.2.2]
      decide⟩

/-- C14 fails on the code: when the subscription's error channel yields nil
(the channel was closed), `errors.Wrap` returns nil, `StartListeningForEvents`
returns nil and `main` returns without reaching its fatal log. With a non-nil
error on the same channel `main` ends in the fatal log. -/
theorem closed_feed_exits_silently :
    (∀ (L : Library) (s : contract.Service) (pk : PrivateKey) (round : contract.Round)
        (rest : List contract.Round), round.received = contract.Received.err none →
        contract.StartListeningForEvents L s none pk (round :: rest)
          = ([], contract.Outcome.returned none))
    ∧ errors.Wrap none "Subscription error" = none
    ∧ contract.StartListeningForEvents toyLibrary toyService none toyKey [errRound none]
        = ([], contract.Outcome.returned none)
    ∧ (operator.main toyLibrary toyHost toyContract none [errRound none]).2
        = operator.Exit.returned
    ∧ (operator.main toyLibrary toyHost toyContract none [errRound (some (GoError.lib 9))]).2
        = operator.Exit.fatal "Error while listening for smart contract events: %v\n"
            (GoError.Wrap (GoError.lib 9) "Subscription error") := by
  refine ⟨?_, rfl, rfl, by decide, by decide⟩
  intro L s pk round rest hrecv
  simp only [contract.StartListeningForEvents]
  rw [listen_cons_err L s pk round rest none hrecv]
  rfl

/-- C15 fails on the code: the loop discards what `RespondToTask` returns.
The call for the first event is rejected, yet the loop returns no error,
answers the next event and is then waiting; in general the run is the same
whatever the contract replies. -/
theorem failed_response_is_ignored :
    (∀ (L : Library) (s : contract.Service) (pk : PrivateKey) (c : BoundContract)
        (rounds : List contract.Round),
        contract.StartListeningForEvents L s none pk
            (rounds.map fun r => { r with helloWorld := c })
          = contract.StartListeningForEvents L s none pk rounds)
    ∧ (helloworld.RespondToTask rejectingContract ⟨9, some 3, some 0, none, 300000⟩
        fooEvent.Task fooEvent.TaskIndex [2, 7, 118]).2 = .error (GoError.lib 5)
    ∧ (contract.StartListeningForEvents toyLibrary toyService none toyKey
        [rejectedRound fooEvent 3 1, toyRound barEvent 4 2]).2 = contract.Outcome.waiting
    ∧ (respondCalls (contract.StartListeningForEvents toyLibrary toyService none toyKey
        [rejectedRound fooEvent 3 1, toyRound barEvent 4 2]).1).map
          (fun c => (c.task, c.referenceTaskIndex))
        = [(fooEvent.Task, 5), (barEvent.Task, 6)] := by
  refine ⟨?_, rfl, by decide, by decide⟩
  intro L s pk c rounds
  simp only [contract.StartListeningForEvents]
  exact listen_ignores_contract L s pk c rounds

/-- C16: when, for a delivered event, the options cannot be built or the
signing fails, `StartListeningForEvents` returns a non-nil error at once: it
makes no `respondToTask` call for that event, and its calls and its result do
not depend on the rounds that would follow. -/
theorem build_or_sign_error_is_fatal (L : Library) (s : contract.Service) (pk : PrivateKey)
    (pre rest : List contract.Round) (round : contract.Round)
    (task : HelloWorldNewTaskCreated)
    (hpre : (contract.listen L s pk pre).2 = contract.Outcome.waiting)
    (hrecv : round.received = contract.Received.task task)
    (hfail : (∃ e, (contract.transactor L s round.client pk).2 = .error e)
      ∨ ∃ opts e, (contract.transactor L s round.client pk).2 = .ok opts
        ∧ (contract.signMessage L round.rand pk
            (contract.eip191Hash L (ascii "Hello " ++ task.Task.Name))).2 = .error e) :
    (∃ err, (contract.StartListeningForEvents L s none pk (pre ++ round :: rest)).2
        = contract.Outcome.returned (some err))
    ∧ respondCalls (contract.StartListeningForEvents L s none pk (pre ++ round :: rest)).1
        = respondCalls (contract.listen L s pk pre).1
    ∧ (∀ e, (contract.transactor L s round.client pk).2 = .error e →
        contract.StartListeningForEvents L s none pk (pre ++ round :: rest)
          = ((contract.listen L s pk pre).1 ++ (contract.transactor L s round.client pk).1,
              contract.Outcome.returned (some e)))
    ∧ (∀ opts e, (contract.transactor L s round.client pk).2 = .ok opts →
        (contract.signMessage L round.rand pk
          (contract.eip191Hash L (ascii "Hello " ++ task.Task.Name))).2 = .error e →
        contract.StartListeningForEvents L s none pk (pre ++ round :: rest)
          = ((contract.listen L s pk pre).1 ++ ((contract.transactor L s round.client pk).1 ++
                [Call.Sign pk
                  (L.Sum256 (contract.eip191Hash L (ascii "Hello " ++ task.Task.Name)))]),
              contract.Outcome.returned (some (GoError.Wrap e "Error while signing message"))))
    ∧ ∀ rest', contract.StartListeningForEvents L s none pk (pre ++ round :: rest')
        = contract.StartListeningForEvents L s none pk (pre ++ round :: rest) := by
  have hb : ∀ rest' e, (contract.transactor L s round.client pk).2 = .error e →
      contract.StartListeningForEvents L s none pk (pre ++ round :: rest')
        = ((contract.listen L s pk pre).1 ++ (contract.transactor L s round.client pk).1,
            contract.Outcome.returned (some e)) := by
    intro rest' e he
    simp only [contract.StartListeningForEvents]
    rw [listen_append L s pk (round :: rest') pre hpre,
      listen_cons_build_error L s pk round rest' task e hrecv he]
  have hs : ∀ rest' opts e, (contract.transactor L s round.client pk).2 = .ok opts →
      (contract.signMessage L round.rand pk
        (contract.eip191Hash L (ascii "Hello " ++ task.Task.Name))).2 = .error e →
      contract.StartListeningForEvents L s none pk (pre ++ round :: rest')
        = ((contract.listen L s pk pre).1 ++ ((contract.transactor L s round.client pk).1 ++
              [Call.Sign pk
                (L.Sum256 (contract.eip191Hash L (ascii "Hello " ++ task.Task.Name)))]),
            contract.Outcome.returned (some (GoError.Wrap e "Error while signing message"))) := by
    intro rest' opts e hopts he
    simp only [contract.StartListeningForEvents]
    rw [listen_append L s pk (round :: rest') pre hpre,
      listen_cons_sign_error L s pk round rest' task opts e hrecv hopts he]
  refine ⟨?_, ?_, hb rest, hs rest, ?_⟩
  · rcases hfail with ⟨e, he⟩ | ⟨opts, e, hopts, he⟩
    · exact ⟨e, by rw [hb rest e he]⟩
    · exact ⟨_, by rw [hs rest opts e hopts he]⟩
  · rcases hfail with ⟨e, he⟩ | ⟨opts, e, hopts, he⟩
    · rw [hb rest e he]
      simp only [respondCalls_append, transactor_respondCalls, List.append_nil]
    · rw [hs rest opts e hopts he]
      simp only [respondCalls_append, transactor_respondCalls, List.nil_append]
      exact List.append_nil _
  · intro rest'
    rcases hfail with ⟨e, he⟩ | ⟨opts, e, hopts, he⟩
    · rw [hb rest e he, hb rest' e he]
    · rw [hs rest opts e hopts he, hs rest' opts e hopts he]

/-- C16, on the toy instance: after one answered event the nonce lookup
fails, and in another run the signing fails (the random source yields 0). -/
theorem build_or_sign_error_is_fatal_witness :
    (∃ err, (contract.StartListeningForEvents toyLibrary toyService none toyKey
        ([toyRound fooEvent 3 1]
          ++ ⟨contract.Received.task barEvent, downClient, 2, toyContract⟩
          :: [toyRound fooEvent 5 3])).2 = contract.Outcome.returned (some err))
    ∧ respondCalls (contract.StartListeningForEvents toyLibrary toyService none toyKey
        ([toyRound fooEvent 3 1]
          ++ ⟨contract.Received.task barEvent, downClient, 2, toyContract⟩
          :: [toyRound fooEvent 5 3])).1
        = respondCalls (contract.listen toyLibrary toyService toyKey [toyRound fooEvent 3 1]).1
    ∧ (∃ err, (contract.StartListeningForEvents toyLibrary toyService none toyKey
        ([] ++ toyRound barEvent 4 0 :: [toyRound fooEvent 5 3])).2
          = contract.Outcome.returned (some err)) :=
  have h₁ := build_or_sign_error_is_fatal toyLibrary toyService toyKey [toyRound fooEvent 3 1]
    [toyRound fooEvent 5 3] ⟨contract.Received.task barEvent, downClient, 2, toyContract⟩
    barEvent rfl rfl (Or.inl ⟨_, rfl⟩)
  have h₂ := build_or_sign_error_is_fatal toyLibrary toyService toyKey []
    [toyRound fooEvent 5 3] (toyRound barEvent 4 0) barEvent rfl rfl
    (Or.inr ⟨⟨9, some 4, some 0, none, 300000⟩, _, rfl, rfl⟩)
  ⟨h₁.1, h₁.2.1, h₂.1⟩

/-- C17 fails as stated: the responder does not hand the transaction its
`respondToTask` call returned to `SendTransaction`. A successful cycle makes
the binding call and nothing after it, whereas `CreateNewTask` and
`RegisterAsOperator` follow their binding call with `SendTransaction` of the
transaction it returned. -/
theorem responder_never_submits :
    (∀ (L : Library) (s : contract.Service) (watch : Option GoError) (pk : PrivateKey)
        (rounds : List contract.Round),
        sentTransactions (contract.StartListeningForEvents L s watch pk rounds).1 = [])
    ∧ (contract.StartListeningForEvents toyLibrary toyService none toyKey
        [toyRound fooEvent 3 1]).1
        = [Call.PendingNonceAt 9,
            Call.Sign toyKey (toyLibrary.Sum256
              (contract.eip191Hash toyLibrary (ascii "Hello Foo"))),
            Call.Transact ⟨9, some 3, some 0, none, 300000⟩ "respondToTask"
              [Param.task fooEvent.Task, Param.uint32 5, Param.bytes [2, 7, 118]]]
    ∧ (helloworld.RespondToTask toyContract ⟨9, some 3, some 0, none, 300000⟩
        fooEvent.Task 5 [2, 7, 118]).2 = .ok ⟨3⟩
    ∧ sentTransactions (contract.StartListeningForEvents toyLibrary toyService none toyKey
        [toyRound fooEvent 3 1]).1 = []
    ∧ sentTransactions (contract.CreateNewTask toyLibrary toyService (toyClient 3) toyContract
        toyKey (ascii "QuickFox1")).1 = [⟨3⟩]
    ∧ sentTransactions (eigen.RegisterAsOperator toyLibrary ⟨some 17000, 300000, some 5, 0⟩
        (toyClient 7) toyContract toyKey).1 = [⟨7⟩] := by
  refine ⟨?_, by decide, rfl, by decide, by decide, by decide⟩
  intro L s watch pk rounds
  cases watch with
  | some err => rfl
  | none => exact listen_sentTransactions L s pk rounds

theorem transactCalls_append (a b : List Call) :
    transactCalls (a ++ b) = transactCalls a ++ transactCalls b := by
  simp [transactCalls, List.filterMap_append]

theorem transactor_transactCalls (L : Library) (s : contract.Service) (client : Client)
    (pk : PrivateKey) : transactCalls (contract.transactor L s client pk).1 = [] := by
  rcases transactor_calls L s client pk with h | ⟨a, h⟩ <;> rw [h] <;> rfl

/-- C17, amended: in every successful cycle the responder calls the
contract's response method exactly once, with the task, the index of the event
and the signature. This binding call, a paid mutator transaction, is the last
call of the cycle and its only transaction call: no `SendTransaction` follows
it, in this cycle or anywhere in the run, so each successful cycle makes
exactly one transaction call. -/
theorem responder_cycle_calls (L : Library) (s : contract.Service) (pk : PrivateKey)
    (pre rest : List contract.Round) (round : contract.Round)
    (task : HelloWorldNewTaskCreated) (opts : TransactOpts) (sig : Bytes)
    (hpre : (contract.listen L s pk pre).2 = contract.Outcome.waiting)
    (hrecv : round.received = contract.Received.task task)
    (hbuild : (contract.transactor L s round.client pk).2 = .ok opts)
    (hsign : (contract.signMessage L round.rand pk
      (contract.eip191Hash L (ascii "Hello " ++ task.Task.Name))).2 = .ok sig) :
    (contract.StartListeningForEvents L s none pk (pre ++ round :: rest)).1
        = (contract.listen L s pk pre).1
          ++ ((contract.transactor L s round.client pk).1
            ++ [Call.Sign pk
                  (L.Sum256 (contract.eip191Hash L (ascii "Hello " ++ task.Task.Name))),
                Call.Transact opts "respondToTask"
                  [Param.task task.Task, Param.uint32 task.TaskIndex, Param.bytes sig]])
          ++ (contract.listen L s pk rest).1
    ∧ (helloworld.RespondToTask round.helloWorld opts task.Task task.TaskIndex sig).1
        = [Call.Transact opts "respondToTask"
            [Param.task task.Task, Param.uint32 task.TaskIndex, Param.bytes sig]]
    ∧ transactCalls ((contract.transactor L s round.client pk).1
          ++ [Call.Sign pk
                (L.Sum256 (contract.eip191Hash L (ascii "Hello " ++ task.Task.Name))),
              Call.Transact opts "respondToTask"
                [Param.task task.Task, Param.uint32 task.TaskIndex, Param.bytes sig]])
        = [("respondToTask",
            [Param.task task.Task, Param.uint32 task.TaskIndex, Param.bytes sig])]
    ∧ sentTransactions ((contract.transactor L s round.client pk).1
          ++ [Call.Sign pk
                (L.Sum256 (contract.eip191Hash L (ascii "Hello " ++ task.Task.Name))),
              Call.Transact opts "respondToTask"
                [Param.task task.Task, Param.uint32 task.TaskIndex, Param.bytes sig]]) = []
    ∧ transactCalls (contract.StartListeningForEvents L s none pk (pre ++ round :: rest)).1
        = transactCalls (contract.listen L s pk pre).1
          ++ ("respondToTask",
              [Param.task task.Task, Param.uint32 task.TaskIndex, Param.bytes sig])
            :: transactCalls (contract.listen L s pk rest).1
    ∧ sentTransactions
        (contract.StartListeningForEvents L s none pk (pre ++ round :: rest)).1 = [] := by
  have hrun : (contract.StartListeningForEvents L s none pk (pre ++ round :: rest)).1
      = (contract.listen L s pk pre).1
        ++ ((contract.transactor L s round.client pk).1
          ++ [Call.Sign pk
                (L.Sum256 (contract.eip191Hash L (ascii "Hello " ++ task.Task.Name))),
              Call.Transact opts "respondToTask"
                [Param.task task.Task, Param.uint32 task.TaskIndex, Param.bytes sig]])
        ++ (contract.listen L s pk rest).1 := by
    simp only [contract.StartListeningForEvents]
    rw [listen_append L s pk (round :: rest) pre hpre,
      listen_cons_ok L s pk round rest task opts sig hrecv hbuild hsign]
    simp only [List.append_assoc, List.cons_append, List.nil_append]
  refine ⟨hrun, rfl, ?_, ?_, ?_, ?_⟩
  · simp only [transactCalls_append, transactor_transactCalls]
    rfl
  · simp only [sentTransactions_append, transactor_sentTransactions]
    rfl
  · rw [hrun]
    simp only [transactCalls_append, transactor_transactCalls, List.nil_append,
      List.append_assoc]
    rfl
  · simp only [contract.StartListeningForEvents]
    exact listen_sentTransactions L s pk _

/-- C17 amended, on the toy instance: the cycle for the event `(5, Foo,
1000)`, after one answered event and before another. -/
theorem responder_cycle_calls_witness :
    transactCalls (contract.StartListeningForEvents toyLibrary toyService none toyKey
        ([toyRound barEvent 3 2] ++ toyRound fooEvent 4 1 :: [toyRound barEvent 5 2])).1
      = [("respondToTask", [Param.task barEvent.Task, Param.uint32 6, Param.bytes [3, 7, 11]]),
          ("respondToTask", [Param.task fooEvent.Task, Param.uint32 5, Param.bytes [2, 7, 118]]),
          ("respondToTask", [Param.task barEvent.Task, Param.uint32 6, Param.bytes [3, 7, 11]])]
    ∧ sentTransactions (contract.StartListeningForEvents toyLibrary toyService none toyKey
        ([toyRound barEvent 3 2] ++ toyRound fooEvent 4 1 :: [toyRound barEvent 5 2])).1 = [] :=
  have h := responder_cycle_calls toyLibrary toyService toyKey [toyRound barEvent 3 2]
    [toyRound barEvent 5 2] (toyRound fooEvent 4 1) fooEvent
    ⟨9, some 4, some 0, none, 300000⟩ [2, 7, 118] rfl rfl rfl rfl
  ⟨by rw [h.2.2.2.2.1]; decide, h.2.2.2.2.2⟩

/-- C18: when the options are built, `RegisterAsOperator` looks the nonce up,
calls `registerAsOperator` once with the zero operator details and the empty
metadata URI, submits the transaction the call returned once (nothing is
submitted when the call fails), and returns nil exactly when the call and the
submission both succeeded. -/
theorem register_calls_once_and_submits (L : Library) (s : eigen.Service) (client : Client)
    (delegation : BoundContract) (pk : PrivateKey) (pub : PublicKey) (nonce : Nat)
    (keyed opts : TransactOpts)
    (hpub : L.Public pk = some pub)
    (hnonce : client.PendingNonceAt (L.PubkeyToAddress pub) = .ok nonce)
    (hkeyed : L.NewKeyedTransactorWithChainID pk s.chainID = .ok keyed)
    (hopts : opts = { keyed with
                      Nonce := some (int64 nonce)
                      Value := some 0
                      GasLimit := s.gasLimit
                      GasPrice := some 21000 }) :
    (eigen.RegisterAsOperator L s client delegation pk).1
        = Call.PendingNonceAt (L.PubkeyToAddress pub)
          :: Call.Transact opts "registerAsOperator"
              [Param.operatorDetails ⟨0, 0, 0⟩, Param.string []]
          :: (match delegation.Transact opts "registerAsOperator"
                [Param.operatorDetails ⟨0, 0, 0⟩, Param.string []] with
              | .ok tx => [Call.SendTransaction tx]
              | .error _ => [])
    ∧ ((eigen.RegisterAsOperator L s client delegation pk).2 = none
        ↔ ∃ tx, delegation.Transact opts "registerAsOperator"
              [Param.operatorDetails ⟨0, 0, 0⟩, Param.string []] = .ok tx
            ∧ client.SendTransaction tx = none) := by
  rw [RegisterAsOperator_ok L s client delegation pk pub nonce keyed opts hpub hnonce hkeyed
    hopts]
  cases hcall : delegation.Transact opts "registerAsOperator"
      [Param.operatorDetails ⟨0, 0, 0⟩, Param.string []] with
  | error e =>
    refine ⟨rfl, ?_⟩
    simp
  | ok tx =>
    refine ⟨rfl, ?_⟩
    cases hsend : client.SendTransaction tx with
    | none => simp [hsend]
    | some e => simp [hsend]

/-- C18, on the toy instance: the call is accepted and the transaction sent. -/
theorem register_calls_once_and_submits_witness :
    (eigen.RegisterAsOperator toyLibrary ⟨some 17000, 300000, some 5, 0⟩ (toyClient 7)
        toyContract toyKey).1
      = [Call.PendingNonceAt 9,
          Call.Transact ⟨9, some 7, some 0, some 21000, 300000⟩ "registerAsOperator"
            [Param.operatorDetails ⟨0, 0, 0⟩, Param.string []],
          Call.SendTransaction ⟨7⟩]
    ∧ (eigen.RegisterAsOperator toyLibrary ⟨some 17000, 300000, some 5, 0⟩ (toyClient 7)
        toyContract toyKey).2 = none :=
  have h := register_calls_once_and_submits toyLibrary ⟨some 17000, 300000, some 5, 0⟩
    (toyClient 7) toyContract toyKey ⟨9, 0⟩ 7 ⟨9, none, none, none, 0⟩
    ⟨9, some 7, some 0, some 21000, 300000⟩ rfl rfl rfl rfl
  ⟨h.1, h.2.mpr ⟨⟨7⟩, rfl, rfl⟩⟩

/-- The service `eigen.New` returns, spelled out. -/
theorem eigen_New_inv (L : Library) (gasLimit : Nat) (gasPrice : Option Int)
    (delegationAddress : Bytes) (bound : Option GoError) (client : Client) (s : eigen.Service)
    (h : eigen.New L gasLimit gasPrice delegationAddress bound client = .ok s) :
    ∃ chainID, client.NetworkID = .ok chainID
      ∧ s = ⟨chainID, gasLimit, gasPrice, L.HexToAddress delegationAddress⟩ := by
  unfold eigen.New at h
  cases bound with
  | some e => cases h
  | none =>
    cases hid : client.NetworkID with
    | error e => simp only [hid] at h; cases h
    | ok chainID =>
      simp only [hid, Except.ok.injEq] at h
      exact ⟨chainID, rfl, h.symm⟩

/-- C19: for every configuration, `RegisterAsOperator` of a service made by
`eigen.New` builds one options record, with the gas price 21000: the record is
the same whatever gas price `eigen.New` was given (the service stores that
price and the registration does not read it). The options `transactor` builds
for a service made by `contract.New` carry the gas price nil, which is not
21000, so the two differ for every configured gas price. -/
theorem registration_gas_price_fixed (L : Library) (client₀ : Client)
    (bound₁ bound₂ : Option GoError) (gasLimit₁ gasLimit₂ : Nat) (gasPrice₁ gasPrice₂ : Option Int)
    (address₁ address₂ : Bytes) (cs : contract.Service) (es : eigen.Service)
    (client client' : Client) (delegation : BoundContract) (pk pk' : PrivateKey)
    (pub pub' : PublicKey) (nonce nonce' : Nat) (keyed keyed' : TransactOpts)
    (hc : contract.New L client₀ bound₁ gasLimit₁ gasPrice₁ address₁ = .ok cs)
    (he : eigen.New L gasLimit₂ gasPrice₂ address₂ bound₂ client₀ = .ok es)
    (hpub : L.Public pk = some pub)
    (hnonce : client.PendingNonceAt (L.PubkeyToAddress pub) = .ok nonce)
    (hkeyed : L.NewKeyedTransactorWithChainID pk es.chainID = .ok keyed)
    (hpub' : L.Public pk' = some pub')
    (hnonce' : client'.PendingNonceAt (L.PubkeyToAddress pub') = .ok nonce')
    (hkeyed' : L.NewKeyedTransactorWithChainID pk' cs.chainID = .ok keyed') :
    es.gasPrice = gasPrice₂
    ∧ builtOpts (eigen.RegisterAsOperator L es client delegation pk).1
        = [⟨keyed.From, some (int64 nonce), some 0, some 21000, gasLimit₂⟩]
    ∧ (∀ (gasPrice₃ : Option Int) (es' : eigen.Service),
        eigen.New L gasLimit₂ gasPrice₃ address₂ bound₂ client₀ = .ok es' →
        builtOpts (eigen.RegisterAsOperator L es' client delegation pk).1
          = builtOpts (eigen.RegisterAsOperator L es client delegation pk).1)
    ∧ (contract.transactor L cs client' pk').2
        = .ok ⟨keyed'.From, some (int64 nonce'), some 0, none, gasLimit₁⟩
    ∧ (∀ opts opts', opts ∈ builtOpts (eigen.RegisterAsOperator L es client delegation pk).1 →
        (contract.transactor L cs client' pk').2 = .ok opts' →
        opts.GasPrice = some 21000 ∧ opts'.GasPrice = none ∧ opts.GasPrice ≠ opts'.GasPrice)
    ∧ (∀ (client₁ client₂ : Client) (delegation₁ : BoundContract) (pk₁ pk₂ : PrivateKey)
        (opts opts' : TransactOpts),
        opts ∈ builtOpts (eigen.RegisterAsOperator L es client₁ delegation₁ pk₁).1 →
        (contract.transactor L cs client₂ pk₂).2 = .ok opts' →
        opts.GasPrice = some 21000 ∧ opts.GasPrice ≠ opts'.GasPrice) := by
  obtain ⟨hcl, hcp⟩ := contract_New_ok L client₀ bound₁ gasLimit₁ gasPrice₁ address₁ cs hc
  obtain ⟨hel, hep⟩ := eigen_New_ok L gasLimit₂ gasPrice₂ address₂ bound₂ client₀ es he
  have hreg := RegisterAsOperator_builtOpts_ok L es client delegation pk pub nonce keyed
    hpub hnonce hkeyed
  have hresp := congrArg Prod.snd
    (transactor_ok L cs client' pk' pub' nonce' keyed' hpub' hnonce' hkeyed')
  have hany : ∀ (client₁ client₂ : Client) (delegation₁ : BoundContract) (pk₁ pk₂ : PrivateKey)
      (opts opts' : TransactOpts),
      opts ∈ builtOpts (eigen.RegisterAsOperator L es client₁ delegation₁ pk₁).1 →
      (contract.transactor L cs client₂ pk₂).2 = .ok opts' →
      opts.GasPrice = some 21000 ∧ opts'.GasPrice = none ∧ opts.GasPrice ≠ opts'.GasPrice := by
    intro client₁ client₂ delegation₁ pk₁ pk₂ opts opts' hopts hopts'
    obtain ⟨_, _, _, _, _, _, ho⟩ :=
      RegisterAsOperator_builtOpts_inv L es client₁ delegation₁ pk₁ opts hopts
    obtain ⟨_, _, _, _, _, _, ho'⟩ := transactor_ok_inv L cs client₂ pk₂ opts' hopts'
    have h₁ : opts.GasPrice = some 21000 := by rw [ho]
    have h₂ : opts'.GasPrice = none := by rw [ho']; exact hcp
    refine ⟨h₁, h₂, ?_⟩
    rw [h₁, h₂]
    exact fun h => Option.noConfusion h
  refine ⟨hep, ?_, ?_, ?_, ?_, ?_⟩
  · rw [hreg, hel]
  · intro gasPrice₃ es' he'
    obtain ⟨chainID, hid, hes⟩ := eigen_New_inv L gasLimit₂ gasPrice₂ address₂ bound₂ client₀ es he
    obtain ⟨chainID', hid', hes'⟩ :=
      eigen_New_inv L gasLimit₂ gasPrice₃ address₂ bound₂ client₀ es' he'
    rw [hid] at hid'
    cases hid'
    have hkeyed₃ : L.NewKeyedTransactorWithChainID pk es'.chainID = .ok keyed := by
      rw [hes']
      rw [hes] at hkeyed
      exact hkeyed
    rw [hreg, RegisterAsOperator_builtOpts_ok L es' client delegation pk pub nonce keyed hpub
      hnonce hkeyed₃, hes, hes']
  · rw [hresp, hcl, hcp]
  · intro opts opts' hopts hopts'
    exact hany client client' delegation pk pk' opts opts' hopts hopts'
  · intro client₁ client₂ delegation₁ pk₁ pk₂ opts opts' hopts hopts'
    obtain ⟨h₁, _, h₃⟩ := hany client₁ client₂ delegation₁ pk₁ pk₂ opts opts' hopts hopts'
    exact ⟨h₁, h₃⟩

/-- C19, on the toy instance: both services are configured with the gas
price 21000 itself; the registration builds its record with 21000, also when
configured with 5, and the responder's `transactor` builds its record with
nil. -/
theorem registration_gas_price_fixed_witness :
    builtOpts (eigen.RegisterAsOperator toyLibrary ⟨some 17000, 300000, some 21000, 0⟩
        (toyClient 7) toyContract toyKey).1
      = [⟨9, some 7, some 0, some 21000, 300000⟩]
    ∧ builtOpts (eigen.RegisterAsOperator toyLibrary ⟨some 17000, 300000, some 5, 0⟩
        (toyClient 7) toyContract toyKey).1
      = builtOpts (eigen.RegisterAsOperator toyLibrary ⟨some 17000, 300000, some 21000, 0⟩
        (toyClient 7) toyContract toyKey).1
    ∧ (contract.transactor toyLibrary toyService (toyClient 3) toyKey).2
      = .ok ⟨9, some 3, some 0, none, 300000⟩ :=
  have h := registration_gas_price_fixed toyLibrary (toyClient 3) none none 300000 300000
    (some 21000) (some 21000) [] [] toyService ⟨some 17000, 300000, some 21000, 0⟩
    (toyClient 7) (toyClient 3) toyContract toyKey toyKey ⟨9, 0⟩ ⟨9, 0⟩ 7 3
    ⟨9, none, none, none, 0⟩ ⟨9, none, none, none, 0⟩ rfl rfl rfl rfl rfl rfl rfl rfl
  ⟨h.2.1, h.2.2.1 (some 5) ⟨some 17000, 300000, some 5, 0⟩ rfl, h.2.2.2.1⟩

/-- C20: once start-up has reached the registration, `main` runs
`RegisterAsOperator` first. If it returns an error, `main` ends in the fatal
log of the registration with the calls of the registration only: there is no
`respondToTask` call, nothing is signed, and the run is the same whatever the
subscription would deliver, so `StartListeningForEvents` is not invoked. If it
returns nil, every call of the responder comes after those of the
registration. -/
theorem registration_failure_is_fatal (L : Library) (H : operator.Host)
    (delegation : BoundContract) (watch : Option GoError) (rounds : List contract.Round)
    (env : String → Bytes) (client : Client) (gasLimit gasPrice : Int)
    (cs : contract.Service) (es : eigen.Service) (pk : PrivateKey)
    (henv : H.Read = .ok env)
    (hdial : H.Dial (ascii "ws://" ++ env "RPC_URL") = .ok client)
    (hlimit : H.Atoi (env "GAS_LIMIT") = .ok gasLimit)
    (hprice : H.Atoi (env "GAS_PRICE") = .ok gasPrice)
    (hcs : contract.New L client H.NewHelloWorld (uint64 gasLimit) (some gasPrice)
      (env "HELLO_WORLD_ADDRESS") = .ok cs)
    (hes : eigen.New L (uint64 gasLimit) (some gasPrice)
      (env "HOLESKY_DELEGATION_MANAGER_ADDRESS") H.NewContractDelegationManager client = .ok es)
    (hkey : H.HexToECDSA (env "WALLET_KEY") = .ok pk) :
    (∀ err, (eigen.RegisterAsOperator L es client delegation pk).2 = some err →
        operator.main L H delegation watch rounds
          = ((eigen.RegisterAsOperator L es client delegation pk).1,
              operator.Exit.fatal "Error registering as operator: %v\n" err)
        ∧ respondCalls (operator.main L H delegation watch rounds).1 = []
        ∧ signedHashes (operator.main L H delegation watch rounds).1 = []
        ∧ ∀ watch' rounds', operator.main L H delegation watch' rounds'
            = operator.main L H delegation watch rounds)
    ∧ ((eigen.RegisterAsOperator L es client delegation pk).2 = none →
        (operator.main L H delegation watch rounds).1
          = (eigen.RegisterAsOperator L es client delegation pk).1
              ++ (contract.StartListeningForEvents L cs watch pk rounds).1) := by
  have hmain := fun w r => main_after_startup L H delegation w r env client gasLimit gasPrice
    cs es pk henv hdial hlimit hprice hcs hes hkey
  have hno := RegisterAsOperator_no_response L es client delegation pk
  constructor
  · intro err herr
    have hfatal : ∀ w r, operator.main L H delegation w r
        = ((eigen.RegisterAsOperator L es client delegation pk).1,
            operator.Exit.fatal "Error registering as operator: %v\n" err) := by
      intro w r
      rw [hmain w r]
      revert herr
      cases eigen.RegisterAsOperator L es client delegation pk with
      | mk c1 res =>
        intro herr
        simp only at herr
        subst herr
        rfl
    refine ⟨hfatal watch rounds, ?_, ?_, ?_⟩
    · rw [hfatal watch rounds]
      exact hno.1
    · rw [hfatal watch rounds]
      exact hno.2
    · intro watch' rounds'
      rw [hfatal watch rounds, hfatal watch' rounds']
  · intro hnil
    rw [hmain watch rounds]
    revert hnil
    cases eigen.RegisterAsOperator L es client delegation pk with
    | mk c1 res =>
      intro hnil
      simp only at hnil
      subst hnil
      simp only
      cases contract.StartListeningForEvents L cs watch pk rounds with
      | mk c2 out =>
        cases out with
        | waiting => rfl
        | returned e =>
          cases e <;> rfl

/-- C20, on the toy instance: the delegation manager rejects the call, and
an event that would be delivered is never answered. -/
theorem registration_failure_is_fatal_witness :
    operator.main toyLibrary toyHost rejectingContract none [toyRound fooEvent 8 1]
      = ([Call.PendingNonceAt 9,
            Call.Transact ⟨9, some 7, some 0, some 21000, 300000⟩ "registerAsOperator"
              [Param.operatorDetails ⟨0, 0, 0⟩, Param.string []]],
          operator.Exit.fatal "Error registering as operator: %v\n"
            (GoError.Wrap (GoError.lib 5) "Error while registering as operator"))
    ∧ respondCalls
        (operator.main toyLibrary toyHost rejectingContract none [toyRound fooEvent 8 1]).1 = []
    ∧ (operator.main toyLibrary toyHost toyContract none [toyRound fooEvent 8 1]).1
        = (eigen.RegisterAsOperator toyLibrary ⟨some 17000, 300000, some 5, 813183026⟩
            (toyClient 7) toyContract toyKey).1
          ++ (contract.StartListeningForEvents toyLibrary
              ⟨300000, none, some 17000, 813183025⟩ none toyKey [toyRound fooEvent 8 1]).1 :=
  have h₁ := registration_failure_is_fatal toyLibrary toyHost rejectingContract none
    [toyRound fooEvent 8 1] toyEnv (toyClient 7) 300000 5
    ⟨300000, none, some 17000, 813183025⟩ ⟨some 17000, 300000, some 5, 813183026⟩ toyKey
    rfl rfl rfl rfl rfl rfl rfl
  have h₂ := registration_failure_is_fatal toyLibrary toyHost toyContract none
    [toyRound fooEvent 8 1] toyEnv (toyClient 7) 300000 5
    ⟨300000, none, some 17000, 813183025⟩ ⟨some 17000, 300000, some 5, 813183026⟩ toyKey
    rfl rfl rfl rfl rfl rfl rfl
  ⟨(h₁.1 (GoError.Wrap (GoError.lib 5) "Error while registering as operator") rfl).1,
    (h₁.1 (GoError.Wrap (GoError.lib 5) "Error while registering as operator") rfl).2.1,
    h₂.2 rfl⟩

/-! ## Lemmas on start-up and on `CreateNewTask` -/

/-- The result of `CreateNewTask` when the options cannot be built. -/
theorem CreateNewTask_build_error (L : Library) (s : contract.Service) (client : Client)
    (helloWorld : BoundContract) (pk : PrivateKey) (name : Bytes) (e : GoError)
    (hbuild : (contract.transactor L s client pk).2 = .error e) :
    contract.CreateNewTask L s client helloWorld pk name
      = ((contract.transactor L s client pk).1, some e) := by
  unfold contract.CreateNewTask
  revert hbuild
  cases contract.transactor L s client pk with
  | mk c1 res =>
    intro hbuild
    simp only at hbuild
    subst hbuild
    rfl

/-- The result of `CreateNewTask` when the options are built. -/
theorem CreateNewTask_built (L : Library) (s : contract.Service) (client : Client)
    (helloWorld : BoundContract) (pk : PrivateKey) (name : Bytes) (opts : TransactOpts)
    (hbuild : (contract.transactor L s client pk).2 = .ok opts) :
    contract.CreateNewTask L s client helloWorld pk name
      = match helloWorld.Transact opts "createNewTask" [Param.string name] with
        | .error err =>
          ((contract.transactor L s client pk).1
              ++ [Call.Transact opts "createNewTask" [Param.string name]],
            some (GoError.Wrap err "Error while calling create_task"))
        | .ok tx =>
          ((contract.transactor L s client pk).1
              ++ [Call.Transact opts "createNewTask" [Param.string name]]
              ++ [Call.SendTransaction tx],
            match client.SendTransaction tx with
            | some err => some (GoError.Wrap err "Error while sending transaction")
            | none => none) := by
  unfold contract.CreateNewTask
  revert hbuild
  cases contract.transactor L s client pk with
  | mk c1 res =>
    intro hbuild
    simp only at hbuild
    subst hbuild
    simp only [helloworld.CreateNewTask]
    cases helloWorld.Transact opts "createNewTask" [Param.string name] with
    | error e => rfl
    | ok tx =>
      simp only
      cases client.SendTransaction tx <;> rfl

/-! ## The claims, concluded -/

/-- C21 fails as stated: with both contract addresses missing from the
environment file, start-up goes through: `main` builds and submits the
registration transaction, enters the responder loop and answers an event. -/
theorem missing_address_is_not_fatal :
    noAddressEnv "HELLO_WORLD_ADDRESS" = []
    ∧ noAddressEnv "HOLESKY_DELEGATION_MANAGER_ADDRESS" = []
    ∧ (operator.main toyLibrary (hostWith noAddressEnv) toyContract none
        [toyRound fooEvent 8 1]).2 = operator.Exit.waiting
    ∧ (builtOpts (operator.main toyLibrary (hostWith noAddressEnv) toyContract none
        [toyRound fooEvent 8 1]).1).length = 2
    ∧ (respondCalls (operator.main toyLibrary (hostWith noAddressEnv) toyContract none
        [toyRound fooEvent 8 1]).1).length = 1 :=
  ⟨rfl, rfl, by decide, by decide, by decide⟩

/-- C21, amended: when the environment file cannot be read, the node cannot
be dialled, the gas limit or the gas price does not parse as an integer, or
the signing key does not parse, `main` ends in a fatal log without any call:
no registration transaction is built and the responder loop is not entered. -/
theorem bad_parameter_is_fatal (L : Library) (H : operator.Host) (delegation : BoundContract)
    (watch : Option GoError) (rounds : List contract.Round)
    (hbad : (∃ e, H.Read = .error e)
      ∨ ∃ env, H.Read = .ok env
        ∧ ((∃ e, H.Dial (ascii "ws://" ++ env "RPC_URL") = .error e)
          ∨ (∃ e, H.Atoi (env "GAS_LIMIT") = .error e)
          ∨ (∃ e, H.Atoi (env "GAS_PRICE") = .error e)
          ∨ (∃ e, H.HexToECDSA (env "WALLET_KEY") = .error e))) :
    ∃ format err, operator.main L H delegation watch rounds
      = ([], operator.Exit.fatal format err) := by
  unfold operator.main
  rcases hbad with ⟨e, he⟩ | ⟨env, henv, hrest⟩
  · simp only [he]
    exact ⟨_, _, rfl⟩
  · simp only [henv]
    cases hdial : H.Dial (ascii "ws://" ++ env "RPC_URL") with
    | error e => exact ⟨_, _, rfl⟩
    | ok client =>
      simp only
      cases hlimit : H.Atoi (env "GAS_LIMIT") with
      | error e => exact ⟨_, _, rfl⟩
      | ok gasLimit =>
        simp only
        cases hprice : H.Atoi (env "GAS_PRICE") with
        | error e => exact ⟨_, _, rfl⟩
        | ok gasPrice =>
          simp only
          cases contract.New L client H.NewHelloWorld (uint64 gasLimit) (some gasPrice)
              (env "HELLO_WORLD_ADDRESS") with
          | error e => exact ⟨_, _, rfl⟩
          | ok cs =>
            simp only
            cases eigen.New L (uint64 gasLimit) (some gasPrice)
                (env "HOLESKY_DELEGATION_MANAGER_ADDRESS") H.NewContractDelegationManager
                client with
            | error e => exact ⟨_, _, rfl⟩
            | ok es =>
              simp only
              cases hkey : H.HexToECDSA (env "WALLET_KEY") with
              | error e => exact ⟨_, _, rfl⟩
              | ok pk =>
                exfalso
                rcases hrest with ⟨e, h⟩ | ⟨e, h⟩ | ⟨e, h⟩ | ⟨e, h⟩
                · rw [hdial] at h; cases h
                · rw [hlimit] at h; cases h
                · rw [hprice] at h; cases h
                · rw [hkey] at h; cases h

/-- C21 amended, on the toy instance: the gas limit is missing from the
environment file. -/
theorem bad_parameter_is_fatal_witness :
    ∃ format err, operator.main toyLibrary
        (hostWith fun key => if key = "GAS_LIMIT" then [] else toyEnv key)
        toyContract none [toyRound fooEvent 8 1]
      = ([], operator.Exit.fatal format err) :=
  bad_parameter_is_fatal toyLibrary
    (hostWith fun key => if key = "GAS_LIMIT" then [] else toyEnv key)
    toyContract none [toyRound fooEvent 8 1]
    (Or.inr ⟨_, rfl, Or.inr (Or.inl ⟨GoError.lib 6, rfl⟩)⟩)

/-- C22: `CreateNewTask` builds the options, calls `createNewTask` with the
given name, and submits the returned transaction, in this order. A step that
fails ends it with a non-nil error and none of the later steps is made; it
returns nil exactly when all three succeeded, and then it has made one
`createNewTask` call and one submission. -/
theorem CreateNewTask_steps (L : Library) (s : contract.Service) (client : Client)
    (helloWorld : BoundContract) (pk : PrivateKey) (name : Bytes) :
    (∀ e, (contract.transactor L s client pk).2 = .error e →
        (contract.CreateNewTask L s client helloWorld pk name).2 = some e
        ∧ builtOpts (contract.CreateNewTask L s client helloWorld pk name).1 = []
        ∧ sentTransactions (contract.CreateNewTask L s client helloWorld pk name).1 = [])
    ∧ (∀ opts e, (contract.transactor L s client pk).2 = .ok opts →
        helloWorld.Transact opts "createNewTask" [Param.string name] = .error e →
        (contract.CreateNewTask L s client helloWorld pk name).2
            = some (GoError.Wrap e "Error while calling create_task")
        ∧ (contract.CreateNewTask L s client helloWorld pk name).1
            = (contract.transactor L s client pk).1
                ++ [Call.Transact opts "createNewTask" [Param.string name]]
        ∧ sentTransactions (contract.CreateNewTask L s client helloWorld pk name).1 = [])
    ∧ (∀ opts tx, (contract.transactor L s client pk).2 = .ok opts →
        helloWorld.Transact opts "createNewTask" [Param.string name] = .ok tx →
        (contract.CreateNewTask L s client helloWorld pk name).1
            = (contract.transactor L s client pk).1
                ++ [Call.Transact opts "createNewTask" [Param.string name]]
                ++ [Call.SendTransaction tx]
        ∧ (∀ e, client.SendTransaction tx = some e →
            (contract.CreateNewTask L s client helloWorld pk name).2
              = some (GoError.Wrap e "Error while sending transaction"))
        ∧ (client.SendTransaction tx = none →
            (contract.CreateNewTask L s client helloWorld pk name).2 = none))
    ∧ ((contract.CreateNewTask L s client helloWorld pk name).2 = none ↔
        ∃ opts tx, (contract.transactor L s client pk).2 = .ok opts
          ∧ helloWorld.Transact opts "createNewTask" [Param.string name] = .ok tx
          ∧ client.SendTransaction tx = none) := by
  refine ⟨?_, ?_, ?_, ?_⟩
  · intro e he
    rw [CreateNewTask_build_error L s client helloWorld pk name e he]
    exact ⟨rfl, transactor_builtOpts L s client pk, transactor_sentTransactions L s client pk⟩
  · intro opts e hopts hcall
    rw [CreateNewTask_built L s client helloWorld pk name opts hopts, hcall]
    refine ⟨rfl, rfl, ?_⟩
    simp only [sentTransactions_append, transactor_sentTransactions]
    rfl
  · intro opts tx hopts hcall
    rw [CreateNewTask_built L s client helloWorld pk name opts hopts, hcall]
    refine ⟨rfl, ?_, ?_⟩
    · intro e he
      simp only [he]
    · intro he
      simp only [he]
  · rcases except_cases (contract.transactor L s client pk).2 with ⟨e, he⟩ | ⟨opts, hopts⟩
    · rw [CreateNewTask_build_error L s client helloWorld pk name e he]
      simp [he]
    · rw [CreateNewTask_built L s client helloWorld pk name opts hopts]
      cases hcall : helloWorld.Transact opts "createNewTask" [Param.string name] with
      | error e => simp [hopts, hcall]
      | ok tx =>
        cases hsend : client.SendTransaction tx with
        | none => simp [hopts, hcall, hsend]
        | some e =>
          constructor
          · intro h
            simp only [hsend] at h
            cases h
          · rintro ⟨o, tx', ho, hc, hs⟩
            rw [hopts] at ho
            cases ho
            rw [hcall] at hc
            cases hc
            rw [hsend] at hs
            cases hs

/-- C22, on the toy instance: all three steps succeed; with a contract that
rejects the call nothing is submitted. -/
theorem CreateNewTask_steps_witness :
    (contract.CreateNewTask toyLibrary toyService (toyClient 3) toyContract toyKey
        (ascii "QuickFox1"))
      = ([Call.PendingNonceAt 9,
            Call.Transact ⟨9, some 3, some 0, none, 300000⟩ "createNewTask"
              [Param.string (ascii "QuickFox1")],
            Call.SendTransaction ⟨3⟩], none)
    ∧ sentTransactions (contract.CreateNewTask toyLibrary toyService (toyClient 3)
        rejectingContract toyKey (ascii "QuickFox1")).1 = [] :=
  ⟨by decide,
    ((CreateNewTask_steps toyLibrary toyService (toyClient 3) rejectingContract toyKey
      (ascii "QuickFox1")).2.1 ⟨9, some 3, some 0, none, 300000⟩ (GoError.lib 5) rfl rfl).2.2⟩

/-- The events forwarded are the decodings of the first logs fed. -/
theorem loop_forwards (UnpackLog : Log → Except GoError HelloWorldNewTaskCreated) :
    ∀ turns : List helloworld.Turn, ∃ taken more, fedLogs turns = taken ++ more
      ∧ List.Forall₂ (fun l ev => ∃ d, UnpackLog l = .ok d ∧ ev = { d with Raw := l })
          taken (helloworld.WatchNewTaskCreated.loop UnpackLog turns).1 := by
  intro turns
  induction turns with
  | nil => exact ⟨[], [], rfl, List.Forall₂.nil⟩
  | cons turn rest ih =>
    cases turn with
    | err e => exact ⟨[], _, rfl, List.Forall₂.nil⟩
    | quit => exact ⟨[], _, rfl, List.Forall₂.nil⟩
    | log l next =>
      have hfed : fedLogs (helloworld.Turn.log l next :: rest) = l :: fedLogs rest := rfl
      cases hdec : UnpackLog l with
      | error e =>
        refine ⟨[], _, rfl, ?_⟩
        simp only [helloworld.WatchNewTaskCreated.loop, hdec]
        exact List.Forall₂.nil
      | ok d =>
        cases next with
        | err e =>
          refine ⟨[], _, rfl, ?_⟩
          simp only [helloworld.WatchNewTaskCreated.loop, hdec]
          exact List.Forall₂.nil
        | quit =>
          refine ⟨[], _, rfl, ?_⟩
          simp only [helloworld.WatchNewTaskCreated.loop, hdec]
          exact List.Forall₂.nil
        | sent =>
          obtain ⟨taken, more, hsplit, hall⟩ := ih
          refine ⟨l :: taken, more, ?_, ?_⟩
          · rw [hfed, hsplit]
            rfl
          · simp only [helloworld.WatchNewTaskCreated.loop, hdec]
            exact List.Forall₂.cons ⟨d, hdec, rfl⟩ hall

/-- A forwarding loop that is still running after the turns `pre` goes on
with the turns that follow. -/
theorem loop_append (UnpackLog : Log → Except GoError HelloWorldNewTaskCreated)
    (rs : List helloworld.Turn) :
    ∀ pre : List helloworld.Turn,
      (helloworld.WatchNewTaskCreated.loop UnpackLog pre).2 = helloworld.Stream.running →
      helloworld.WatchNewTaskCreated.loop UnpackLog (pre ++ rs)
        = ((helloworld.WatchNewTaskCreated.loop UnpackLog pre).1
              ++ (helloworld.WatchNewTaskCreated.loop UnpackLog rs).1,
            (helloworld.WatchNewTaskCreated.loop UnpackLog rs).2) := by
  intro pre
  induction pre with
  | nil => intro _; rfl
  | cons turn pre ih =>
    intro hrun
    cases turn with
    | err e => simp [helloworld.WatchNewTaskCreated.loop] at hrun
    | quit => simp [helloworld.WatchNewTaskCreated.loop] at hrun
    | log l next =>
      cases hdec : UnpackLog l with
      | error e => simp [helloworld.WatchNewTaskCreated.loop, hdec] at hrun
      | ok d =>
        cases next with
        | err e => simp [helloworld.WatchNewTaskCreated.loop, hdec] at hrun
        | quit => simp [helloworld.WatchNewTaskCreated.loop, hdec] at hrun
        | sent =>
          simp only [helloworld.WatchNewTaskCreated.loop, hdec] at hrun
          show helloworld.WatchNewTaskCreated.loop UnpackLog
            (helloworld.Turn.log l helloworld.Forward.sent :: (pre ++ rs)) = _
          simp only [helloworld.WatchNewTaskCreated.loop, hdec]
          rw [ih hrun]
          rfl

/-- C23: for every sequence of turns, the events the forwarding loop of
`WatchNewTaskCreated` sends to the sink are the decodings of an initial
segment of the logs fed to it, in the same order, one event per log, each with
`Raw` set to its log; and a log that does not decode, reached while the loop is
running, ends the stream with the decoding error and nothing that follows is
forwarded. -/
theorem watch_forwards_decoded_logs
    (UnpackLog : Log → Except GoError HelloWorldNewTaskCreated) (turns : List helloworld.Turn) :
    helloworld.WatchNewTaskCreated none UnpackLog turns
        = .ok (helloworld.WatchNewTaskCreated.loop UnpackLog turns)
    ∧ (∃ taken more, fedLogs turns = taken ++ more
      ∧ List.Forall₂ (fun l ev => ∃ d, UnpackLog l = .ok d ∧ ev = { d with Raw := l })
          taken (helloworld.WatchNewTaskCreated.loop UnpackLog turns).1
      ∧ (helloworld.WatchNewTaskCreated.loop UnpackLog turns).1.map
          HelloWorldNewTaskCreated.Raw = taken)
    ∧ (∀ (pre rest : List helloworld.Turn) (l : Log) (next : helloworld.Forward) (e : GoError),
        turns = pre ++ helloworld.Turn.log l next :: rest →
        (helloworld.WatchNewTaskCreated.loop UnpackLog pre).2 = helloworld.Stream.running →
        UnpackLog l = .error e →
        helloworld.WatchNewTaskCreated.loop UnpackLog turns
          = ((helloworld.WatchNewTaskCreated.loop UnpackLog pre).1,
              helloworld.Stream.ended (some e))) := by
  refine ⟨rfl, ?_, ?_⟩
  · obtain ⟨taken, more, hsplit, hall⟩ := loop_forwards UnpackLog turns
    refine ⟨taken, more, hsplit, hall, ?_⟩
    clear hsplit
    generalize (helloworld.WatchNewTaskCreated.loop UnpackLog turns).1 = sink at hall
    induction hall with
    | nil => rfl
    | cons h _ ih =>
      obtain ⟨d, _, hev⟩ := h
      rw [List.map_cons, ih, hev]
  · intro pre rest l next e hturns hrun hdec
    rw [hturns, loop_append UnpackLog _ pre hrun]
    simp only [helloworld.WatchNewTaskCreated.loop, hdec, List.append_nil]

/-- C23, on the toy instance: the logs 1 and 2 are forwarded, log 100 does
not decode and log 3 is not forwarded. -/
theorem watch_forwards_decoded_logs_witness :
    helloworld.WatchNewTaskCreated.loop toyUnpackLog
        ([helloworld.Turn.log 1 helloworld.Forward.sent,
            helloworld.Turn.log 2 helloworld.Forward.sent]
          ++ helloworld.Turn.log 100 helloworld.Forward.sent
            :: [helloworld.Turn.log 3 helloworld.Forward.sent])
      = ((helloworld.WatchNewTaskCreated.loop toyUnpackLog
            [helloworld.Turn.log 1 helloworld.Forward.sent,
              helloworld.Turn.log 2 helloworld.Forward.sent]).1,
          helloworld.Stream.ended (some (GoError.lib 8)))
    ∧ (helloworld.WatchNewTaskCreated.loop toyUnpackLog
        [helloworld.Turn.log 1 helloworld.Forward.sent,
          helloworld.Turn.log 2 helloworld.Forward.sent]).1
      = [⟨1, ⟨ascii "Foo", 1001⟩, 1⟩, ⟨2, ⟨ascii "Foo", 1002⟩, 2⟩] :=
  ⟨(watch_forwards_decoded_logs toyUnpackLog
      ([helloworld.Turn.log 1 helloworld.Forward.sent,
          helloworld.Turn.log 2 helloworld.Forward.sent]
        ++ helloworld.Turn.log 100 helloworld.Forward.sent
          :: [helloworld.Turn.log 3 helloworld.Forward.sent])).2.2
      [helloworld.Turn.log 1 helloworld.Forward.sent,
        helloworld.Turn.log 2 helloworld.Forward.sent]
      [helloworld.Turn.log 3 helloworld.Forward.sent] 100 helloworld.Forward.sent
      (GoError.lib 8) rfl rfl rfl,
    by decide⟩

/-! ## Lemmas on the iterator -/

/-- The body of `case log := <-it.logs` returns at once. -/
theorem caseLog_returned (UnpackLog : Log → Except GoError HelloWorldNewTaskCreated)
    (it : helloworld.HelloWorldNewTaskCreatedIterator) (log : Log) (rest : List Log) :
    (helloworld.Next.caseLog UnpackLog it log rest).2 ≠ helloworld.NextResult.unfinished := by
  unfold helloworld.Next.caseLog
  cases UnpackLog log <;> simp

/-- A call of `Next` on an iterator that has failed returns false and leaves
the iterator as it is. -/
theorem Next_of_fail (UnpackLog : Log → Except GoError HelloWorldNewTaskCreated)
    (pickErr : Bool) (fuel : Nat) (it : helloworld.HelloWorldNewTaskCreatedIterator)
    (hfail : it.fail ≠ none) :
    helloworld.Next UnpackLog pickErr (fuel + 1) it
      = (it, helloworld.NextResult.returned false, 1) := by
  simp only [helloworld.Next, hfail, ne_eq, not_false_eq_true, if_true]

/-- A call of `Next` on an iterator that is done and has not failed takes a
waiting log, or returns false when none is waiting. -/
theorem Next_of_done (UnpackLog : Log → Except GoError HelloWorldNewTaskCreated)
    (pickErr : Bool) (fuel : Nat) (it : helloworld.HelloWorldNewTaskCreatedIterator)
    (hfail : it.fail = none) (hdone : it.done = true) :
    helloworld.Next UnpackLog pickErr (fuel + 1) it
      = match it.logs with
        | log :: rest =>
          ((helloworld.Next.caseLog UnpackLog it log rest).1,
            (helloworld.Next.caseLog UnpackLog it log rest).2, 1)
        | [] => (it, helloworld.NextResult.returned false, 1) := by
  simp only [helloworld.Next, hfail, hdone, ne_eq, not_true_eq_false, if_false, if_true]

/-- An activation with `done` set or with a failure makes no further
activation. -/
theorem Next_single (UnpackLog : Log → Except GoError HelloWorldNewTaskCreated)
    (pickErr : Bool) (fuel : Nat) (it : helloworld.HelloWorldNewTaskCreatedIterator)
    (h : it.done = true ∨ it.fail ≠ none) :
    helloworld.Next UnpackLog pickErr (fuel + 1) it = helloworld.Next UnpackLog pickErr 1 it
    ∧ (helloworld.Next UnpackLog pickErr 1 it).2.1 ≠ helloworld.NextResult.unfinished
    ∧ (helloworld.Next UnpackLog pickErr 1 it).2.2 = 1 := by
  by_cases hfail : it.fail = none
  · have hdone : it.done = true := by
      rcases h with h | h
      · exact h
      · exact absurd hfail h
    rw [Next_of_done UnpackLog pickErr fuel it hfail hdone,
      Next_of_done UnpackLog pickErr 0 it hfail hdone]
    cases it.logs with
    | nil => simp
    | cons log rest => exact ⟨rfl, caseLog_returned UnpackLog it log rest, rfl⟩
  · rw [Next_of_fail UnpackLog pickErr fuel it hfail, Next_of_fail UnpackLog pickErr 0 it hfail]
    simp

/-- The activation `Next` makes after the error channel has yielded `err`. -/
theorem Next_after_err (UnpackLog : Log → Except GoError HelloWorldNewTaskCreated)
    (pickErr : Bool) (fuel : Nat) (it : helloworld.HelloWorldNewTaskCreatedIterator)
    (err : Option GoError) (errs : List (Option GoError))
    (hfail : it.fail = none) (hdone : it.done = false) (hsub : it.sub = err :: errs)
    (hpick : it.logs = [] ∨ pickErr = true) :
    helloworld.Next UnpackLog pickErr (fuel + 1) it
      = ((helloworld.Next UnpackLog pickErr fuel
            { it with sub := errs, done := true, fail := err }).1,
          (helloworld.Next UnpackLog pickErr fuel
            { it with sub := errs, done := true, fail := err }).2.1,
          (helloworld.Next UnpackLog pickErr fuel
            { it with sub := errs, done := true, fail := err }).2.2 + 1) := by
  simp only [helloworld.Next, hfail, hdone, ne_eq, not_true_eq_false, if_false, hsub]
  cases hlogs : it.logs with
  | nil => simp
  | cons log rest =>
    rcases hpick with h | h
    · rw [hlogs] at h
      cases h
    · simp [h]

/-- The activation `Next` makes when it takes a waiting log. -/
theorem Next_take_log (UnpackLog : Log → Except GoError HelloWorldNewTaskCreated)
    (pickErr : Bool) (fuel : Nat) (it : helloworld.HelloWorldNewTaskCreatedIterator)
    (log : Log) (rest : List Log)
    (hfail : it.fail = none) (hlogs : it.logs = log :: rest)
    (hpick : it.done = true ∨ it.sub = [] ∨ pickErr = false) :
    helloworld.Next UnpackLog pickErr (fuel + 1) it
      = ((helloworld.Next.caseLog UnpackLog it log rest).1,
          (helloworld.Next.caseLog UnpackLog it log rest).2, 1) := by
  by_cases hdone : it.done = true
  · rw [Next_of_done UnpackLog pickErr fuel it hfail hdone, hlogs]
  · have hd : it.done = false := by simpa using hdone
    simp only [helloworld.Next, hfail, hd, ne_eq, not_true_eq_false, if_false, hlogs]
    cases hsub : it.sub with
    | nil => simp
    | cons err errs =>
      rcases hpick with h | h | h
      · exact absurd h hdone
      · rw [hsub] at h
        cases h
      · simp [h]

/-- A blocked call: nothing is waiting in either channel. -/
theorem Next_blocked (UnpackLog : Log → Except GoError HelloWorldNewTaskCreated)
    (pickErr : Bool) (fuel : Nat) (it : helloworld.HelloWorldNewTaskCreatedIterator)
    (hfail : it.fail = none) (hdone : it.done = false) (hlogs : it.logs = [])
    (hsub : it.sub = []) :
    helloworld.Next UnpackLog pickErr (fuel + 1) it
      = (it, helloworld.NextResult.blocked, 1) := by
  simp only [helloworld.Next, hfail, hdone, ne_eq, not_true_eq_false, if_false, hlogs, hsub]
  simp

/-- Every call of `Next` with room for two activations ends within two. -/
theorem Next_two (UnpackLog : Log → Except GoError HelloWorldNewTaskCreated)
    (pickErr : Bool) (fuel : Nat) (it : helloworld.HelloWorldNewTaskCreatedIterator) :
    helloworld.Next UnpackLog pickErr (fuel + 2) it = helloworld.Next UnpackLog pickErr 2 it
    ∧ (helloworld.Next UnpackLog pickErr 2 it).2.1 ≠ helloworld.NextResult.unfinished
    ∧ 1 ≤ (helloworld.Next UnpackLog pickErr 2 it).2.2
    ∧ (helloworld.Next UnpackLog pickErr 2 it).2.2 ≤ 2
    ∧ ((helloworld.Next UnpackLog pickErr 2 it).2.2 = 2 →
        it.done = false ∧ it.fail = none
        ∧ ∃ err errs, it.sub = err :: errs
          ∧ helloworld.Next UnpackLog pickErr 2 it
            = ((helloworld.Next UnpackLog pickErr 1
                  { it with sub := errs, done := true, fail := err }).1,
                (helloworld.Next UnpackLog pickErr 1
                  { it with sub := errs, done := true, fail := err }).2.1, 2)) := by
  by_cases hsingle : it.done = true ∨ it.fail ≠ none
  · obtain ⟨h₁, h₂, h₃⟩ := Next_single UnpackLog pickErr (fuel + 1) it hsingle
    obtain ⟨h₁', _, _⟩ := Next_single UnpackLog pickErr 1 it hsingle
    rw [h₁, h₁']
    refine ⟨rfl, h₂, by omega, by omega, ?_⟩
    intro h
    omega
  · have hdone : it.done = false := by
      cases hd : it.done with
      | false => rfl
      | true => exact absurd (Or.inl hd) hsingle
    have hfail : it.fail = none := by
      by_contra hf
      exact hsingle (Or.inr hf)
    by_cases htake : ∃ log rest, it.logs = log :: rest ∧ (it.sub = [] ∨ pickErr = false)
    · obtain ⟨log, rest, hlogs, hpick⟩ := htake
      rw [Next_take_log UnpackLog pickErr (fuel + 1) it log rest hfail hlogs (Or.inr hpick),
        Next_take_log UnpackLog pickErr 1 it log rest hfail hlogs (Or.inr hpick)]
      refine ⟨rfl, caseLog_returned UnpackLog it log rest, by simp, by simp, ?_⟩
      intro h
      simp at h
    · cases hsub : it.sub with
      | nil =>
        cases hlogs : it.logs with
        | nil =>
          rw [Next_blocked UnpackLog pickErr (fuel + 1) it hfail hdone hlogs hsub,
            Next_blocked UnpackLog pickErr 1 it hfail hdone hlogs hsub]
          refine ⟨rfl, by simp, by simp, by simp, ?_⟩
          intro h
          simp at h
        | cons log rest => exact absurd ⟨log, rest, hlogs, Or.inl hsub⟩ htake
      | cons err errs =>
        have hpick : it.logs = [] ∨ pickErr = true := by
          cases hlogs : it.logs with
          | nil => exact Or.inl rfl
          | cons log rest =>
            right
            cases hp : pickErr with
            | true => rfl
            | false => exact absurd ⟨log, rest, hlogs, Or.inr hp⟩ htake
        have hinner : (({ it with sub := errs, done := true, fail := err } :
            helloworld.HelloWorldNewTaskCreatedIterator).done = true
            ∨ ({ it with sub := errs, done := true, fail := err } :
              helloworld.HelloWorldNewTaskCreatedIterator).fail ≠ none) := Or.inl rfl
        obtain ⟨h₁, h₂, h₃⟩ := Next_single UnpackLog pickErr fuel _ hinner
        rw [Next_after_err UnpackLog pickErr (fuel + 1) it err errs hfail hdone hsub hpick,
          Next_after_err UnpackLog pickErr 1 it err errs hfail hdone hsub hpick, h₁]
        refine ⟨rfl, h₂, by simp, by simp [h₃], ?_⟩
        intro _
        refine ⟨hdone, hfail, err, errs, rfl, ?_⟩
        simp only [h₃]

/-- C24: when `Next` returns false because a log does not decode, or because
the error channel yields an error, `Error` afterwards returns that error; and
a call of `Next` on an iterator whose `Error` is non-nil returns false and
leaves the iterator as it is, so no log is consumed and `Error` is unchanged,
for every later call. -/
theorem iterator_failure_is_absorbing
    (UnpackLog : Log → Except GoError HelloWorldNewTaskCreated) (pickErr : Bool) (fuel : Nat)
    (it : helloworld.HelloWorldNewTaskCreatedIterator) :
    (∀ log rest e, it.fail = none → it.logs = log :: rest →
        (it.done = true ∨ it.sub = [] ∨ pickErr = false) → UnpackLog log = .error e →
        (helloworld.Next UnpackLog pickErr (fuel + 1) it).2.1
            = helloworld.NextResult.returned false
        ∧ helloworld.Error (helloworld.Next UnpackLog pickErr (fuel + 1) it).1 = some e)
    ∧ (∀ e errs, it.fail = none → it.done = false → it.sub = some e :: errs →
        (it.logs = [] ∨ pickErr = true) →
        (helloworld.Next UnpackLog pickErr (fuel + 2) it).2.1
            = helloworld.NextResult.returned false
        ∧ helloworld.Error (helloworld.Next UnpackLog pickErr (fuel + 2) it).1 = some e)
    ∧ (helloworld.Error it ≠ none →
        helloworld.Next UnpackLog pickErr (fuel + 1) it
            = (it, helloworld.NextResult.returned false, 1)
        ∧ (helloworld.Next UnpackLog pickErr (fuel + 1) it).1.logs = it.logs
        ∧ helloworld.Error (helloworld.Next UnpackLog pickErr (fuel + 1) it).1
            = helloworld.Error it
        ∧ ∀ n, (fun i => (helloworld.Next UnpackLog pickErr (fuel + 1) i).1)^[n] it = it) := by
  refine ⟨?_, ?_, ?_⟩
  · intro log rest e hfail hlogs hpick hdec
    rw [Next_take_log UnpackLog pickErr fuel it log rest hfail hlogs hpick]
    simp only [helloworld.Next.caseLog, hdec, helloworld.Error]
    exact ⟨trivial, trivial⟩
  · intro e errs hfail hdone hsub hpick
    rw [Next_after_err UnpackLog pickErr (fuel + 1) it (some e) errs hfail hdone hsub hpick,
      Next_of_fail UnpackLog pickErr fuel _ (by simp)]
    exact ⟨rfl, rfl⟩
  · intro herr
    have hfail : it.fail ≠ none := herr
    have hnext := Next_of_fail UnpackLog pickErr fuel it hfail
    refine ⟨hnext, by rw [hnext], by rw [hnext], ?_⟩
    intro n
    induction n with
    | zero => rfl
    | succ n ih =>
      rw [Function.iterate_succ_apply', ih, hnext]

/-- C24, on the toy instance: log 100 does not decode; the error channel
yields an error; a failed iterator with two logs waiting keeps them. -/
theorem iterator_failure_is_absorbing_witness :
    helloworld.Error (helloworld.Next toyUnpackLog false 2 ⟨none, [100, 2], [], false, none⟩).1
        = some (GoError.lib 8)
    ∧ helloworld.Error
        (helloworld.Next toyUnpackLog true 2 ⟨none, [1, 2], [some (GoError.lib 1)], false, none⟩).1
        = some (GoError.lib 1)
    ∧ helloworld.Next toyUnpackLog true 2 ⟨none, [1, 2], [], true, some (GoError.lib 1)⟩
        = (⟨none, [1, 2], [], true, some (GoError.lib 1)⟩,
            helloworld.NextResult.returned false, 1) :=
  ⟨((iterator_failure_is_absorbing toyUnpackLog false 1 ⟨none, [100, 2], [], false, none⟩).1
      100 [2] (GoError.lib 8) rfl rfl (Or.inr (Or.inl rfl)) rfl).2,
    ((iterator_failure_is_absorbing toyUnpackLog true 0
      ⟨none, [1, 2], [some (GoError.lib 1)], false, none⟩).2.1
      (GoError.lib 1) [] rfl rfl rfl (Or.inr rfl)).2,
    ((iterator_failure_is_absorbing toyUnpackLog true 1
      ⟨none, [1, 2], [], true, some (GoError.lib 1)⟩).2.2 (by decide)).1⟩

/-! ## Lemmas on the encodings -/

/-- A positive number is at least `256 ^ (len - 1)` for its byte length `len`. -/
theorem bigBytes_length_bounds (x : Int) (hx : 0 < x) :
    1 ≤ (bigBytes x).length
    ∧ 256 ^ ((bigBytes x).length - 1) ≤ x.natAbs
    ∧ x.natAbs < 256 ^ (bigBytes x).length := by
  have hpos : 1 ≤ (bigBytes x).length := bigBytes_length_gt x 0 (by simp; omega)
  refine ⟨hpos, ?_, ?_⟩
  · by_contra hlt
    have h := bigBytes_length_le x ((bigBytes x).length - 1) (by omega)
    omega
  · by_contra hge
    have h := bigBytes_length_gt x (bigBytes x).length (by omega)
    omega

/-- The big-endian bytes determine the absolute value. -/
theorem bigBytes_injective (x y : Int) (hx : 0 < x) (hy : 0 < y)
    (h : bigBytes x = bigBytes y) : x = y := by
  have hx' := bigBytes_value_pos x hx
  have hy' := bigBytes_value_pos y hy
  rw [h] at hx'
  exact hx'.symm.trans hy'

theorem hexEncode_length (h : Bytes) : (hexEncode h).length = 2 * h.length := by
  induction h with
  | nil => rfl
  | cons b bs ih => simp only [hexEncode, List.length_cons, ih]; omega

/-- A hexadecimal digit is one of the characters `0` to `9` and `a` to `f`. -/
theorem hexDigit_range (d : Nat) (hd : d < 16) :
    (48 ≤ hexDigit d ∧ hexDigit d ≤ 57) ∨ (97 ≤ hexDigit d ∧ hexDigit d ≤ 102) := by
  unfold hexDigit
  split <;> omega

theorem hexDigit_injective (d e : Nat) (hd : d < 16) (he : e < 16)
    (h : hexDigit d = hexDigit e) : d = e := by
  unfold hexDigit at h
  split at h <;> split at h <;> omega

/-- The hex encoding of byte strings is injective. -/
theorem hexEncode_injective : ∀ (a b : Bytes), (∀ x ∈ a, x < 256) → (∀ x ∈ b, x < 256) →
    hexEncode a = hexEncode b → a = b := by
  intro a
  induction a with
  | nil =>
    intro b _ _ h
    cases b with
    | nil => rfl
    | cons y ys => simp [hexEncode] at h
  | cons x xs ih =>
    intro b ha hb h
    cases b with
    | nil => simp [hexEncode] at h
    | cons y ys =>
      simp only [hexEncode, List.cons.injEq] at h
      obtain ⟨h₁, h₂, h₃⟩ := h
      have hx : x < 256 := ha x (List.mem_cons_self _ _)
      have hy : y < 256 := hb y (List.mem_cons_self _ _)
      have hq := hexDigit_injective (x / 16) (y / 16) (by omega) (by omega) h₁
      have hr := hexDigit_injective (x % 16) (y % 16) (by omega) (by omega) h₂
      have hxy : x = y := by omega
      have hrest := ih ys (fun z hz => ha z (List.mem_cons_of_mem _ hz))
        (fun z hz => hb z (List.mem_cons_of_mem _ hz)) h₃
      rw [hxy, hrest]

/-- Every character of a hex encoding is a lowercase hexadecimal digit. -/
theorem hexEncode_chars : ∀ (h : Bytes), (∀ x ∈ h, x < 256) →
    ∀ c ∈ hexEncode h, (48 ≤ c ∧ c ≤ 57) ∨ (97 ≤ c ∧ c ≤ 102) := by
  intro h
  induction h with
  | nil => intro _ c hc; simp [hexEncode] at hc
  | cons b bs ih =>
    intro hb c hc
    have hlt : b < 256 := hb b (List.mem_cons_self _ _)
    simp only [hexEncode, List.mem_cons] at hc
    rcases hc with hc | hc | hc
    · rw [hc]
      exact hexDigit_range (b / 16) (by omega)
    · rw [hc]
      exact hexDigit_range (b % 16) (by omega)
    · exact ih (fun z hz => hb z (List.mem_cons_of_mem _ hz)) c hc

/-- C30: every call of `Next` ends within two activations, for every
iterator state and whatever waits in the channels: it returns or is blocked
in its `select`, and more room for activations changes nothing. A second
activation is made only from an iterator that was not done and had not
failed, after the error channel has yielded a value and `done` has been set;
an activation with `done` set or with a failure makes no further activation. -/
theorem Next_recursion_depth (UnpackLog : Log → Except GoError HelloWorldNewTaskCreated)
    (pickErr : Bool) (fuel : Nat) (it : helloworld.HelloWorldNewTaskCreatedIterator) :
    helloworld.Next UnpackLog pickErr (fuel + 2) it = helloworld.Next UnpackLog pickErr 2 it
    ∧ (helloworld.Next UnpackLog pickErr 2 it).2.1 ≠ helloworld.NextResult.unfinished
    ∧ 1 ≤ (helloworld.Next UnpackLog pickErr 2 it).2.2
    ∧ (helloworld.Next UnpackLog pickErr 2 it).2.2 ≤ 2
    ∧ ((helloworld.Next UnpackLog pickErr 2 it).2.2 = 2 →
        it.done = false ∧ it.fail = none
        ∧ ∃ err errs, it.sub = err :: errs
          ∧ helloworld.Next UnpackLog pickErr 2 it
            = ((helloworld.Next UnpackLog pickErr 1
                  { it with sub := errs, done := true, fail := err }).1,
                (helloworld.Next UnpackLog pickErr 1
                  { it with sub := errs, done := true, fail := err }).2.1, 2))
    ∧ ((it.done = true ∨ it.fail ≠ none) →
        helloworld.Next UnpackLog pickErr (fuel + 1) it = helloworld.Next UnpackLog pickErr 1 it
        ∧ (helloworld.Next UnpackLog pickErr 1 it).2.1 ≠ helloworld.NextResult.unfinished
        ∧ (helloworld.Next UnpackLog pickErr 1 it).2.2 = 1) := by
  obtain ⟨h₁, h₂, h₃, h₄, h₅⟩ := Next_two UnpackLog pickErr fuel it
  exact ⟨h₁, h₂, h₃, h₄, h₅, fun h => Next_single UnpackLog pickErr fuel it h⟩

/-- C30, on the toy instance: the error channel yields nil and a log is
waiting; the call makes two activations and returns true, with room for two
activations as with room for seven. -/
theorem Next_recursion_depth_witness :
    helloworld.Next toyUnpackLog true 7 ⟨none, [1, 2], [none], false, none⟩
      = (⟨some ⟨1, ⟨ascii "Foo", 1001⟩, 1⟩, [2], [], true, none⟩,
          helloworld.NextResult.returned true, 2)
    ∧ helloworld.Next toyUnpackLog true (5 + 2) ⟨none, [1, 2], [none], false, none⟩
      = helloworld.Next toyUnpackLog true 2 ⟨none, [1, 2], [none], false, none⟩ :=
  ⟨by decide,
    (Next_recursion_depth toyUnpackLog true 5 ⟨none, [1, 2], [none], false, none⟩).1⟩

/-- C25: for positive `r` and `s` below `2 ^ 256`, the output of
`signMessage` has as many bytes as the minimal big-endian encodings of `r` and
of `s` together, which is between 2 and 64, and 64 exactly when both `r` and
`s` are at least `2 ^ 248`; the pair `(1, 1)` gives 2 bytes. -/
theorem signature_length (L : Library) (rand : Nat) (pk : PrivateKey) (message : Bytes)
    (r s : Int) (hsign : L.Sign rand pk (L.Sum256 message) = .ok (r, s))
    (hr : 0 < r ∧ r < 2 ^ 256) (hs : 0 < s ∧ s < 2 ^ 256) :
    ∃ out, (contract.signMessage L rand pk message).2 = .ok out
      ∧ out.length = (bigBytes r).length + (bigBytes s).length
      ∧ (256 ^ ((bigBytes r).length - 1) ≤ r.natAbs ∧ r.natAbs < 256 ^ (bigBytes r).length)
      ∧ (256 ^ ((bigBytes s).length - 1) ≤ s.natAbs ∧ s.natAbs < 256 ^ (bigBytes s).length)
      ∧ 2 ≤ out.length ∧ out.length ≤ 64
      ∧ (out.length = 64 ↔ 2 ^ 248 ≤ r ∧ 2 ^ 248 ≤ s)
      ∧ (bigBytes 1 ++ bigBytes 1).length = 2 := by
  obtain ⟨hr1, hrlo, hrhi⟩ := bigBytes_length_bounds r hr.1
  obtain ⟨hs1, hslo, hshi⟩ := bigBytes_length_bounds s hs.1
  have hr32 : (bigBytes r).length ≤ 32 := bigBytes_length_le r 32 (by omega)
  have hs32 : (bigBytes s).length ≤ 32 := bigBytes_length_le s 32 (by omega)
  refine ⟨bigBytes r ++ bigBytes s, signMessage_ok L rand pk message r s hsign,
    List.length_append _ _, ⟨hrlo, hrhi⟩, ⟨hslo, hshi⟩, ?_, ?_, ?_, rfl⟩
  · rw [List.length_append]; omega
  · rw [List.length_append]; omega
  · rw [List.length_append]
    constructor
    · intro h64
      have hrlen : (bigBytes r).length = 32 := by omega
      have hslen : (bigBytes s).length = 32 := by omega
      rw [hrlen] at hrlo
      rw [hslen] at hslo
      norm_num at hrlo hslo
      constructor <;> omega
    · rintro ⟨hr248, hs248⟩
      have hr31 : 31 < (bigBytes r).length := bigBytes_length_gt r 31 (by omega)
      have hs31 : 31 < (bigBytes s).length := bigBytes_length_gt s 31 (by omega)
      omega

/-- C25, on the toy instance with `(r, s) = (2, 235)`: two bytes. -/
theorem signature_length_witness :
    ∃ out, (contract.signMessage toyLibrary 1 toyKey []).2 = .ok out
      ∧ out.length = (bigBytes 2).length + (bigBytes 235).length
      ∧ (256 ^ ((bigBytes 2).length - 1) ≤ (2 : Int).natAbs
        ∧ (2 : Int).natAbs < 256 ^ (bigBytes 2).length)
      ∧ (256 ^ ((bigBytes 235).length - 1) ≤ (235 : Int).natAbs
        ∧ (235 : Int).natAbs < 256 ^ (bigBytes 235).length)
      ∧ 2 ≤ out.length ∧ out.length ≤ 64
      ∧ (out.length = 64 ↔ (2 : Int) ^ 248 ≤ 2 ∧ (2 : Int) ^ 248 ≤ 235)
      ∧ (bigBytes 1 ++ bigBytes 1).length = 2 :=
  signature_length toyLibrary 1 toyKey [] 2 235 rfl (by norm_num) (by norm_num)

/-- C26: the encoding `r.Bytes() ++ s.Bytes()` of `signMessage` is not
injective: the distinct pairs `(0x01, 0x0203)` and `(0x0102, 0x03)` of
positive integers below `2 ^ 256` both give the bytes `01 02 03`, so two
signing results give the same output; the encoding is injective on positive
pairs whose `r` have the same byte length. -/
theorem signature_encoding_not_injective :
    ((0x01 : Int), (0x0203 : Int)) ≠ ((0x0102 : Int), (0x03 : Int))
    ∧ ((0 : Int) < 0x01 ∧ (0 : Int) < 0x0203 ∧ (0 : Int) < 0x0102 ∧ (0 : Int) < 0x03)
    ∧ ((0x0203 : Int) < 2 ^ 256 ∧ (0x0102 : Int) < 2 ^ 256)
    ∧ bigBytes 0x01 ++ bigBytes 0x0203 = [1, 2, 3]
    ∧ bigBytes 0x0102 ++ bigBytes 0x03 = [1, 2, 3]
    ∧ (∀ (L L' : Library) (rand rand' : Nat) (pk pk' : PrivateKey) (m m' : Bytes),
        L.Sign rand pk (L.Sum256 m) = .ok (0x01, 0x0203) →
        L'.Sign rand' pk' (L'.Sum256 m') = .ok (0x0102, 0x03) →
        (contract.signMessage L rand pk m).2 = (contract.signMessage L' rand' pk' m').2)
    ∧ (∀ r s r' s' : Int, 0 < r → 0 < s → 0 < r' → 0 < s' →
        (bigBytes r).length = (bigBytes r').length →
        bigBytes r ++ bigBytes s = bigBytes r' ++ bigBytes s' → r = r' ∧ s = s') := by
  refine ⟨by decide, by decide, by norm_num, by decide, by decide, ?_, ?_⟩
  · intro L L' rand rand' pk pk' m m' h h'
    rw [signMessage_ok L rand pk m _ _ h, signMessage_ok L' rand' pk' m' _ _ h']
    rfl
  · intro r s r' s' hr hs hr' hs' hlen heq
    obtain ⟨h₁, h₂⟩ := List.append_inj heq hlen
    exact ⟨bigBytes_injective r r' hr hr' h₁, bigBytes_injective s s' hs hs' h₂⟩

/-- C27: when the Keccak-256 hash of the input is 32 bytes, `eip191Hash`
returns 68 bytes: `0x19`, `0x01`, the characters `0x` and the hex encoding of
the hash, which is 64 lowercase hexadecimal digits; and two inputs have the
same `eip191Hash` exactly when they have the same Keccak-256 hash. -/
theorem eip191Hash_shape (L : Library) (a b : Bytes)
    (ha : (L.Keccak256Hash a).length = 32 ∧ ∀ x ∈ L.Keccak256Hash a, x < 256)
    (hb : (L.Keccak256Hash b).length = 32 ∧ ∀ x ∈ L.Keccak256Hash b, x < 256) :
    (contract.eip191Hash L a).length = 68
    ∧ contract.eip191Hash L a = [0x19, 0x01] ++ ascii "0x" ++ hexEncode (L.Keccak256Hash a)
    ∧ ascii "0x" = [48, 120]
    ∧ (hexEncode (L.Keccak256Hash a)).length = 64
    ∧ (∀ c ∈ hexEncode (L.Keccak256Hash a), (48 ≤ c ∧ c ≤ 57) ∨ (97 ≤ c ∧ c ≤ 102))
    ∧ (contract.eip191Hash L a = contract.eip191Hash L b
        ↔ L.Keccak256Hash a = L.Keccak256Hash b) := by
  have hshape : ∀ m, contract.eip191Hash L m
      = [0x19, 0x01] ++ ascii "0x" ++ hexEncode (L.Keccak256Hash m) := by
    intro m
    simp only [contract.eip191Hash, Hex, List.append_assoc]
  have h64 : (hexEncode (L.Keccak256Hash a)).length = 64 := by
    rw [hexEncode_length, ha.1]
  refine ⟨?_, hshape a, rfl, h64, hexEncode_chars _ ha.2, ?_⟩
  · rw [hshape a, List.length_append, h64]
    rfl
  · constructor
    · intro h
      rw [hshape a, hshape b] at h
      exact hexEncode_injective _ _ ha.2 hb.2 (List.append_cancel_left h)
    · intro h
      simp only [contract.eip191Hash, h]

/-- C27, on the toy instance with the inputs `Hello Foo` and `Hello Bar`. -/
theorem eip191Hash_shape_witness :
    (contract.eip191Hash toyLibrary (ascii "Hello Foo")).length = 68
    ∧ (contract.eip191Hash toyLibrary (ascii "Hello Foo")
        = contract.eip191Hash toyLibrary (ascii "Hello Bar")
        ↔ toyLibrary.Keccak256Hash (ascii "Hello Foo")
          = toyLibrary.Keccak256Hash (ascii "Hello Bar")) :=
  have h := eip191Hash_shape toyLibrary (ascii "Hello Foo") (ascii "Hello Bar")
    ⟨by decide, by decide⟩ ⟨by decide, by decide⟩
  ⟨h.1, h.2.2.2.2.2⟩

/-! ## Lemmas on the gas parameters and on the random names -/

/-- The conversion `uint64` of a negative `int` adds `2 ^ 64`. -/
theorem uint64_of_negative (g : Int) (hlo : -2 ^ 63 ≤ g) (hhi : g < 0) :
    ((uint64 g : Nat) : Int) = g + 2 ^ 64 := by
  unfold uint64
  have hmod : g % 2 ^ 64 = g + 2 ^ 64 := by omega
  rw [hmod]
  exact Int.toNat_of_nonneg (by omega)

/-- The service `contract.New` makes when the node answers and the binding
is created. -/
theorem contract_New_of_ok (L : Library) (client : Client) (gasLimit : Nat)
    (gasPrice : Option Int) (smartContractAddress : Bytes) (chainID : Option Int)
    (hnet : client.NetworkID = .ok chainID) :
    contract.New L client none gasLimit gasPrice smartContractAddress
      = .ok ⟨gasLimit, none, chainID, L.HexToAddress smartContractAddress⟩ := by
  unfold contract.New
  simp only [hnet]

/-- The service `eigen.New` makes when the node answers and the binding is
created. -/
theorem eigen_New_of_ok (L : Library) (client : Client) (gasLimit : Nat)
    (gasPrice : Option Int) (delegationAddress : Bytes) (chainID : Option Int)
    (hnet : client.NetworkID = .ok chainID) :
    eigen.New L gasLimit gasPrice delegationAddress none client
      = .ok ⟨chainID, gasLimit, gasPrice, L.HexToAddress delegationAddress⟩ := by
  unfold eigen.New
  simp only [hnet]

/-- What the task generator's `main` does once start-up has succeeded. -/
theorem spam_main_after_startup (L : Library) (H : operator.Host) (rounds : List spam.Round)
    (env : String → Bytes) (client : Client) (gasLimit gasPrice : Int)
    (cs : contract.Service) (pk : PrivateKey)
    (henv : H.Read = .ok env)
    (hdial : H.Dial (ascii "ws://" ++ env "RPC_URL") = .ok client)
    (hlimit : H.Atoi (env "GAS_LIMIT") = .ok gasLimit)
    (hprice : H.Atoi (env "GAS_PRICE") = .ok gasPrice)
    (hcs : contract.New L client H.NewHelloWorld (uint64 gasLimit) (some gasPrice)
      (env "HELLO_WORLD_ADDRESS") = .ok cs)
    (hkey : H.HexToECDSA (env "WALLET_KEY") = .ok pk) :
    spam.main L H rounds = spam.loop L cs pk rounds := by
  unfold spam.main
  simp only [henv, hdial, hlimit, hprice, hcs, hkey]

/-- The decimal form of a number below 1000: one to three digits, no
leading zero, and the number as its value. -/
theorem decimal_below_1000 : ∀ n, n < 1000 →
    1 ≤ (decimal n).length ∧ (decimal n).length ≤ 3 ∧ decimalValue (decimal n) = n
    ∧ (∀ c ∈ decimal n, 48 ≤ c ∧ c ≤ 57) ∧ (n ≠ 0 → (decimal n).head? ≠ some 48) := by
  set_option maxRecDepth 100000 in decide

theorem spamNames_length : spamNames.length = 25000 := by
  simp [spamNames, spam.adjectives, spam.nouns, List.length_flatMap]

/-- C28: neither a negative `GAS_LIMIT` nor a negative `GAS_PRICE` is
rejected. Whenever both parse, to `g` and `p`, and the rest of start-up
succeeds, both services are made with the gas limit `uint64(g)` and
`eigen.New` is handed `p` as it is; `main` goes on to the registration and the
task generator's `main` to its loop. For `-2 ^ 63 ≤ g < 0`, whatever `p` is,
the gas limit is `g + 2 ^ 64`, also in the options of the registration and of
the responder; for `p < 0`, whatever `g` is, the gas price handed on is
negative. -/
theorem negative_gas_is_accepted (L : Library) (H : operator.Host) (delegation : BoundContract)
    (watch : Option GoError) (rounds : List contract.Round) (spamRounds : List spam.Round)
    (env : String → Bytes) (client : Client) (g p : Int) (chainID : Option Int)
    (pk : PrivateKey)
    (henv : H.Read = .ok env)
    (hdial : H.Dial (ascii "ws://" ++ env "RPC_URL") = .ok client)
    (hlimit : H.Atoi (env "GAS_LIMIT") = .ok g)
    (hprice : H.Atoi (env "GAS_PRICE") = .ok p)
    (hnet : client.NetworkID = .ok chainID)
    (hbound₁ : H.NewHelloWorld = none) (hbound₂ : H.NewContractDelegationManager = none)
    (hkey : H.HexToECDSA (env "WALLET_KEY") = .ok pk) :
    ∃ cs es,
      contract.New L client H.NewHelloWorld (uint64 g) (some p) (env "HELLO_WORLD_ADDRESS")
          = .ok cs
      ∧ eigen.New L (uint64 g) (some p) (env "HOLESKY_DELEGATION_MANAGER_ADDRESS")
          H.NewContractDelegationManager client = .ok es
      ∧ cs.gasLimit = uint64 g
      ∧ es.gasLimit = uint64 g
      ∧ es.gasPrice = some p
      ∧ operator.main L H delegation watch rounds
          = (match eigen.RegisterAsOperator L es client delegation pk with
            | (c1, some err) =>
              (c1, operator.Exit.fatal "Error registering as operator: %v\n" err)
            | (c1, none) =>
              match contract.StartListeningForEvents L cs watch pk rounds with
              | (c2, contract.Outcome.returned (some err)) =>
                (c1 ++ c2,
                  operator.Exit.fatal "Error while listening for smart contract events: %v\n"
                    err)
              | (c2, contract.Outcome.returned none) => (c1 ++ c2, operator.Exit.returned)
              | (c2, contract.Outcome.waiting) => (c1 ++ c2, operator.Exit.waiting))
      ∧ spam.main L H spamRounds = spam.loop L cs pk spamRounds
      ∧ (-2 ^ 63 ≤ g → g < 0 →
          (cs.gasLimit : Int) = g + 2 ^ 64
          ∧ (es.gasLimit : Int) = g + 2 ^ 64
          ∧ (∀ opts ∈ builtOpts (eigen.RegisterAsOperator L es client delegation pk).1,
              (opts.GasLimit : Int) = g + 2 ^ 64)
          ∧ (∀ (client' : Client) (opts : TransactOpts),
              (contract.transactor L cs client' pk).2 = .ok opts →
              (opts.GasLimit : Int) = g + 2 ^ 64))
      ∧ (p < 0 → ∃ q, es.gasPrice = some q ∧ q < 0) := by
  have hcs := contract_New_of_ok L client (uint64 g) (some p) (env "HELLO_WORLD_ADDRESS")
    chainID hnet
  have hes := eigen_New_of_ok L client (uint64 g) (some p)
    (env "HOLESKY_DELEGATION_MANAGER_ADDRESS") chainID hnet
  rw [← hbound₁] at hcs
  rw [← hbound₂] at hes
  refine ⟨_, _, hcs, hes, rfl, rfl, rfl, ?_, ?_, ?_, ?_⟩
  · exact main_after_startup L H delegation watch rounds env client g p _ _ pk henv hdial
      hlimit hprice hcs hes hkey
  · exact spam_main_after_startup L H spamRounds env client g p _ pk henv hdial hlimit hprice
      hcs hkey
  · intro hlo hhi
    have hwrap := uint64_of_negative g hlo hhi
    refine ⟨hwrap, hwrap, ?_, ?_⟩
    · intro opts hopts
      obtain ⟨pub, nonce, keyed, _, _, _, hopts⟩ :=
        RegisterAsOperator_builtOpts_inv L _ client delegation pk opts hopts
      rw [hopts]
      exact hwrap
    · intro client' opts hopts
      obtain ⟨pub, nonce, keyed, _, _, _, hopts⟩ := transactor_ok_inv L _ client' pk opts hopts
      rw [hopts]
      exact hwrap
  · intro hp
    exact ⟨p, rfl, hp⟩

/-- C28, on the toy instance: `GAS_LIMIT=-1` with `GAS_PRICE=5`, then
`GAS_LIMIT=300000` with `GAS_PRICE=-5`, then both negative. In the first and
the last run the registration and the response are built with the gas limit
`2 ^ 64 - 1`; in all three `main` reaches the responder loop. -/
theorem negative_gas_is_accepted_witness :
    ((builtOpts (operator.main toyLibrary
          (hostWith fun key => if key = "GAS_PRICE" then ascii "5" else negativeGasEnv key)
          toyContract none [toyRound fooEvent 8 1]).1).map TransactOpts.GasLimit
        = [18446744073709551615, 18446744073709551615]
      ∧ (operator.main toyLibrary
          (hostWith fun key => if key = "GAS_PRICE" then ascii "5" else negativeGasEnv key)
          toyContract none [toyRound fooEvent 8 1]).2 = operator.Exit.waiting)
    ∧ ((operator.main toyLibrary
          (hostWith fun key => if key = "GAS_LIMIT" then ascii "300000" else negativeGasEnv key)
          toyContract none [toyRound fooEvent 8 1]).2 = operator.Exit.waiting
      ∧ ∃ es, eigen.New toyLibrary (uint64 300000) (some (-5))
            ((fun key => if key = "GAS_LIMIT" then ascii "300000" else negativeGasEnv key)
              "HOLESKY_DELEGATION_MANAGER_ADDRESS")
            (hostWith fun key =>
              if key = "GAS_LIMIT" then ascii "300000"
              else negativeGasEnv key).NewContractDelegationManager
            (toyClient 7) = .ok es
          ∧ ∃ q, es.gasPrice = some q ∧ q < 0)
    ∧ ((builtOpts (operator.main toyLibrary (hostWith negativeGasEnv) toyContract none
          [toyRound fooEvent 8 1]).1).map TransactOpts.GasLimit
        = [18446744073709551615, 18446744073709551615]
      ∧ ∃ cs es,
        contract.New toyLibrary (toyClient 7) (hostWith negativeGasEnv).NewHelloWorld
            (uint64 (-1)) (some (-5)) (negativeGasEnv "HELLO_WORLD_ADDRESS") = .ok cs
        ∧ eigen.New toyLibrary (uint64 (-1)) (some (-5))
            (negativeGasEnv "HOLESKY_DELEGATION_MANAGER_ADDRESS")
            (hostWith negativeGasEnv).NewContractDelegationManager (toyClient 7) = .ok es
        ∧ cs.gasLimit = uint64 (-1)
        ∧ es.gasLimit = uint64 (-1)
        ∧ es.gasPrice = some (-5)) :=
  have h₁ := negative_gas_is_accepted toyLibrary
    (hostWith fun key => if key = "GAS_PRICE" then ascii "5" else negativeGasEnv key)
    toyContract none [toyRound fooEvent 8 1] []
    (fun key => if key = "GAS_PRICE" then ascii "5" else negativeGasEnv key)
    (toyClient 7) (-1) 5 (some 17000) toyKey rfl rfl rfl rfl rfl rfl rfl rfl
  have h₂ := negative_gas_is_accepted toyLibrary
    (hostWith fun key => if key = "GAS_LIMIT" then ascii "300000" else negativeGasEnv key)
    toyContract none [toyRound fooEvent 8 1] []
    (fun key => if key = "GAS_LIMIT" then ascii "300000" else negativeGasEnv key)
    (toyClient 7) 300000 (-5) (some 17000) toyKey rfl rfl rfl rfl rfl rfl rfl rfl
  have h₃ := negative_gas_is_accepted toyLibrary (hostWith negativeGasEnv) toyContract none
    [toyRound fooEvent 8 1] [] negativeGasEnv (toyClient 7) (-1) (-5) (some 17000) toyKey
    rfl rfl rfl rfl rfl rfl rfl rfl
  ⟨⟨by decide, by decide⟩,
    ⟨by decide,
      match h₂ with
      | ⟨_, es, _, hes, _, _, _, _, _, _, hneg⟩ => ⟨es, hes, hneg (by decide)⟩⟩,
    ⟨by decide,
      match h₃ with
      | ⟨cs, es, h₁', h₂', h₃', h₄', h₅', _⟩ => ⟨cs, es, h₁', h₂', h₃', h₄', h₅'⟩⟩⟩

/-- C29: when every `rand.Intn(n)` returns a value below `n`, the three
draws of `generateRandomName` are below 5, 5 and 1000, so both slices are
indexed within bounds, and the name returned is the adjective at the first
draw, then the noun at the second draw, then the decimal form, without leading
zeros, of the third draw. The name has 8 to 14 characters and is one of at
most 25000 names. -/
theorem random_name_shape (Intn : Nat → Nat → Nat)
    (hIntn : ∀ k n, 0 < n → Intn k n < n) :
    Intn 0 5 < 5 ∧ Intn 1 5 < 5 ∧ Intn 2 1000 < 1000
    ∧ ∃ adjective noun,
      [ascii "Quick", ascii "Lazy", ascii "Sleepy", ascii "Noisy", ascii "Hungry"][Intn 0 5]?
          = some adjective
      ∧ [ascii "Fox", ascii "Dog", ascii "Cat", ascii "Mouse", ascii "Bear"][Intn 1 5]?
          = some noun
      ∧ spam.generateRandomName Intn = some (adjective ++ noun ++ decimal (Intn 2 1000))
      ∧ decimalValue (decimal (Intn 2 1000)) = Intn 2 1000
      ∧ (∀ c ∈ decimal (Intn 2 1000), 48 ≤ c ∧ c ≤ 57)
      ∧ (Intn 2 1000 ≠ 0 → (decimal (Intn 2 1000)).head? ≠ some 48)
      ∧ 8 ≤ (adjective ++ noun ++ decimal (Intn 2 1000)).length
      ∧ (adjective ++ noun ++ decimal (Intn 2 1000)).length ≤ 14
      ∧ adjective ++ noun ++ decimal (Intn 2 1000) ∈ spamNames
      ∧ spamNames.length = 25000 := by
  have hi : Intn 0 5 < 5 := hIntn 0 5 (by decide)
  have hj : Intn 1 5 < 5 := hIntn 1 5 (by decide)
  have hk : Intn 2 1000 < 1000 := hIntn 2 1000 (by decide)
  have ha : ∃ adjective, spam.adjectives[Intn 0 5]? = some adjective
      ∧ adjective ∈ spam.adjectives ∧ 4 ≤ adjective.length ∧ adjective.length ≤ 6 := by
    generalize Intn 0 5 = i at hi
    interval_cases i <;> exact ⟨_, rfl, by decide, by decide, by decide⟩
  have hn : ∃ noun, spam.nouns[Intn 1 5]? = some noun
      ∧ noun ∈ spam.nouns ∧ 3 ≤ noun.length ∧ noun.length ≤ 5 := by
    generalize Intn 1 5 = j at hj
    interval_cases j <;> exact ⟨_, rfl, by decide, by decide, by decide⟩
  obtain ⟨adjective, hadj, hamem, ha4, ha6⟩ := ha
  obtain ⟨noun, hnoun, hnmem, hn3, hn5⟩ := hn
  obtain ⟨hd1, hd3, hval, hdigits, hlead⟩ := decimal_below_1000 (Intn 2 1000) hk
  have hlen₁ : spam.adjectives.length = 5 := rfl
  have hlen₂ : spam.nouns.length = 5 := rfl
  refine ⟨hi, hj, hk, adjective, noun, hadj, hnoun, ?_, hval, hdigits, hlead, ?_, ?_, ?_,
    spamNames_length⟩
  · unfold spam.generateRandomName
    simp only [hlen₁, hlen₂, hadj, hnoun]
  · simp only [List.length_append]
    omega
  · simp only [List.length_append]
    omega
  · simp only [spamNames, List.mem_flatMap, List.mem_map, List.mem_range]
    exact ⟨adjective, hamem, noun, hnmem, Intn 2 1000, hk, rfl⟩

/-- C29, on two random sources: the draws 2, 2, 7 give `SleepyCat7` and the
draws 4, 4, 999 give `HungryBear999`. -/
theorem random_name_shape_witness :
    (toyIntn 7 0 5 = 2 ∧ toyIntn 7 1 5 = 2 ∧ toyIntn 7 2 1000 = 7
      ∧ spam.generateRandomName (toyIntn 7) = some (ascii "SleepyCat7"))
    ∧ (toyIntn 999 0 5 = 4 ∧ toyIntn 999 1 5 = 4 ∧ toyIntn 999 2 1000 = 999
      ∧ spam.generateRandomName (toyIntn 999) = some (ascii "HungryBear999")) :=
  have h₁ := random_name_shape (toyIntn 7) (fun _ n hn => Nat.mod_lt 7 hn)
  have h₂ := random_name_shape (toyIntn 999) (fun _ n hn => Nat.mod_lt 999 hn)
  ⟨⟨rfl, rfl, rfl,
      match h₁.2.2.2 with
      | ⟨adjective, noun, hadj, hnoun, hname, _⟩ => by
        cases hadj
        cases hnoun
        exact hname⟩,
    ⟨rfl, rfl, rfl,
      match h₂.2.2.2 with
      | ⟨adjective, noun, hadj, hnoun, hname, _⟩ => by
        cases hadj
        cases hnoun
        exact hname⟩⟩
